import Mathlib

/-!
# Sonar: dispatch, symbol resolution and instrumentation state

A shallow embedding of the core of Sonar (`src/common`): the operation codes
(`Operation.hpp`), the table of interface states and the instrumentation
life cycle (`Instrument.hpp`), the environment variable reader (`Envar.hpp`,
`StringSupport.hpp`), the error reporter (`IOHandler.hpp`), the symbol loader
(`Symbol.hpp`) and the dispatcher (`Manager.hpp`).

Stateful code is written in state-passing style over `State`; everything the
process does that is visible outside of it (calls into the ovni backend, calls
of the real MPI functions, symbol lookups, reads of the environment and writes
to the error stream) is appended to `State.trace`.  A call of
`IOHandler::fail` ends the process and is the `Outcome.fatal` result.
-/

namespace sonar

/-! ## Operation.hpp -/

namespace Operation

/-- The operation code (`enum Code`), in declaration order starting at zero. -/
inductive Code where
  | Init | InitThread | Finalize
  | Wait | Waitall | Waitany | Waitsome
  | Test | Testall | Testany | Testsome
  | Recv | Send | Bsend | Rsend | Ssend
  | Sendrecv | SendrecvReplace
  | Allgather | Allgatherv | Allreduce
  | Alltoall | Alltoallv | Alltoallw
  | Barrier | Bcast | Gather | Gatherv
  | Reduce | ReduceScatter | ReduceScatterBlock
  | Scatter | Scatterv | Scan | Exscan
  | Irecv | Isend | Ibsend | Irsend | Issend
  | Isendrecv | IsendrecvReplace
  | Iallgather | Iallgatherv | Iallreduce
  | Ialltoall | Ialltoallv | Ialltoallw
  | Ibarrier | Ibcast | Igather | Igatherv
  | Ireduce | IreduceScatter | IreduceScatterBlock
  | Iscatter | Iscatterv | Iscan | Iexscan
  deriving DecidableEq, Repr

/-- The enumerator `NumCodes`, one past the last operation code. -/
def NumCodes : Nat := 59

/-- The integer value of an operation code. -/
def Code.toNat : Code → Nat
  | .Init => 0 | .InitThread => 1 | .Finalize => 2
  | .Wait => 3 | .Waitall => 4 | .Waitany => 5 | .Waitsome => 6
  | .Test => 7 | .Testall => 8 | .Testany => 9 | .Testsome => 10
  | .Recv => 11 | .Send => 12 | .Bsend => 13 | .Rsend => 14 | .Ssend => 15
  | .Sendrecv => 16 | .SendrecvReplace => 17
  | .Allgather => 18 | .Allgatherv => 19 | .Allreduce => 20
  | .Alltoall => 21 | .Alltoallv => 22 | .Alltoallw => 23
  | .Barrier => 24 | .Bcast => 25 | .Gather => 26 | .Gatherv => 27
  | .Reduce => 28 | .ReduceScatter => 29 | .ReduceScatterBlock => 30
  | .Scatter => 31 | .Scatterv => 32 | .Scan => 33 | .Exscan => 34
  | .Irecv => 35 | .Isend => 36 | .Ibsend => 37 | .Irsend => 38 | .Issend => 39
  | .Isendrecv => 40 | .IsendrecvReplace => 41
  | .Iallgather => 42 | .Iallgatherv => 43 | .Iallreduce => 44
  | .Ialltoall => 45 | .Ialltoallv => 46 | .Ialltoallw => 47
  | .Ibarrier => 48 | .Ibcast => 49 | .Igather => 50 | .Igatherv => 51
  | .Ireduce => 52 | .IreduceScatter => 53 | .IreduceScatterBlock => 54
  | .Iscatter => 55 | .Iscatterv => 56 | .Iscan => 57 | .Iexscan => 58

/-- All operation codes below `NumCodes`, in increasing order of their value. -/
def Code.all : List Code :=
  [ .Init, .InitThread, .Finalize,
    .Wait, .Waitall, .Waitany, .Waitsome,
    .Test, .Testall, .Testany, .Testsome,
    .Recv, .Send, .Bsend, .Rsend, .Ssend,
    .Sendrecv, .SendrecvReplace,
    .Allgather, .Allgatherv, .Allreduce,
    .Alltoall, .Alltoallv, .Alltoallw,
    .Barrier, .Bcast, .Gather, .Gatherv,
    .Reduce, .ReduceScatter, .ReduceScatterBlock,
    .Scatter, .Scatterv, .Scan, .Exscan,
    .Irecv, .Isend, .Ibsend, .Irsend, .Issend,
    .Isendrecv, .IsendrecvReplace,
    .Iallgather, .Iallgatherv, .Iallreduce,
    .Ialltoall, .Ialltoallv, .Ialltoallw,
    .Ibarrier, .Ibcast, .Igather, .Igatherv,
    .Ireduce, .IreduceScatter, .IreduceScatterBlock,
    .Iscatter, .Iscatterv, .Iscan, .Iexscan ]

/-- The version of the operation regarding counts and displacements
(`enum Count`). -/
inductive Count where
  | Regular | Large
  deriving DecidableEq, Repr

/-- The programming language of the operation (`enum Lang`). -/
inductive Lang where
  | C | Fortran
  deriving DecidableEq, Repr

end Operation

/-! ## Instrument.hpp: the table of interface states -/

namespace Instrument

/-- The enter and exit ovni model-category-value of a state and whether the
state is an alias of another state (`struct StateInfo`). -/
structure StateInfo where
  _enterMCV : String
  _exitMCV : String
  _isAlias : Bool
  deriving DecidableEq, Repr

open Operation.Code in
/-- The entry of the table `Interfaces` designated by each operation code. -/
def InterfacesAt : Operation.Code → StateInfo
  | Init                => ⟨"MUi", "MUI", false⟩
  | InitThread          => ⟨"MUt", "MUT", false⟩
  | Finalize            => ⟨"MUf", "MUF", false⟩
  | Wait                => ⟨"MW[", "MW]", false⟩
  | Waitall             => ⟨"MWa", "MWA", false⟩
  | Waitany             => ⟨"MWy", "MWY", false⟩
  | Waitsome            => ⟨"MWs", "MWS", false⟩
  | Test                => ⟨"MT[", "MT]", false⟩
  | Testall             => ⟨"MTa", "MTA", false⟩
  | Testany             => ⟨"MTy", "MTY", false⟩
  | Testsome            => ⟨"MTs", "MTS", false⟩
  | Recv                => ⟨"MR[", "MR]", false⟩
  | Send                => ⟨"MS[", "MS]", false⟩
  | Bsend               => ⟨"MSb", "MSB", false⟩
  | Rsend               => ⟨"MSr", "MSR", false⟩
  | Ssend               => ⟨"MSs", "MSS", false⟩
  | Sendrecv            => ⟨"MRs", "MRS", false⟩
  | SendrecvReplace     => ⟨"MRo", "MRO", false⟩
  | Allgather           => ⟨"MAg", "MAG", false⟩
  | Allgatherv          => ⟨"MAg", "MAG", true⟩
  | Allreduce           => ⟨"MAr", "MAR", false⟩
  | Alltoall            => ⟨"MAa", "MAA", false⟩
  | Alltoallv           => ⟨"MAa", "MAA", true⟩
  | Alltoallw           => ⟨"MAa", "MAA", true⟩
  | Barrier             => ⟨"MCb", "MCB", false⟩
  | Bcast               => ⟨"MDb", "MDB", false⟩
  | Gather              => ⟨"MDg", "MDG", false⟩
  | Gatherv             => ⟨"MDg", "MDG", true⟩
  | Reduce              => ⟨"ME[", "ME]", false⟩
  | ReduceScatter       => ⟨"MEs", "MES", false⟩
  | ReduceScatterBlock  => ⟨"MEb", "MEB", false⟩
  | Scatter             => ⟨"MDs", "MDS", false⟩
  | Scatterv            => ⟨"MDs", "MDS", true⟩
  | Scan                => ⟨"MCs", "MCS", false⟩
  | Exscan              => ⟨"MCe", "MCE", false⟩
  | Irecv               => ⟨"Mr[", "Mr]", false⟩
  | Isend               => ⟨"Ms[", "Ms]", false⟩
  | Ibsend              => ⟨"Msb", "MsB", false⟩
  | Irsend              => ⟨"Msr", "MsR", false⟩
  | Issend              => ⟨"Mss", "MsS", false⟩
  | Isendrecv           => ⟨"Mrs", "MrS", false⟩
  | IsendrecvReplace    => ⟨"Mro", "MrO", false⟩
  | Iallgather          => ⟨"Mag", "MaG", false⟩
  | Iallgatherv         => ⟨"Mag", "MaG", true⟩
  | Iallreduce          => ⟨"Mar", "MaR", false⟩
  | Ialltoall           => ⟨"Maa", "MaA", false⟩
  | Ialltoallv          => ⟨"Maa", "MaA", true⟩
  | Ialltoallw          => ⟨"Maa", "MaA", true⟩
  | Ibarrier            => ⟨"Mcb", "McB", false⟩
  | Ibcast              => ⟨"Mdb", "MdB", false⟩
  | Igather             => ⟨"Mdg", "MdG", false⟩
  | Igatherv            => ⟨"Mdg", "MdG", true⟩
  | Ireduce             => ⟨"Me[", "Me]", false⟩
  | IreduceScatter      => ⟨"Mes", "MeS", false⟩
  | IreduceScatterBlock => ⟨"Meb", "MeB", false⟩
  | Iscatter            => ⟨"Mds", "MdS", false⟩
  | Iscatterv           => ⟨"Mds", "MdS", true⟩
  | Iscan               => ⟨"Mcs", "McS", false⟩
  | Iexscan             => ⟨"Mce", "McE", false⟩

/-- The table `Interfaces[Operation::NumCodes]` as the array it is in memory:
the entry of every operation code, at the index that is the code's value. -/
def Interfaces : List StateInfo :=
  Operation.Code.all.map InterfacesAt

/-- The walk of `checkStateTableCorrectness` over one entry: `existing` is the
set of model-category-values seen so far, the result is the updated set or the
reason parts given to `IOHandler::fail`. -/
def checkState (existing : List String) (state : StateInfo) :
    Except (List String) (List String) :=
  if state._isAlias then
    if ¬ (state._enterMCV ∈ existing) then
      .error ["ovni mcv ", state._enterMCV, " is alias but not present"]
    else if ¬ (state._exitMCV ∈ existing) then
      .error ["ovni mcv ", state._exitMCV, " is alias but not present"]
    else
      .ok existing
  else
    if state._enterMCV ∈ existing then
      .error ["ovni mcv ", state._enterMCV, " is repeated"]
    else
      let existing := state._enterMCV :: existing
      if state._exitMCV ∈ existing then
        .error ["ovni mcv ", state._exitMCV, " is repated"]
      else
        .ok (state._exitMCV :: existing)

/-- The loop of `checkStateTableCorrectness` over a table, from a given set of
existing values; it stops at the first failure. -/
def checkStates : List String → List StateInfo → Except (List String) (List String)
  | existing, [] => .ok existing
  | existing, state :: rest =>
    match checkState existing state with
    | .ok existing => checkStates existing rest
    | .error parts => .error parts

/-- The check of `checkStateTableCorrectness` on an arbitrary table: `none`
when the walk completes, the reason parts of the fatal error otherwise. -/
def checkStateTable (table : List StateInfo) : Option (List String) :=
  match checkStates [] table with
  | .ok _ => none
  | .error parts => some parts

end Instrument

/-! ## The process and its surroundings -/

/-- The template arguments of one instantiation of `Manager::process`: the
language, the operation code, the count version, the return type and the
parameter types.  Every instantiation has its own function-local static
`symbol`. -/
structure Instantiation where
  lang : Operation.Lang
  code : Operation.Code
  count : Operation.Count
  returnTy : String
  params : List String
  deriving DecidableEq, Repr

/-- What the process does that is visible outside of it, one constructor per
external function called.  An ovni event is recorded with its
model-category-value and its payload; the clock stamp that the backend
supplies through `ovni_clock_now` is not part of the record. -/
inductive Effect where
  /-- A call `getenv(name)`. -/
  | getenv (name : String)
  /-- A call `dlsym(RTLD_NEXT, name)`. -/
  | dlsym (name : String)
  /-- A call `(*symbol)(params...)` of a resolved function. -/
  | call (symbol : Nat) (params : List Int)
  /-- A call `ovni_proc_init(app, loom, pid)`. -/
  | ovni_proc_init (app : Int) (loom : String) (pid : Int)
  /-- A call `ovni_thread_init(tid)`. -/
  | ovni_thread_init (tid : Int)
  /-- A call `ovni_add_cpu(index, phyid)`. -/
  | ovni_add_cpu (index : Int) (phyid : Int)
  /-- A call `ovni_ev_emit` of an event with the given value and payload. -/
  | ovni_ev_emit (mcv : String) (payload : List Int)
  /-- A call `ovni_proc_set_rank(rank, nranks)`. -/
  | ovni_proc_set_rank (rank : Int) (nranks : Int)
  /-- A call `ovni_flush()`. -/
  | ovni_flush
  /-- A call `ovni_proc_fini()`. -/
  | ovni_proc_fini
  /-- A message written to the error stream. -/
  | stderr (message : String)
  /-- A direct call of a function of the MPI library that has no wrapper (the
  rank and size queries of `getInformation`), by its name. -/
  | query (function : String)
  deriving DecidableEq, Repr

/-- Whether an effect is an emitted ovni event. -/
def Effect.isEvent : Effect → Bool
  | .ovni_ev_emit _ _ => true
  | _ => false

/-- Whether an effect is a call into the ovni backend. -/
def Effect.isBackend : Effect → Bool
  | .ovni_proc_init _ _ _ => true
  | .ovni_thread_init _ => true
  | .ovni_add_cpu _ _ => true
  | .ovni_ev_emit _ _ => true
  | .ovni_proc_set_rank _ _ => true
  | .ovni_flush => true
  | .ovni_proc_fini => true
  | _ => false

/-- Whether an effect is the invocation of a resolved function. -/
def Effect.isCall : Effect → Bool
  | .call _ _ => true
  | _ => false

/-- How a call of a real function ends: it returns a value, or a failure
propagates out of it. -/
inductive Completion where
  | returned (value : Int)
  | threw (exception : Int)
  deriving DecidableEq, Repr

/-- The surroundings of the process: the environment variables, the dynamic
linker, the functions behind the resolved addresses, the host and the
identifiers of the process and the thread, and whether the build defines
`NDEBUG`.  The address 0 is `nullptr`. -/
structure Env where
  getenv : String → Option String
  dlsym : String → Nat
  call : Nat → List Int → Completion
  gethostname : Option String
  getpid : Int
  gettid : Int
  NDEBUG : Bool

/-- The mutable state of the process: the two static flags of `Instrument`,
the initialised function-local statics `symbol` of `Manager::process`, the
readiness of the ovni thread as `ovni_thread_isready` reports it (a thread is
ready once `ovni_thread_init` has run for it), and the effects so far, oldest
first. -/
structure State where
  _ovniEnabled : Bool
  _ovniFinalize : Bool
  symbols : List (Instantiation × Nat)
  threadReady : Bool
  trace : List Effect
  deriving DecidableEq, Repr

/-- The state at process start (`Instrument.cpp`): both flags false, no symbol
resolved, no effect yet. -/
def State.initial (threadReady : Bool) : State :=
  ⟨false, false, [], threadReady, []⟩

/-- Append one effect to the trace. -/
def State.log (s : State) (e : Effect) : State :=
  { s with trace := s.trace ++ [e] }

/-- How `IOHandler::fail` ends the process. -/
inductive Termination where
  | abort
  | exit (status : Int)
  deriving DecidableEq, Repr

/-- The result of running a piece of the program: it returns a value, a
failure of the real call propagates out of it, or the process is terminated. -/
inductive Outcome (α : Type) where
  | ok (value : α) (s : State)
  | threw (exception : Int) (s : State)
  | fatal (how : Termination) (s : State)
  deriving DecidableEq, Repr

/-- The rest of a function after one of its steps: it runs on what the step
returned, in the state the step left; a failure that propagates out of the
step, or a termination of the process in it, ends the function there. -/
def Outcome.andThen {α β : Type} : Outcome α → (α → State → Outcome β) → Outcome β
  | .ok value s, rest => rest value s
  | .threw e s, _ => .threw e s
  | .fatal how s, _ => .fatal how s

/-- The state in which a piece of the program ends. -/
def Outcome.state {α : Type} : Outcome α → State
  | .ok _ s => s
  | .threw _ s => s
  | .fatal _ s => s

/-- Whether the process was terminated. -/
def Outcome.isFatal {α : Type} : Outcome α → Bool
  | .fatal _ _ => true
  | _ => false

/-! ## IOHandler.hpp -/

namespace IOHandler

/-- The parts of a message streamed one after the other (`emitReasonParts`). -/
def emitReasonParts : List String → String
  | [] => ""
  | firstReasonPart :: reasonParts => firstReasonPart ++ emitReasonParts reasonParts

/-- Print an error message and terminate: `abort()` unless `NDEBUG` is
defined, `exit(1)` otherwise (`IOHandler::fail`). -/
def fail {α : Type} (env : Env) (reasonParts : List String) (s : State) : Outcome α :=
  .fatal (if env.NDEBUG then .exit 1 else .abort)
    (s.log (.stderr ("Error: " ++ emitReasonParts reasonParts ++ "\n")))

/-- Print a warning message (`IOHandler::warn`). -/
def warn (reasonParts : List String) (s : State) : State :=
  s.log (.stderr ("Warning: " ++ emitReasonParts reasonParts ++ "\n"))

end IOHandler

/-! ## StringSupport.hpp and Envar.hpp -/

namespace StringSupport

/-- The white space that formatted extraction skips and stops at. -/
def isspace (c : Char) : Bool :=
  c = ' ' || c = '\t' || c = '\n' || c = Char.ofNat 11 || c = Char.ofNat 12 || c = '\r'

/-- Parse a string to a `std::string` (`StringSupport::parse`): `stream >> tmp`
skips leading white space and extracts up to the next white space; the
extraction fails when it extracts no character.  The result is the parsed
value, or `none` when the parsing failed. -/
def parse (str : String) : Option String :=
  let tmp := (str.data.dropWhile isspace).takeWhile (fun c => !isspace c)
  if tmp.isEmpty then none else some (String.mk tmp)

end StringSupport

/-- An environment variable of type `std::string` (`class Envar`). -/
structure Envar where
  _value : String
  _isPresent : Bool
  _name : String
  deriving DecidableEq, Repr

namespace Envar

/-- Construct an environment variable (`Envar::Envar`). -/
def construct (env : Env) (name : String) (defaultValue : String) (s : State) :
    Envar × State :=
  let s := s.log (.getenv name)
  match env.getenv name with
  | none => (⟨defaultValue, false, name⟩, s)
  | some valueString =>
    match StringSupport.parse valueString with
    | some tmp => (⟨tmp, true, name⟩, s)
    | none =>
      (⟨defaultValue, false, name⟩,
        IOHandler.warn ["Invalid value for ", name, "; defaulting to ", defaultValue] s)

/-- Retrieve the environment variable name (`Envar::getName`). -/
def getName (e : Envar) : String := e._name

/-- Retrieve the current value (`Envar::get`). -/
def get (e : Envar) : String := e._value

end Envar

/-! ## Utils.hpp and Symbol.hpp -/

namespace Utils

/-- The host name, or a fatal error when `gethostname` fails
(`Utils::getHostName`). -/
def getHostName (env : Env) (s : State) : Outcome String :=
  match env.gethostname with
  | none => IOHandler.fail env ["Could not retrieve the hostname"] s
  | some hostname => .ok hostname s

end Utils

namespace Symbol

/-- Load a symbol from the subsequent libraries (`Symbol::load`). -/
def load (env : Env) (name : String) (s : State) : Outcome Nat :=
  let symbol := env.dlsym name
  let s := s.log (.dlsym name)
  if symbol = 0 then
    IOHandler.fail env ["Could not find symbol ", name] s
  else
    .ok symbol s

end Symbol

/-! ## Instrument.hpp: emission and life cycle -/

namespace Instrument

/-- Emit an ovni event given the event model-category-value (`emit`). -/
def emit (mcv : String) (s : State) : State :=
  s.log (.ovni_ev_emit mcv [])

/-- Emit an ovni event with three payload values (the second `emit`). -/
def emitPayload (mcv : String) (a b c : Int) (s : State) : State :=
  s.log (.ovni_ev_emit mcv [a, b, c])

/-- The decimal text of an integer (`std::to_string`). -/
def to_string (i : Int) : String :=
  if i < 0 then "-" ++ Nat.repr i.natAbs else Nat.repr i.toNat

/-- Initialize the ovni instrumentation (`ovniInitialize`): when the ovni
thread is not ready, initialize the process and the thread, report an
artificial CPU, emit the thread executing event and take over the
finalization. -/
def ovniInitialize (env : Env) (s : State) : Outcome Unit :=
  if !s.threadReady then
    match Utils.getHostName env s with
    | .ok hostname s =>
      let loom := hostname ++ "." ++ to_string env.getpid
      let s := s.log (.ovni_proc_init 1 loom env.getpid)
      let s := { s.log (.ovni_thread_init env.gettid) with threadReady := true }
      let s := s.log (.ovni_add_cpu 0 0)
      let s := emitPayload "OHx" (-1) (-1) 0 s
      .ok () { s with _ovniFinalize := true }
    | .threw e s => .threw e s
    | .fatal how s => .fatal how s
  else
    .ok () s

/-- Set the ovni process information (`ovniSetProcessInformation`). -/
def ovniSetProcessInformation (rank nranks : Int) (s : State) : State :=
  s.log (.ovni_proc_set_rank rank nranks)

/-- Finalize the ovni instrumentation (`ovniFinalize`). -/
def ovniFinalize (s : State) : State :=
  if s._ovniFinalize then
    let s := emit "OHe" s
    let s := s.log .ovni_flush
    s.log .ovni_proc_fini
  else
    s

/-- The body of `preinitialize` over an arbitrary table of states: the safety
check, then the environment variable, then the initialization of ovni. -/
def preinitializeWith (table : List StateInfo) (env : Env) (s : State) : Outcome Unit :=
  match checkStateTable table with
  | some parts => IOHandler.fail env parts s
  | none =>
    let (instrument, s) := Envar.construct env "SONAR_MPI_INSTRUMENT" "none" s
    let configured : Outcome Unit :=
      if instrument.get = "ovni" then
        .ok () { s with _ovniEnabled := true }
      else if instrument.get = "none" then
        .ok () { s with _ovniEnabled := false }
      else
        IOHandler.fail env
          ["Invalid value ", instrument.get, " for ", instrument.getName] s
    match configured with
    | .ok _ s =>
      -- Initialize ovni if enabled
      if s._ovniEnabled then ovniInitialize env s else .ok () s
    | .threw e s => .threw e s
    | .fatal how s => .fatal how s

/-- Check that the table of states has no duplicates
(`checkStateTableCorrectness`, on the table `Interfaces`). -/
def checkStateTableCorrectness : Option (List String) :=
  checkStateTable Interfaces

/-- Preinitialize the ovni instrumentation (`Instrument::preinitialize`). -/
def preinitialize (env : Env) (s : State) : Outcome Unit :=
  preinitializeWith Interfaces env s


/-- Finalize the ovni instrumentation (`Instrument::finalize`). -/
def finalize (s : State) : State :=
  if s._ovniEnabled then ovniFinalize s else s

/-- Enter into an interface state at an operation (`Instrument::enter`). -/
def enter (Operation : Operation.Code) (s : State) : State :=
  if s._ovniEnabled then emit (InterfacesAt Operation)._enterMCV s else s

/-- Exit from an interface state at an operation (`Instrument::exit`). -/
def exit (Operation : Operation.Code) (s : State) : State :=
  if s._ovniEnabled then emit (InterfacesAt Operation)._exitMCV s else s

end Instrument

/-- Finish the initialization of the ovni instrumentation
(`Instrument::initialize`). -/
def Instrument.initialize (rank nranks : Int) (s : State) : State :=
  if s._ovniEnabled then Instrument.ovniSetProcessInformation rank nranks s else s

/-! ## Manager.hpp and Definitions.hpp -/

namespace Manager

/-- The initialisation of the function-local static `symbol` of one
instantiation: the first call loads the symbol and stores it, every later
call finds it stored. -/
def symbol (env : Env) (inst : Instantiation) (name : String) (s : State) : Outcome Nat :=
  match s.symbols.lookup inst with
  | some symbol => .ok symbol s
  | none =>
    match Symbol.load env name s with
    | .ok symbol s => .ok symbol { s with symbols := (inst, symbol) :: s.symbols }
    | .threw e s => .threw e s
    | .fatal how s => .fatal how s

/-- The dispatcher `Manager::process`: resolve the symbol, construct the
guard (the enter event), execute the operation, destroy the guard (the exit
event, also when a failure propagates out of the operation) and return what
the operation returned. -/
def process (env : Env) (inst : Instantiation) (name : String) (params : List Int)
    (s : State) : Outcome Int :=
  match symbol env inst name s with
  | .ok symbol s =>
    let s := Instrument.enter inst.code s
    let s := s.log (.call symbol params)
    let result := env.call symbol params
    let s := Instrument.exit inst.code s
    match result with
    | .returned value => .ok value s
    | .threw e => .threw e s
  | .threw e s => .threw e s
  | .fatal how s => .fatal how s

end Manager

/-- The arguments of a `DEFINE_FUNCn` macro: the template arguments, the
exported name and the parameter types. -/
structure Wrapper where
  lang : Operation.Lang
  op : Operation.Code
  cnt : Operation.Count
  ret : String
  name : String
  types : List String
  deriving DecidableEq, Repr

/-- The instantiation of `Manager::process` that a wrapper calls. -/
def Wrapper.instantiation (w : Wrapper) : Instantiation :=
  ⟨w.lang, w.op, w.cnt, w.ret, w.types⟩

/-- The function that `DEFINE_FUNC0` to `DEFINE_FUNC13` define: it passes its
own name and its parameters `p0, p1, ...` to `Manager::process`. -/
def DEFINE_FUNC (env : Env) (w : Wrapper) (params : List Int) (s : State) : Outcome Int :=
  Manager.process env w.instantiation w.name params s

/-! ## Sequences of calls -/

/-- One call into the library. -/
inductive Action where
  | processCall (inst : Instantiation) (name : String) (params : List Int)
  | preinitializeCall
  | initializeCall (rank : Int) (nranks : Int)
  | finalizeCall
  deriving DecidableEq, Repr

/-- Run one call. -/
def step (env : Env) : Action → State → Outcome Unit
  | .processCall inst name params, s =>
    match Manager.process env inst name params s with
    | .ok _ s => .ok () s
    | .threw e s => .threw e s
    | .fatal how s => .fatal how s
  | .preinitializeCall, s => Instrument.preinitialize env s
  | .initializeCall rank nranks, s => .ok () ( Instrument.initialize rank nranks s)
  | .finalizeCall, s => .ok () (Instrument.finalize s)

/-- Run a sequence of calls, one after the other.  A failure that propagates
out of a real call is the caller's to handle and the sequence goes on; a
terminated process runs nothing more. -/
def run (env : Env) : List Action → State → Outcome Unit
  | [], s => .ok () s
  | a :: rest, s =>
    match step env a s with
    | .ok _ s => run env rest s
    | .threw _ s => run env rest s
    | .fatal how s => .fatal how s

/-! ## c/Operations.cpp and fortran/Operations.cpp: the entry points of the life cycle -/

/-- The MPI library as `getInformation` queries it directly: what
`MPI_Comm_rank` and `MPI_Comm_size` on `MPI_COMM_WORLD`, and their Fortran
counterparts, give as error code and as value. -/
structure Queries where
  MPI_Comm_rank : Int × Int
  MPI_Comm_size : Int × Int
  mpi_comm_rank_ : Int × Int
  mpi_comm_size_ : Int × Int

/-- The error code `MPI_SUCCESS`. -/
def MPI_SUCCESS : Int := 0

namespace C

/-- The rank and the number of ranks (`getInformation` of the C file). -/
def getInformation (env : Env) (mpi : Queries) (s : State) : Outcome (Int × Int) :=
  let s := s.log (.query "MPI_Comm_rank")
  let (err, rank) := mpi.MPI_Comm_rank
  if err ≠ MPI_SUCCESS then
    IOHandler.fail env ["Could not retrieve the MPI rank"] s
  else
    let s := s.log (.query "MPI_Comm_size")
    let (err, nranks) := mpi.MPI_Comm_size
    if err ≠ MPI_SUCCESS then
      IOHandler.fail env ["Could not retrieve the MPI rank size"] s
    else
      .ok (rank, nranks) s

/-- The entry point `MPI_Init`. -/
def MPI_Init (env : Env) (mpi : Queries) (argc argv : Int) (s : State) : Outcome Int :=
  ( Instrument.preinitialize env s).andThen fun _ s =>
  (Manager.process env ⟨.C, .Init, .Regular, "int", ["int *", "char ***"]⟩
      "MPI_Init" [argc, argv] s).andThen fun err s =>
  (getInformation env mpi s).andThen fun (rank, nranks) s =>
  .ok err ( Instrument.initialize rank nranks s)

/-- The entry point `MPI_Init_thread`. -/
def MPI_Init_thread (env : Env) (mpi : Queries) (argc argv required provided : Int)
    (s : State) : Outcome Int :=
  ( Instrument.preinitialize env s).andThen fun _ s =>
  (Manager.process env
      ⟨.C, .InitThread, .Regular, "int", ["int *", "char ***", "int", "int *"]⟩
      "MPI_Init_thread" [argc, argv, required, provided] s).andThen fun err s =>
  (getInformation env mpi s).andThen fun (rank, nranks) s =>
  .ok err ( Instrument.initialize rank nranks s)

/-- The entry point `MPI_Finalize`. -/
def MPI_Finalize (env : Env) (s : State) : Outcome Int :=
  (Manager.process env ⟨.C, .Finalize, .Regular, "int", []⟩
      "MPI_Finalize" [] s).andThen fun err s =>
  .ok err (Instrument.finalize s)

end C

namespace Fortran

/-- The rank and the number of ranks (`getInformation` of the Fortran file). -/
def getInformation (env : Env) (mpi : Queries) (s : State) : Outcome (Int × Int) :=
  let s := s.log (.query "mpi_comm_rank_")
  let (err, rank) := mpi.mpi_comm_rank_
  if err ≠ MPI_SUCCESS then
    IOHandler.fail env ["Could not retrieve the MPI rank"] s
  else
    let s := s.log (.query "mpi_comm_size_")
    let (err, nranks) := mpi.mpi_comm_size_
    if err ≠ MPI_SUCCESS then
      IOHandler.fail env ["Could not retrieve the MPI rank size"] s
    else
      .ok (rank, nranks) s

/-- The entry point `mpi_init_`. -/
def mpi_init_ (env : Env) (mpi : Queries) (err : Int) (s : State) : Outcome Unit :=
  ( Instrument.preinitialize env s).andThen fun _ s =>
  (Manager.process env ⟨.Fortran, .Init, .Regular, "void", ["MPI_Fint *"]⟩
      "mpi_init_" [err] s).andThen fun _ s =>
  (getInformation env mpi s).andThen fun (rank, nranks) s =>
  .ok () ( Instrument.initialize rank nranks s)

/-- The entry point `mpi_init_thread_`. -/
def mpi_init_thread_ (env : Env) (mpi : Queries) (required provided err : Int)
    (s : State) : Outcome Unit :=
  ( Instrument.preinitialize env s).andThen fun _ s =>
  (Manager.process env
      ⟨.Fortran, .InitThread, .Regular, "void", ["MPI_Fint", "MPI_Fint *", "MPI_Fint *"]⟩
      "mpi_init_thread_" [required, provided, err] s).andThen fun _ s =>
  (getInformation env mpi s).andThen fun (rank, nranks) s =>
  .ok () ( Instrument.initialize rank nranks s)

/-- The entry point `mpi_finalize_`. -/
def mpi_finalize_ (env : Env) (err : Int) (s : State) : Outcome Unit :=
  (Manager.process env ⟨.Fortran, .Finalize, .Regular, "void", ["MPI_Fint *"]⟩
      "mpi_finalize_" [err] s).andThen fun _ s =>
  .ok () (Instrument.finalize s)

end Fortran

/-! ## Auxiliary definitions of the statements -/

/-- The address that a call through an instantiation invokes: the stored one,
or the one the lookup of the name gives when none is stored yet. -/
def Manager.resolved (env : Env) (inst : Instantiation) (name : String) (s : State) : Nat :=
  match s.symbols.lookup inst with
  | some symbol => symbol
  | none => env.dlsym name

/-- The lookups that a call through an instantiation performs: none when an
address is stored, the one of the name otherwise. -/
def Manager.lookups (inst : Instantiation) (name : String) (s : State) : List Effect :=
  match s.symbols.lookup inst with
  | some _ => []
  | none => [.dlsym name]

/-- How a piece of the program that calls a real function ended, when the
process was not terminated. -/
def Outcome.completion : Outcome Int → Option Completion
  | .ok value _ => some (.returned value)
  | .threw e _ => some (.threw e)
  | .fatal _ _ => none

/-! ## Concrete inputs -/

namespace Examples

/-- An environment in which `SONAR_MPI_INSTRUMENT` has the given value (or is
not defined), the dynamic linker knows `MPI_Barrier` at address 4096 and
`MPI_Allgather` at address 8192 and nothing else, and every real function
ends in the given way. -/
def env (value : Option String) (result : Completion) : Env where
  getenv := fun name => if name = "SONAR_MPI_INSTRUMENT" then value else none
  dlsym := fun name =>
    if name = "MPI_Barrier" then 4096 else if name = "MPI_Allgather" then 8192 else 0
  call := fun _ _ => result
  gethostname := some "node1"
  getpid := 4242
  gettid := 4243
  NDEBUG := false

/-- The instantiation of `Manager::process` that the wrapper `MPI_Barrier`
calls. -/
def barrier : Instantiation :=
  ⟨.C, .Barrier, .Regular, "int", ["comm_t"]⟩

/-- A state after a preinitialization that enabled the instrumentation and
initialised ovni itself. -/
def enabled : State :=
  ⟨true, true, [], true, []⟩

end Examples

/-! ## The registry invariant, as the specification words it -/

/-- A value is a marker of an earlier non-alias entry: some non-alias entry
among the entries walked before has it as its enter or its exit value. -/
def EarlierMarker (earlier : List Instrument.StateInfo) (m : String) : Prop :=
  ∃ e ∈ earlier, e._isAlias = false ∧ (m = e._enterMCV ∨ m = e._exitMCV)

/-- The condition on one entry, given the entries walked before it: the two
values of a non-alias entry are different from each other and from every
marker of every earlier non-alias entry; the two values of an alias entry
each equal some marker of an earlier non-alias entry. -/
def EntryCorrect (earlier : List Instrument.StateInfo) (state : Instrument.StateInfo) : Prop :=
  (state._isAlias = false →
    state._enterMCV ≠ state._exitMCV ∧
    ¬ EarlierMarker earlier state._enterMCV ∧ ¬ EarlierMarker earlier state._exitMCV) ∧
  (state._isAlias = true →
    EarlierMarker earlier state._enterMCV ∧ EarlierMarker earlier state._exitMCV)

/-- The registry invariant of a table: walking the entries in index order,
every entry satisfies the condition with respect to the entries before it. -/
def RegistryCorrect (table : List Instrument.StateInfo) : Prop :=
  ∀ earlier state later, table = earlier ++ state :: later → EntryCorrect earlier state

/-! ## The alias groups, as the specification lists them -/

/-- The alias groups of the table: the blocking ones and the corresponding
non-blocking ones. -/
def aliasGroups : List (List Operation.Code) :=
  [ [.Allgather, .Allgatherv],
    [.Alltoall, .Alltoallv, .Alltoallw],
    [.Gather, .Gatherv],
    [.Scatter, .Scatterv],
    [.Iallgather, .Iallgatherv],
    [.Ialltoall, .Ialltoallv, .Ialltoallw],
    [.Igather, .Igatherv],
    [.Iscatter, .Iscatterv] ]

/-- Whether two operation codes belong to the same alias group. -/
def sameAliasGroup (a b : Operation.Code) : Bool :=
  aliasGroups.any (fun group => decide (a ∈ group) && decide (b ∈ group))

/-! ## Calls through one wrapper -/

/-- A sequence of calls through one wrapper, one call for each parameter
list. -/
def callsThrough (inst : Instantiation) (name : String) (paramss : List (List Int)) :
    List Action :=
  paramss.map (Action.processCall inst name)

/-- The effects of a call after the resolution of its symbol: the invocation
of the function at the given address, between the enter and the exit event of
the operation when the instrumentation is enabled. -/
def bracket (enabled : Bool) (code : Operation.Code) (symbol : Nat) (params : List Int) :
    List Effect :=
  if enabled then
    [.ovni_ev_emit (Instrument.InterfacesAt code)._enterMCV [], .call symbol params,
     .ovni_ev_emit (Instrument.InterfacesAt code)._exitMCV []]
  else
    [.call symbol params]

/-- A table that the check rejects: the second entry repeats the enter value
of the first. -/
def Examples.repeated : List Instrument.StateInfo :=
  [⟨"MUi", "MUI", false⟩, ⟨"MUi", "MUT", false⟩]

/-- The construction of a guard (`Guard::Guard`). -/
def Instrument.Guard.construct (Operation : Operation.Code) (s : State) : State :=
  Instrument.enter Operation s

/-- The destruction of a guard (`Guard::~Guard`). -/
def Instrument.Guard.destroy (Operation : Operation.Code) (s : State) : State :=
  Instrument.exit Operation s

/-! ## Classes of effects -/

/-- Whether an effect belongs to the backend teardown: the thread end event
"OHe", the flush, the finalization of the ovni process. -/
def Effect.isTeardown : Effect → Bool
  | .ovni_ev_emit mcv _ => mcv == "OHe"
  | .ovni_flush => true
  | .ovni_proc_fini => true
  | _ => false

/-- Whether an effect is the registration of the process identity
(`ovni_proc_set_rank`). -/
def Effect.isRegistration : Effect → Bool
  | .ovni_proc_set_rank _ _ => true
  | _ => false

/-- Whether an effect is one that the preinitialization can have: a read of
the environment, a message, the initialization of the ovni process and
thread, the registration of a CPU, the thread executing event "OHx". -/
def Effect.isPreinitialization : Effect → Bool
  | .getenv _ => true
  | .stderr _ => true
  | .ovni_proc_init _ _ _ => true
  | .ovni_thread_init _ => true
  | .ovni_add_cpu _ _ => true
  | .ovni_ev_emit mcv _ => mcv == "OHx"
  | _ => false

/-- Whether an effect is one that a call of the dispatcher for an operation
can have: a lookup, a message, an invocation, the enter or the exit event of
the operation. -/
def Effect.isDispatch (code : Operation.Code) : Effect → Bool
  | .dlsym _ => true
  | .stderr _ => true
  | .call _ _ => true
  | .ovni_ev_emit mcv payload =>
    (mcv == (Instrument.InterfacesAt code)._enterMCV ||
      mcv == (Instrument.InterfacesAt code)._exitMCV) && payload == []
  | _ => false

/-- An environment in which `SONAR_MPI_INSTRUMENT` has the given value (or is
not defined), the dynamic linker knows every name, at the address 1000 plus
the length of the name, and every real function ends in the given way. -/
def Examples.world (value : Option String) (result : Completion) : Env where
  getenv := fun name => if name = "SONAR_MPI_INSTRUMENT" then value else none
  dlsym := fun name => 1000 + name.length
  call := fun _ _ => result
  gethostname := some "node1"
  getpid := 4242
  gettid := 4243
  NDEBUG := false

/-- An MPI library in which the process has rank 3 of 8. -/
def Examples.queries : Queries :=
  ⟨(0, 3), (0, 8), (0, 3), (0, 8)⟩

/-! ## The shape of the entry points of the life cycle -/

/-- The two `getInformation` functions, over the names and the results of
their two queries. -/
def getInformationWith (env : Env) (rankQuery sizeQuery : String) (rank size : Int × Int)
    (s : State) : Outcome (Int × Int) :=
  let s := s.log (.query rankQuery)
  if rank.1 ≠ MPI_SUCCESS then
    IOHandler.fail env ["Could not retrieve the MPI rank"] s
  else
    let s := s.log (.query sizeQuery)
    if size.1 ≠ MPI_SUCCESS then
      IOHandler.fail env ["Could not retrieve the MPI rank size"] s
    else
      .ok (rank.2, size.2) s

/-- The four initialization entry points, over the instantiation, the name
and the parameters of their dispatch, their queries and what they return of
the status of the real initializer. -/
def initSteps {α : Type} (ret : Int → α) (env : Env) (rankQuery sizeQuery : String)
    (rank size : Int × Int) (inst : Instantiation) (name : String) (params : List Int)
    (s : State) : Outcome α :=
  ( Instrument.preinitialize env s).andThen fun _ s =>
  (Manager.process env inst name params s).andThen fun err s =>
  (getInformationWith env rankQuery sizeQuery rank size s).andThen fun (rank, nranks) s =>
  .ok (ret err) ( Instrument.initialize rank nranks s)

/-- The two finalize entry points, over the instantiation, the name and the
parameters of their dispatch and what they return of the status of the real
finalizer. -/
def finalizeSteps {α : Type} (ret : Int → α) (env : Env) (inst : Instantiation)
    (name : String) (params : List Int) (s : State) : Outcome α :=
  (Manager.process env inst name params s).andThen fun err s =>
  .ok (ret err) (Instrument.finalize s)

/-- The order of the steps of an initialization entry point that started in
the state `s` and ended in the state `final`, terminated or not.  When the
preinitialization returns (in a state `s1`), the symbol resolves, the real
initializer returns and both queries succeed, the entry point is not
terminated and the trace is the one after the preinitialization, then the
lookup of a first call, then the invocation of the real initializer between
the enter and the exit event of the operation when the instrumentation is
enabled, then the two queries, then, when the instrumentation is enabled, the
registration of the rank and the size that the queries gave.  And however the
entry point ends, a registration among its effects comes after the invocation
of the real initializer, which has returned. -/
def InitializationOrder (env : Env) (inst : Instantiation) (name : String)
    (params : List Int) (rankQuery sizeQuery : String) (rank size : Int × Int)
    (s final : State) (terminated : Bool) : Prop :=
  (∀ s1 err, Instrument.preinitialize env s = .ok () s1 →
    (Manager.symbol env inst name s1).isFatal = false →
    env.call (Manager.resolved env inst name s1) params = .returned err →
    rank.1 = MPI_SUCCESS → size.1 = MPI_SUCCESS →
      terminated = false ∧
      final.trace =
        s1.trace ++ Manager.lookups inst name s1 ++
          bracket s1._ovniEnabled inst.code (Manager.resolved env inst name s1) params ++
          [.query rankQuery, .query sizeQuery] ++
          (if s1._ovniEnabled then [.ovni_proc_set_rank rank.2 size.2] else [])) ∧
  (∀ pre r n post, final.trace = s.trace ++ pre ++ .ovni_proc_set_rank r n :: post →
    .call (Manager.resolved env inst name s) params ∈ pre ∧
    ∃ err, env.call (Manager.resolved env inst name s) params = .returned err)

/-! ## c/Operations.cpp and fortran/Operations.cpp: the wrappers -/

/-- The wrappers of the C file that are written out by hand, with the
parameter types of their declarations: `MPI_Init`, `MPI_Init_thread` and
`MPI_Finalize`. -/
def C.entryPoints : List Wrapper :=
  [
    ⟨.C, .Init, .Regular, "int", "MPI_Init", ["int *", "char ***"]⟩,
    ⟨.C, .InitThread, .Regular, "int", "MPI_Init_thread", ["int *", "char ***", "int", "int *"]⟩,
    ⟨.C, .Finalize, .Regular, "int", "MPI_Finalize", []⟩
  ]

/-- The wrappers that the C file defines with `DEFINE_FUNCn` for every version
of MPI, in the order of the file, with the parameter types as the file names
them. -/
def C.defined : List Wrapper :=
  [
    ⟨.C, .Wait, .Regular, "int", "MPI_Wait", ["request_t", "status_t"]⟩,
    ⟨.C, .Waitall, .Regular, "int", "MPI_Waitall", ["count_t", "requests_t", "statuses_t"]⟩,
    ⟨.C, .Waitany, .Regular, "int", "MPI_Waitany",
      ["count_t", "requests_t", "indices_t", "statuses_t"]⟩,
    ⟨.C, .Waitsome, .Regular, "int", "MPI_Waitsome",
      ["count_t", "requests_t", "flag_t", "indices_t", "statuses_t"]⟩,
    ⟨.C, .Test, .Regular, "int", "MPI_Test", ["request_t", "flag_t", "status_t"]⟩,
    ⟨.C, .Testall, .Regular, "int", "MPI_Testall",
      ["count_t", "requests_t", "flag_t", "statuses_t"]⟩,
    ⟨.C, .Testany, .Regular, "int", "MPI_Testany",
      ["count_t", "requests_t", "indices_t", "flag_t", "statuses_t"]⟩,
    ⟨.C, .Testsome, .Regular, "int", "MPI_Testsome",
      ["count_t", "requests_t", "flag_t", "indices_t", "statuses_t"]⟩,
    ⟨.C, .Bsend, .Regular, "int", "MPI_Bsend",
      ["sendbuf_t", "count_t", "data_t", "rank_t", "tag_t", "comm_t"]⟩,
    ⟨.C, .Recv, .Regular, "int", "MPI_Recv",
      ["recvbuf_t", "count_t", "data_t", "rank_t", "tag_t", "comm_t", "status_t"]⟩,
    ⟨.C, .Rsend, .Regular, "int", "MPI_Rsend",
      ["sendbuf_t", "count_t", "data_t", "rank_t", "tag_t", "comm_t"]⟩,
    ⟨.C, .Send, .Regular, "int", "MPI_Send",
      ["sendbuf_t", "count_t", "data_t", "rank_t", "tag_t", "comm_t"]⟩,
    ⟨.C, .Sendrecv, .Regular, "int", "MPI_Sendrecv",
      ["sendbuf_t", "count_t", "data_t", "rank_t", "tag_t", "recvbuf_t", "count_t", "data_t",
       "rank_t", "tag_t", "comm_t", "status_t"]⟩,
    ⟨.C, .SendrecvReplace, .Regular, "int", "MPI_Sendrecv_replace",
      ["recvbuf_t", "count_t", "data_t", "rank_t", "tag_t", "rank_t", "tag_t", "comm_t",
       "status_t"]⟩,
    ⟨.C, .Ssend, .Regular, "int", "MPI_Ssend",
      ["sendbuf_t", "count_t", "data_t", "rank_t", "tag_t", "comm_t"]⟩,
    ⟨.C, .Allgather, .Regular, "int", "MPI_Allgather",
      ["sendbuf_t", "count_t", "data_t", "recvbuf_t", "count_t", "data_t", "comm_t"]⟩,
    ⟨.C, .Allgatherv, .Regular, "int", "MPI_Allgatherv",
      ["sendbuf_t", "count_t", "data_t", "recvbuf_t", "counts_t", "displs_t", "data_t", "comm_t"]⟩,
    ⟨.C, .Allreduce, .Regular, "int", "MPI_Allreduce",
      ["sendbuf_t", "recvbuf_t", "count_t", "data_t", "op_t", "comm_t"]⟩,
    ⟨.C, .Alltoall, .Regular, "int", "MPI_Alltoall",
      ["sendbuf_t", "count_t", "data_t", "recvbuf_t", "count_t", "data_t", "comm_t"]⟩,
    ⟨.C, .Alltoallv, .Regular, "int", "MPI_Alltoallv",
      ["sendbuf_t", "counts_t", "displs_t", "data_t", "recvbuf_t", "counts_t", "displs_t",
       "data_t", "comm_t"]⟩,
    ⟨.C, .Alltoallw, .Regular, "int", "MPI_Alltoallw",
      ["sendbuf_t", "counts_t", "displs_t", "datas_t", "recvbuf_t", "counts_t", "displs_t",
       "datas_t", "comm_t"]⟩,
    ⟨.C, .Barrier, .Regular, "int", "MPI_Barrier", ["comm_t"]⟩,
    ⟨.C, .Bcast, .Regular, "int", "MPI_Bcast",
      ["recvbuf_t", "count_t", "data_t", "rank_t", "comm_t"]⟩,
    ⟨.C, .Gather, .Regular, "int", "MPI_Gather",
      ["sendbuf_t", "count_t", "data_t", "recvbuf_t", "count_t", "data_t", "rank_t", "comm_t"]⟩,
    ⟨.C, .Gatherv, .Regular, "int", "MPI_Gatherv",
      ["sendbuf_t", "count_t", "data_t", "recvbuf_t", "counts_t", "displs_t", "data_t", "rank_t",
       "comm_t"]⟩,
    ⟨.C, .Reduce, .Regular, "int", "MPI_Reduce",
      ["sendbuf_t", "recvbuf_t", "count_t", "data_t", "op_t", "rank_t", "comm_t"]⟩,
    ⟨.C, .ReduceScatter, .Regular, "int", "MPI_Reduce_scatter",
      ["sendbuf_t", "recvbuf_t", "counts_t", "data_t", "op_t", "comm_t"]⟩,
    ⟨.C, .ReduceScatterBlock, .Regular, "int", "MPI_Reduce_scatter_block",
      ["sendbuf_t", "recvbuf_t", "count_t", "data_t", "op_t", "comm_t"]⟩,
    ⟨.C, .Scatter, .Regular, "int", "MPI_Scatter",
      ["sendbuf_t", "count_t", "data_t", "recvbuf_t", "count_t", "data_t", "rank_t", "comm_t"]⟩,
    ⟨.C, .Scatterv, .Regular, "int", "MPI_Scatterv",
      ["sendbuf_t", "counts_t", "displs_t", "data_t", "recvbuf_t", "count_t", "data_t", "rank_t",
       "comm_t"]⟩,
    ⟨.C, .Scan, .Regular, "int", "MPI_Scan",
      ["sendbuf_t", "recvbuf_t", "count_t", "data_t", "op_t", "comm_t"]⟩,
    ⟨.C, .Exscan, .Regular, "int", "MPI_Exscan",
      ["sendbuf_t", "recvbuf_t", "count_t", "data_t", "op_t", "comm_t"]⟩,
    ⟨.C, .Ibsend, .Regular, "int", "MPI_Ibsend",
      ["sendbuf_t", "count_t", "data_t", "rank_t", "tag_t", "comm_t", "request_t"]⟩,
    ⟨.C, .Irecv, .Regular, "int", "MPI_Irecv",
      ["recvbuf_t", "count_t", "data_t", "rank_t", "tag_t", "comm_t", "request_t"]⟩,
    ⟨.C, .Irsend, .Regular, "int", "MPI_Irsend",
      ["sendbuf_t", "count_t", "data_t", "rank_t", "tag_t", "comm_t", "request_t"]⟩,
    ⟨.C, .Isend, .Regular, "int", "MPI_Isend",
      ["sendbuf_t", "count_t", "data_t", "rank_t", "tag_t", "comm_t", "request_t"]⟩,
    ⟨.C, .Issend, .Regular, "int", "MPI_Issend",
      ["sendbuf_t", "count_t", "data_t", "rank_t", "tag_t", "comm_t", "request_t"]⟩,
    ⟨.C, .Iallgather, .Regular, "int", "MPI_Iallgather",
      ["sendbuf_t", "count_t", "data_t", "recvbuf_t", "count_t", "data_t", "comm_t", "request_t"]⟩,
    ⟨.C, .Iallgatherv, .Regular, "int", "MPI_Iallgatherv",
      ["sendbuf_t", "count_t", "data_t", "recvbuf_t", "counts_t", "displs_t", "data_t", "comm_t",
       "request_t"]⟩,
    ⟨.C, .Iallreduce, .Regular, "int", "MPI_Iallreduce",
      ["sendbuf_t", "recvbuf_t", "count_t", "data_t", "op_t", "comm_t", "request_t"]⟩,
    ⟨.C, .Ialltoall, .Regular, "int", "MPI_Ialltoall",
      ["sendbuf_t", "count_t", "data_t", "recvbuf_t", "count_t", "data_t", "comm_t", "request_t"]⟩,
    ⟨.C, .Ialltoallv, .Regular, "int", "MPI_Ialltoallv",
      ["sendbuf_t", "counts_t", "displs_t", "data_t", "recvbuf_t", "counts_t", "displs_t",
       "data_t", "comm_t", "request_t"]⟩,
    ⟨.C, .Ialltoallw, .Regular, "int", "MPI_Ialltoallw",
      ["sendbuf_t", "counts_t", "displs_t", "datas_t", "recvbuf_t", "counts_t", "displs_t",
       "datas_t", "comm_t", "request_t"]⟩,
    ⟨.C, .Ibarrier, .Regular, "int", "MPI_Ibarrier", ["comm_t", "request_t"]⟩,
    ⟨.C, .Ibcast, .Regular, "int", "MPI_Ibcast",
      ["recvbuf_t", "count_t", "data_t", "rank_t", "comm_t", "request_t"]⟩,
    ⟨.C, .Igather, .Regular, "int", "MPI_Igather",
      ["sendbuf_t", "count_t", "data_t", "recvbuf_t", "count_t", "data_t", "rank_t", "comm_t",
       "request_t"]⟩,
    ⟨.C, .Igatherv, .Regular, "int", "MPI_Igatherv",
      ["sendbuf_t", "count_t", "data_t", "recvbuf_t", "counts_t", "displs_t", "data_t", "rank_t",
       "comm_t", "request_t"]⟩,
    ⟨.C, .Ireduce, .Regular, "int", "MPI_Ireduce",
      ["sendbuf_t", "recvbuf_t", "count_t", "data_t", "op_t", "rank_t", "comm_t", "request_t"]⟩,
    ⟨.C, .IreduceScatter, .Regular, "int", "MPI_Ireduce_scatter",
      ["sendbuf_t", "recvbuf_t", "counts_t", "data_t", "op_t", "comm_t", "request_t"]⟩,
    ⟨.C, .IreduceScatterBlock, .Regular, "int", "MPI_Ireduce_scatter_block",
      ["sendbuf_t", "recvbuf_t", "count_t", "data_t", "op_t", "comm_t", "request_t"]⟩,
    ⟨.C, .Iscatter, .Regular, "int", "MPI_Iscatter",
      ["sendbuf_t", "count_t", "data_t", "recvbuf_t", "count_t", "data_t", "rank_t", "comm_t",
       "request_t"]⟩,
    ⟨.C, .Iscatterv, .Regular, "int", "MPI_Iscatterv",
      ["sendbuf_t", "counts_t", "displs_t", "data_t", "recvbuf_t", "count_t", "data_t", "rank_t",
       "comm_t", "request_t"]⟩,
    ⟨.C, .Iscan, .Regular, "int", "MPI_Iscan",
      ["sendbuf_t", "recvbuf_t", "count_t", "data_t", "op_t", "comm_t", "request_t"]⟩,
    ⟨.C, .Iexscan, .Regular, "int", "MPI_Iexscan",
      ["sendbuf_t", "recvbuf_t", "count_t", "data_t", "op_t", "comm_t", "request_t"]⟩
  ]

/-- The wrappers that the C file defines with `DEFINE_FUNCn` under
`#if MPI_VERSION >= 4`: the non-blocking sendrecv primitives and the large
count flavors. -/
def C.defined4 : List Wrapper :=
  [
    ⟨.C, .Isendrecv, .Regular, "int", "MPI_Isendrecv",
      ["sendbuf_t", "count_t", "data_t", "rank_t", "tag_t", "recvbuf_t", "count_t", "data_t",
       "rank_t", "tag_t", "comm_t", "request_t"]⟩,
    ⟨.C, .IsendrecvReplace, .Regular, "int", "MPI_Isendrecv_replace",
      ["recvbuf_t", "count_t", "data_t", "rank_t", "tag_t", "rank_t", "tag_t", "comm_t",
       "request_t"]⟩,
    ⟨.C, .Bsend, .Large, "int", "MPI_Bsend_c",
      ["sendbuf_t", "count_c_t", "data_t", "rank_t", "tag_t", "comm_t"]⟩,
    ⟨.C, .Recv, .Large, "int", "MPI_Recv_c",
      ["recvbuf_t", "count_c_t", "data_t", "rank_t", "tag_t", "comm_t", "status_t"]⟩,
    ⟨.C, .Rsend, .Large, "int", "MPI_Rsend_c",
      ["sendbuf_t", "count_c_t", "data_t", "rank_t", "tag_t", "comm_t"]⟩,
    ⟨.C, .Send, .Large, "int", "MPI_Send_c",
      ["sendbuf_t", "count_c_t", "data_t", "rank_t", "tag_t", "comm_t"]⟩,
    ⟨.C, .Sendrecv, .Large, "int", "MPI_Sendrecv_c",
      ["sendbuf_t", "count_c_t", "data_t", "rank_t", "tag_t", "recvbuf_t", "count_c_t", "data_t",
       "rank_t", "tag_t", "comm_t", "status_t"]⟩,
    ⟨.C, .SendrecvReplace, .Large, "int", "MPI_Sendrecv_replace_c",
      ["recvbuf_t", "count_c_t", "data_t", "rank_t", "tag_t", "rank_t", "tag_t", "comm_t",
       "status_t"]⟩,
    ⟨.C, .Ssend, .Large, "int", "MPI_Ssend_c",
      ["sendbuf_t", "count_c_t", "data_t", "rank_t", "tag_t", "comm_t"]⟩,
    ⟨.C, .Allgather, .Large, "int", "MPI_Allgather_c",
      ["sendbuf_t", "count_c_t", "data_t", "recvbuf_t", "count_c_t", "data_t", "comm_t"]⟩,
    ⟨.C, .Allgatherv, .Large, "int", "MPI_Allgatherv_c",
      ["sendbuf_t", "count_c_t", "data_t", "recvbuf_t", "counts_c_t", "displs_c_t", "data_t",
       "comm_t"]⟩,
    ⟨.C, .Allreduce, .Large, "int", "MPI_Allreduce_c",
      ["sendbuf_t", "recvbuf_t", "count_c_t", "data_t", "op_t", "comm_t"]⟩,
    ⟨.C, .Alltoall, .Large, "int", "MPI_Alltoall_c",
      ["sendbuf_t", "count_c_t", "data_t", "recvbuf_t", "count_c_t", "data_t", "comm_t"]⟩,
    ⟨.C, .Alltoallv, .Large, "int", "MPI_Alltoallv_c",
      ["sendbuf_t", "counts_c_t", "displs_c_t", "data_t", "recvbuf_t", "counts_c_t",
       "displs_c_t", "data_t", "comm_t"]⟩,
    ⟨.C, .Alltoallw, .Large, "int", "MPI_Alltoallw_c",
      ["sendbuf_t", "counts_c_t", "displs_c_t", "datas_t", "recvbuf_t", "counts_c_t",
       "displs_c_t", "datas_t", "comm_t"]⟩,
    ⟨.C, .Barrier, .Large, "int", "MPI_Barrier_c", ["comm_t"]⟩,
    ⟨.C, .Bcast, .Large, "int", "MPI_Bcast_c",
      ["recvbuf_t", "count_c_t", "data_t", "rank_t", "comm_t"]⟩,
    ⟨.C, .Gather, .Large, "int", "MPI_Gather_c",
      ["sendbuf_t", "count_c_t", "data_t", "recvbuf_t", "count_c_t", "data_t", "rank_t",
       "comm_t"]⟩,
    ⟨.C, .Gatherv, .Large, "int", "MPI_Gatherv_c",
      ["sendbuf_t", "count_c_t", "data_t", "recvbuf_t", "counts_c_t", "displs_c_t", "data_t",
       "rank_t", "comm_t"]⟩,
    ⟨.C, .Reduce, .Large, "int", "MPI_Reduce_c",
      ["sendbuf_t", "recvbuf_t", "count_c_t", "data_t", "op_t", "rank_t", "comm_t"]⟩,
    ⟨.C, .ReduceScatter, .Large, "int", "MPI_Reduce_scatter_c",
      ["sendbuf_t", "recvbuf_t", "counts_c_t", "data_t", "op_t", "comm_t"]⟩,
    ⟨.C, .ReduceScatterBlock, .Large, "int", "MPI_Reduce_scatter_block_c",
      ["sendbuf_t", "recvbuf_t", "count_c_t", "data_t", "op_t", "comm_t"]⟩,
    ⟨.C, .Scatter, .Large, "int", "MPI_Scatter_c",
      ["sendbuf_t", "count_c_t", "data_t", "recvbuf_t", "count_c_t", "data_t", "rank_t",
       "comm_t"]⟩,
    ⟨.C, .Scatterv, .Large, "int", "MPI_Scatterv_c",
      ["sendbuf_t", "counts_c_t", "displs_c_t", "data_t", "recvbuf_t", "count_c_t", "data_t",
       "rank_t", "comm_t"]⟩,
    ⟨.C, .Scan, .Large, "int", "MPI_Scan_c",
      ["sendbuf_t", "recvbuf_t", "count_c_t", "data_t", "op_t", "comm_t"]⟩,
    ⟨.C, .Exscan, .Large, "int", "MPI_Exscan_c",
      ["sendbuf_t", "recvbuf_t", "count_c_t", "data_t", "op_t", "comm_t"]⟩,
    ⟨.C, .Ibsend, .Large, "int", "MPI_Ibsend_c",
      ["sendbuf_t", "count_c_t", "data_t", "rank_t", "tag_t", "comm_t", "request_t"]⟩,
    ⟨.C, .Irecv, .Large, "int", "MPI_Irecv_c",
      ["recvbuf_t", "count_c_t", "data_t", "rank_t", "tag_t", "comm_t", "request_t"]⟩,
    ⟨.C, .Irsend, .Large, "int", "MPI_Irsend_c",
      ["sendbuf_t", "count_c_t", "data_t", "rank_t", "tag_t", "comm_t", "request_t"]⟩,
    ⟨.C, .Isend, .Large, "int", "MPI_Isend_c",
      ["sendbuf_t", "count_c_t", "data_t", "rank_t", "tag_t", "comm_t", "request_t"]⟩,
    ⟨.C, .Isendrecv, .Large, "int", "MPI_Isendrecv_c",
      ["sendbuf_t", "count_c_t", "data_t", "rank_t", "tag_t", "recvbuf_t", "count_c_t", "data_t",
       "rank_t", "tag_t", "comm_t", "request_t"]⟩,
    ⟨.C, .IsendrecvReplace, .Large, "int", "MPI_Isendrecv_replace_c",
      ["recvbuf_t", "count_c_t", "data_t", "rank_t", "tag_t", "rank_t", "tag_t", "comm_t",
       "request_t"]⟩,
    ⟨.C, .Issend, .Large, "int", "MPI_Issend_c",
      ["sendbuf_t", "count_c_t", "data_t", "rank_t", "tag_t", "comm_t", "request_t"]⟩,
    ⟨.C, .Iallgather, .Large, "int", "MPI_Iallgather_c",
      ["sendbuf_t", "count_c_t", "data_t", "recvbuf_t", "count_c_t", "data_t", "comm_t",
       "request_t"]⟩,
    ⟨.C, .Iallgatherv, .Large, "int", "MPI_Iallgatherv_c",
      ["sendbuf_t", "count_c_t", "data_t", "recvbuf_t", "counts_c_t", "displs_c_t", "data_t",
       "comm_t", "request_t"]⟩,
    ⟨.C, .Iallreduce, .Large, "int", "MPI_Iallreduce_c",
      ["sendbuf_t", "recvbuf_t", "count_c_t", "data_t", "op_t", "comm_t", "request_t"]⟩,
    ⟨.C, .Ialltoall, .Large, "int", "MPI_Ialltoall_c",
      ["sendbuf_t", "count_c_t", "data_t", "recvbuf_t", "count_c_t", "data_t", "comm_t",
       "request_t"]⟩,
    ⟨.C, .Ialltoallv, .Large, "int", "MPI_Ialltoallv_c",
      ["sendbuf_t", "counts_c_t", "displs_c_t", "data_t", "recvbuf_t", "counts_c_t",
       "displs_c_t", "data_t", "comm_t", "request_t"]⟩,
    ⟨.C, .Ialltoallw, .Large, "int", "MPI_Ialltoallw_c",
      ["sendbuf_t", "counts_c_t", "displs_c_t", "datas_t", "recvbuf_t", "counts_c_t",
       "displs_c_t", "datas_t", "comm_t", "request_t"]⟩,
    ⟨.C, .Ibarrier, .Large, "int", "MPI_Ibarrier_c", ["comm_t", "request_t"]⟩,
    ⟨.C, .Ibcast, .Large, "int", "MPI_Ibcast_c",
      ["recvbuf_t", "count_c_t", "data_t", "rank_t", "comm_t", "request_t"]⟩,
    ⟨.C, .Igather, .Large, "int", "MPI_Igather_c",
      ["sendbuf_t", "count_c_t", "data_t", "recvbuf_t", "count_c_t", "data_t", "rank_t",
       "comm_t", "request_t"]⟩,
    ⟨.C, .Igatherv, .Large, "int", "MPI_Igatherv_c",
      ["sendbuf_t", "count_c_t", "data_t", "recvbuf_t", "counts_c_t", "displs_c_t", "data_t",
       "rank_t", "comm_t", "request_t"]⟩,
    ⟨.C, .Ireduce, .Large, "int", "MPI_Ireduce_c",
      ["sendbuf_t", "recvbuf_t", "count_c_t", "data_t", "op_t", "rank_t", "comm_t", "request_t"]⟩,
    ⟨.C, .IreduceScatter, .Large, "int", "MPI_Ireduce_scatter_c",
      ["sendbuf_t", "recvbuf_t", "counts_c_t", "data_t", "op_t", "comm_t", "request_t"]⟩,
    ⟨.C, .IreduceScatterBlock, .Large, "int", "MPI_Ireduce_scatter_block_c",
      ["sendbuf_t", "recvbuf_t", "count_c_t", "data_t", "op_t", "comm_t", "request_t"]⟩,
    ⟨.C, .Iscatter, .Large, "int", "MPI_Iscatter_c",
      ["sendbuf_t", "count_c_t", "data_t", "recvbuf_t", "count_c_t", "data_t", "rank_t",
       "comm_t", "request_t"]⟩,
    ⟨.C, .Iscatterv, .Large, "int", "MPI_Iscatterv_c",
      ["sendbuf_t", "counts_c_t", "displs_c_t", "data_t", "recvbuf_t", "count_c_t", "data_t",
       "rank_t", "comm_t", "request_t"]⟩,
    ⟨.C, .Iscan, .Large, "int", "MPI_Iscan_c",
      ["sendbuf_t", "recvbuf_t", "count_c_t", "data_t", "op_t", "comm_t", "request_t"]⟩,
    ⟨.C, .Iexscan, .Large, "int", "MPI_Iexscan_c",
      ["sendbuf_t", "recvbuf_t", "count_c_t", "data_t", "op_t", "comm_t", "request_t"]⟩
  ]

/-- The wrappers of the C file for a version of MPI. -/
def C.wrappers (MPI_VERSION : Nat) : List Wrapper :=
  C.entryPoints ++ C.defined ++ (if MPI_VERSION ≥ 4 then C.defined4 else [])

/-- The wrappers of the Fortran file that are written out by hand, with the
parameter types of their declarations: `mpi_init_`, `mpi_init_thread_` and
`mpi_finalize_`. -/
def Fortran.entryPoints : List Wrapper :=
  [
    ⟨.Fortran, .Init, .Regular, "void", "mpi_init_", ["MPI_Fint *"]⟩,
    ⟨.Fortran, .InitThread, .Regular, "void", "mpi_init_thread_",
      ["MPI_Fint", "MPI_Fint *", "MPI_Fint *"]⟩,
    ⟨.Fortran, .Finalize, .Regular, "void", "mpi_finalize_", ["MPI_Fint *"]⟩
  ]

/-- The wrappers that the Fortran file defines with `DEFINE_FUNCn` for every
version of MPI, in the order of the file, with the parameter types as the
file names them. -/
def Fortran.defined : List Wrapper :=
  [
    ⟨.Fortran, .Wait, .Regular, "void", "mpi_wait_", ["request_t", "status_t", "err_t"]⟩,
    ⟨.Fortran, .Waitall, .Regular, "void", "mpi_waitall_",
      ["count_t", "requests_t", "statuses_t", "err_t"]⟩,
    ⟨.Fortran, .Waitany, .Regular, "void", "mpi_waitany_",
      ["count_t", "requests_t", "indices_t", "statuses_t", "err_t"]⟩,
    ⟨.Fortran, .Waitsome, .Regular, "void", "mpi_waitsome_",
      ["count_t", "requests_t", "flag_t", "indices_t", "statuses_t", "err_t"]⟩,
    ⟨.Fortran, .Test, .Regular, "void", "mpi_test_", ["request_t", "flag_t", "status_t", "err_t"]⟩,
    ⟨.Fortran, .Testall, .Regular, "void", "mpi_testall_",
      ["count_t", "requests_t", "flag_t", "statuses_t", "err_t"]⟩,
    ⟨.Fortran, .Testany, .Regular, "void", "mpi_testany_",
      ["count_t", "requests_t", "indices_t", "flag_t", "statuses_t", "err_t"]⟩,
    ⟨.Fortran, .Testsome, .Regular, "void", "mpi_testsome_",
      ["count_t", "requests_t", "flag_t", "indices_t", "statuses_t", "err_t"]⟩,
    ⟨.Fortran, .Bsend, .Regular, "void", "mpi_bsend_",
      ["sendbuf_t", "count_t", "data_t", "rank_t", "tag_t", "comm_t", "err_t"]⟩,
    ⟨.Fortran, .Recv, .Regular, "void", "mpi_recv_",
      ["recvbuf_t", "count_t", "data_t", "rank_t", "tag_t", "comm_t", "status_t", "err_t"]⟩,
    ⟨.Fortran, .Rsend, .Regular, "void", "mpi_rsend_",
      ["sendbuf_t", "count_t", "data_t", "rank_t", "tag_t", "comm_t", "err_t"]⟩,
    ⟨.Fortran, .Send, .Regular, "void", "mpi_send_",
      ["sendbuf_t", "count_t", "data_t", "rank_t", "tag_t", "comm_t", "err_t"]⟩,
    ⟨.Fortran, .Sendrecv, .Regular, "void", "mpi_sendrecv_",
      ["sendbuf_t", "count_t", "data_t", "rank_t", "tag_t", "recvbuf_t", "count_t", "data_t",
       "rank_t", "tag_t", "comm_t", "status_t", "err_t"]⟩,
    ⟨.Fortran, .SendrecvReplace, .Regular, "void", "mpi_sendrecv_replace_",
      ["recvbuf_t", "count_t", "data_t", "rank_t", "tag_t", "rank_t", "tag_t", "comm_t",
       "status_t", "err_t"]⟩,
    ⟨.Fortran, .Ssend, .Regular, "void", "mpi_ssend_",
      ["sendbuf_t", "count_t", "data_t", "rank_t", "tag_t", "comm_t", "err_t"]⟩,
    ⟨.Fortran, .Allgather, .Regular, "void", "mpi_allgather_",
      ["sendbuf_t", "count_t", "data_t", "recvbuf_t", "count_t", "data_t", "comm_t", "err_t"]⟩,
    ⟨.Fortran, .Allgatherv, .Regular, "void", "mpi_allgatherv_",
      ["sendbuf_t", "count_t", "data_t", "recvbuf_t", "counts_t", "displs_t", "data_t", "comm_t",
       "err_t"]⟩,
    ⟨.Fortran, .Allreduce, .Regular, "void", "mpi_allreduce_",
      ["sendbuf_t", "recvbuf_t", "count_t", "data_t", "op_t", "comm_t", "err_t"]⟩,
    ⟨.Fortran, .Alltoall, .Regular, "void", "mpi_alltoall_",
      ["sendbuf_t", "count_t", "data_t", "recvbuf_t", "count_t", "data_t", "comm_t", "err_t"]⟩,
    ⟨.Fortran, .Alltoallv, .Regular, "void", "mpi_alltoallv_",
      ["sendbuf_t", "counts_t", "displs_t", "data_t", "recvbuf_t", "counts_t", "displs_t",
       "data_t", "comm_t", "err_t"]⟩,
    ⟨.Fortran, .Alltoallw, .Regular, "void", "mpi_alltoallw_",
      ["sendbuf_t", "counts_t", "displs_t", "datas_t", "recvbuf_t", "counts_t", "displs_t",
       "datas_t", "comm_t", "err_t"]⟩,
    ⟨.Fortran, .Barrier, .Regular, "void", "mpi_barrier_", ["comm_t", "err_t"]⟩,
    ⟨.Fortran, .Bcast, .Regular, "void", "mpi_bcast_",
      ["recvbuf_t", "count_t", "data_t", "rank_t", "comm_t", "err_t"]⟩,
    ⟨.Fortran, .Gather, .Regular, "void", "mpi_gather_",
      ["sendbuf_t", "count_t", "data_t", "recvbuf_t", "count_t", "data_t", "rank_t", "comm_t",
       "err_t"]⟩,
    ⟨.Fortran, .Gatherv, .Regular, "void", "mpi_gatherv_",
      ["sendbuf_t", "count_t", "data_t", "recvbuf_t", "counts_t", "displs_t", "data_t", "rank_t",
       "comm_t", "err_t"]⟩,
    ⟨.Fortran, .Reduce, .Regular, "void", "mpi_reduce_",
      ["sendbuf_t", "recvbuf_t", "count_t", "data_t", "op_t", "rank_t", "comm_t", "err_t"]⟩,
    ⟨.Fortran, .ReduceScatter, .Regular, "void", "mpi_reduce_scatter_",
      ["sendbuf_t", "recvbuf_t", "counts_t", "data_t", "op_t", "comm_t", "err_t"]⟩,
    ⟨.Fortran, .ReduceScatterBlock, .Regular, "void", "mpi_reduce_scatter_block_",
      ["sendbuf_t", "recvbuf_t", "count_t", "data_t", "op_t", "comm_t", "err_t"]⟩,
    ⟨.Fortran, .Scatter, .Regular, "void", "mpi_scatter_",
      ["sendbuf_t", "count_t", "data_t", "recvbuf_t", "count_t", "data_t", "rank_t", "comm_t",
       "err_t"]⟩,
    ⟨.Fortran, .Scatterv, .Regular, "void", "mpi_scatterv_",
      ["sendbuf_t", "counts_t", "displs_t", "data_t", "recvbuf_t", "count_t", "data_t", "rank_t",
       "comm_t", "err_t"]⟩,
    ⟨.Fortran, .Scan, .Regular, "void", "mpi_scan_",
      ["sendbuf_t", "recvbuf_t", "count_t", "data_t", "op_t", "comm_t", "err_t"]⟩,
    ⟨.Fortran, .Exscan, .Regular, "void", "mpi_exscan_",
      ["sendbuf_t", "recvbuf_t", "count_t", "data_t", "op_t", "comm_t", "err_t"]⟩,
    ⟨.Fortran, .Ibsend, .Regular, "void", "mpi_ibsend_",
      ["sendbuf_t", "count_t", "data_t", "rank_t", "tag_t", "comm_t", "request_t", "err_t"]⟩,
    ⟨.Fortran, .Irecv, .Regular, "void", "mpi_irecv_",
      ["recvbuf_t", "count_t", "data_t", "rank_t", "tag_t", "comm_t", "request_t", "err_t"]⟩,
    ⟨.Fortran, .Irsend, .Regular, "void", "mpi_irsend_",
      ["sendbuf_t", "count_t", "data_t", "rank_t", "tag_t", "comm_t", "request_t", "err_t"]⟩,
    ⟨.Fortran, .Isend, .Regular, "void", "mpi_isend_",
      ["sendbuf_t", "count_t", "data_t", "rank_t", "tag_t", "comm_t", "request_t", "err_t"]⟩,
    ⟨.Fortran, .Issend, .Regular, "void", "mpi_issend_",
      ["sendbuf_t", "count_t", "data_t", "rank_t", "tag_t", "comm_t", "request_t", "err_t"]⟩,
    ⟨.Fortran, .Iallgather, .Regular, "void", "mpi_iallgather_",
      ["sendbuf_t", "count_t", "data_t", "recvbuf_t", "count_t", "data_t", "comm_t", "request_t",
       "err_t"]⟩,
    ⟨.Fortran, .Iallgatherv, .Regular, "void", "mpi_iallgatherv_",
      ["sendbuf_t", "count_t", "data_t", "recvbuf_t", "counts_t", "displs_t", "data_t", "comm_t",
       "request_t", "err_t"]⟩,
    ⟨.Fortran, .Iallreduce, .Regular, "void", "mpi_iallreduce_",
      ["sendbuf_t", "recvbuf_t", "count_t", "data_t", "op_t", "comm_t", "request_t", "err_t"]⟩,
    ⟨.Fortran, .Ialltoall, .Regular, "void", "mpi_ialltoall_",
      ["sendbuf_t", "count_t", "data_t", "recvbuf_t", "count_t", "data_t", "comm_t", "request_t",
       "err_t"]⟩,
    ⟨.Fortran, .Ialltoallv, .Regular, "void", "mpi_ialltoallv_",
      ["sendbuf_t", "counts_t", "displs_t", "data_t", "recvbuf_t", "counts_t", "displs_t",
       "data_t", "comm_t", "request_t", "err_t"]⟩,
    ⟨.Fortran, .Ialltoallw, .Regular, "void", "mpi_ialltoallw_",
      ["sendbuf_t", "counts_t", "displs_t", "datas_t", "recvbuf_t", "counts_t", "displs_t",
       "datas_t", "comm_t", "request_t", "err_t"]⟩,
    ⟨.Fortran, .Ibarrier, .Regular, "void", "mpi_ibarrier_", ["comm_t", "request_t", "err_t"]⟩,
    ⟨.Fortran, .Ibcast, .Regular, "void", "mpi_ibcast_",
      ["recvbuf_t", "count_t", "data_t", "rank_t", "comm_t", "request_t", "err_t"]⟩,
    ⟨.Fortran, .Igather, .Regular, "void", "mpi_igather_",
      ["sendbuf_t", "count_t", "data_t", "recvbuf_t", "count_t", "data_t", "rank_t", "comm_t",
       "request_t", "err_t"]⟩,
    ⟨.Fortran, .Igatherv, .Regular, "void", "mpi_igatherv_",
      ["sendbuf_t", "count_t", "data_t", "recvbuf_t", "counts_t", "displs_t", "data_t", "rank_t",
       "comm_t", "request_t", "err_t"]⟩,
    ⟨.Fortran, .Ireduce, .Regular, "void", "mpi_ireduce_",
      ["sendbuf_t", "recvbuf_t", "count_t", "data_t", "op_t", "rank_t", "comm_t", "request_t",
       "err_t"]⟩,
    ⟨.Fortran, .IreduceScatter, .Regular, "void", "mpi_ireduce_scatter_",
      ["sendbuf_t", "recvbuf_t", "counts_t", "data_t", "op_t", "comm_t", "request_t", "err_t"]⟩,
    ⟨.Fortran, .IreduceScatterBlock, .Regular, "void", "mpi_ireduce_scatter_block_",
      ["sendbuf_t", "recvbuf_t", "count_t", "data_t", "op_t", "comm_t", "request_t", "err_t"]⟩,
    ⟨.Fortran, .Iscatter, .Regular, "void", "mpi_iscatter_",
      ["sendbuf_t", "count_t", "data_t", "recvbuf_t", "count_t", "data_t", "rank_t", "comm_t",
       "request_t", "err_t"]⟩,
    ⟨.Fortran, .Iscatterv, .Regular, "void", "mpi_iscatterv_",
      ["sendbuf_t", "counts_t", "displs_t", "data_t", "recvbuf_t", "count_t", "data_t", "rank_t",
       "comm_t", "request_t", "err_t"]⟩,
    ⟨.Fortran, .Iscan, .Regular, "void", "mpi_iscan_",
      ["sendbuf_t", "recvbuf_t", "count_t", "data_t", "op_t", "comm_t", "request_t", "err_t"]⟩,
    ⟨.Fortran, .Iexscan, .Regular, "void", "mpi_iexscan_",
      ["sendbuf_t", "recvbuf_t", "count_t", "data_t", "op_t", "comm_t", "request_t", "err_t"]⟩
  ]

/-- The wrappers that the Fortran file defines with `DEFINE_FUNCn` under
`#if MPI_VERSION >= 4`: the non-blocking sendrecv primitives. -/
def Fortran.defined4 : List Wrapper :=
  [
    ⟨.Fortran, .Isendrecv, .Regular, "void", "mpi_isendrecv_",
      ["sendbuf_t", "count_t", "data_t", "rank_t", "tag_t", "recvbuf_t", "count_t", "data_t",
       "rank_t", "tag_t", "comm_t", "request_t", "err_t"]⟩,
    ⟨.Fortran, .IsendrecvReplace, .Regular, "void", "mpi_isendrecv_replace_",
      ["recvbuf_t", "count_t", "data_t", "rank_t", "tag_t", "rank_t", "tag_t", "comm_t",
       "request_t", "err_t"]⟩
  ]

/-- The wrappers of the Fortran file for a version of MPI. -/
def Fortran.wrappers (MPI_VERSION : Nat) : List Wrapper :=
  Fortran.entryPoints ++ Fortran.defined ++ (if MPI_VERSION ≥ 4 then Fortran.defined4 else [])

/-- The parameter type aliases of the Fortran file (`using ... = ...`), each
name with what it stands for. -/
def Fortran.aliases : List (String × String) :=
  [ ("int_ptr_t", "MPI_Fint *"),
    ("recvbuf_t", "void *"),
    ("sendbuf_t", "void *"),
    ("request_t", "int_ptr_t"),
    ("requests_t", "int_ptr_t"),
    ("status_t", "int_ptr_t"),
    ("statuses_t", "int_ptr_t"),
    ("data_t", "int_ptr_t"),
    ("comm_t", "int_ptr_t"),
    ("flag_t", "int_ptr_t"),
    ("tag_t", "int_ptr_t"),
    ("rank_t", "int_ptr_t"),
    ("op_t", "int_ptr_t"),
    ("indices_t", "int_ptr_t"),
    ("count_t", "int_ptr_t"),
    ("displ_t", "int_ptr_t"),
    ("err_t", "int_ptr_t"),
    ("datas_t", "data_t"),
    ("counts_t", "count_t"),
    ("displs_t", "displ_t") ]

/-- One step of the resolution of a type name of the Fortran file. -/
def Fortran.unalias (ty : String) : String :=
  match Fortran.aliases.lookup ty with
  | some target => target
  | none => ty

/-- The type that a type name of the Fortran file stands for: the aliases are
at most three deep. -/
def Fortran.resolve (ty : String) : String :=
  Fortran.unalias (Fortran.unalias (Fortran.unalias ty))

/-! ## The wrapper tables, as the statements read them -/

/-- All the wrappers of the two files for a version of MPI. -/
def allWrappers (MPI_VERSION : Nat) : List Wrapper :=
  C.wrappers MPI_VERSION ++ Fortran.wrappers MPI_VERSION

/-- The language, operation code and count flavor of a wrapper. -/
def Wrapper.triple (w : Wrapper) : Operation.Lang × Operation.Code × Operation.Count :=
  (w.lang, w.op, w.cnt)

/-- Whether a type name of the Fortran file stands for a pointer type. -/
def Fortran.isPointer (ty : String) : Bool :=
  (Fortran.resolve ty).data.getLast? == some '*'

/-- Whether a wrapper has the shape of a Fortran entry point: it returns
nothing, every parameter type is a pointer type, and the last parameter has
the type of the error status, `MPI_Fint *`. -/
def Fortran.hasFortranSignature (w : Wrapper) : Bool :=
  w.ret == "void" && w.types.all Fortran.isPointer &&
    (w.types.getLast?.map Fortran.resolve == some "MPI_Fint *")

/-- A name in lower case. -/
def lowerCase (name : String) : String :=
  String.mk (name.data.map Char.toLower)

/-- The name of the C regular wrapper of an operation code. -/
def C.regularName (MPI_VERSION : Nat) (op : Operation.Code) : Option String :=
  ((C.wrappers MPI_VERSION).find? (fun w => w.op == op && w.cnt == .Regular)).map (·.name)

/-- An MPI library in which the rank query fails with the error code 16. -/
def Examples.failing : Queries :=
  ⟨(16, 0), (0, 8), (16, 0), (0, 8)⟩

/-- The environment with one variable defined anew (`setenv`). -/
def Env.setenv (env : Env) (name value : String) : Env :=
  { env with getenv := fun n => if n = name then some value else env.getenv n }

/-- A table that the check accepts although its alias entry pairs the enter
value of one operation with the exit value of another. -/
def Examples.mixedAlias : List Instrument.StateInfo :=
  [⟨"MAg", "MAG", false⟩, ⟨"MAa", "MAA", false⟩, ⟨"MAg", "MAA", true⟩]

/-- The call of a wrapper with its arguments, as an action. -/
def Wrapper.dispatch (c : Wrapper × List Int) : Action :=
  .processCall c.1.instantiation c.1.name c.2

/-- Every address stored for the instantiation of a wrapper is the address of
the wrapper's own name. -/
def OwnSlots (env : Env) (wrappers : List Wrapper) (s : State) : Prop :=
  ∀ w ∈ wrappers, ∀ addr : Nat,
    s.symbols.lookup w.instantiation = some addr → addr = env.dlsym w.name

/-! ## The table, piece by piece -/

/-- The values that the check holds as existing after it has walked a table
without a failure: the exit and the enter value of every non-alias entry, the
latest first. -/
def Instrument.existingAfter (table : List Instrument.StateInfo) : List String :=
  ((table.filter (fun state => !state._isAlias)).reverse).flatMap
    (fun state => [state._exitMCV, state._enterMCV])

/-- The values of two non-alias entries are apart: the enter value of the one
is not the exit value of the other, and when the two operation codes differ
neither the enter values nor the exit values agree. -/
abbrev Instrument.MarkersApart (a b : Operation.Code) : Prop :=
  (Instrument.InterfacesAt a)._isAlias = false → (Instrument.InterfacesAt b)._isAlias = false →
    (Instrument.InterfacesAt a)._enterMCV ≠ (Instrument.InterfacesAt b)._exitMCV ∧
    (a ≠ b → (Instrument.InterfacesAt a)._enterMCV ≠ (Instrument.InterfacesAt b)._enterMCV ∧
             (Instrument.InterfacesAt a)._exitMCV ≠ (Instrument.InterfacesAt b)._exitMCV)

/-- The values of two distinct operation codes agree in both components when
the codes belong to the same alias group, and differ in both when they do
not. -/
abbrev AliasGroupsAgree (a b : Operation.Code) : Prop :=
  a ≠ b →
    if sameAliasGroup a b = true then
      (Instrument.InterfacesAt a)._enterMCV = (Instrument.InterfacesAt b)._enterMCV ∧
      (Instrument.InterfacesAt a)._exitMCV = (Instrument.InterfacesAt b)._exitMCV
    else
      (Instrument.InterfacesAt a)._enterMCV ≠ (Instrument.InterfacesAt b)._enterMCV ∧
      (Instrument.InterfacesAt a)._exitMCV ≠ (Instrument.InterfacesAt b)._exitMCV

end sonar

/-! # Theorems -/

/-! ## The table of interface states -/

namespace sonar

open Instrument

/-- The table in memory holds, at the value of each operation code, the entry
designated for that code. -/
theorem Interfaces_at_code (c : Operation.Code) :
    Interfaces[c.toNat]? = some (InterfacesAt c) := by
  cases c <;> rfl

/-! ## Facts of a list, piece by piece -/

/-- An element of a list is among its first elements or among the others. -/
theorem mem_take_or_drop {α : Type} (n : Nat) (l : List α) (x : α) (h : x ∈ l) :
    x ∈ l.take n ∨ x ∈ l.drop n := by
  rw [← List.take_append_drop n l] at h
  exact List.mem_append.1 h

/-- A property that holds on each of twelve consecutive pieces of a list holds
on the list. -/
theorem forall_mem_of_pieces {α : Type} (P : α → Prop) (n : Nat) (l : List α)
    (h0 : ∀ a ∈ l.take n, P a)
    (h1 : ∀ a ∈ (l.drop n).take n, P a)
    (h2 : ∀ a ∈ (l.drop (2 * n)).take n, P a)
    (h3 : ∀ a ∈ (l.drop (3 * n)).take n, P a)
    (h4 : ∀ a ∈ (l.drop (4 * n)).take n, P a)
    (h5 : ∀ a ∈ (l.drop (5 * n)).take n, P a)
    (h6 : ∀ a ∈ (l.drop (6 * n)).take n, P a)
    (h7 : ∀ a ∈ (l.drop (7 * n)).take n, P a)
    (h8 : ∀ a ∈ (l.drop (8 * n)).take n, P a)
    (h9 : ∀ a ∈ (l.drop (9 * n)).take n, P a)
    (h10 : ∀ a ∈ (l.drop (10 * n)).take n, P a)
    (h11 : ∀ a ∈ l.drop (11 * n), P a) :
    ∀ a ∈ l, P a := by
  intro a ha
  have step : ∀ k : Nat, a ∈ l.drop (k * n) →
      a ∈ (l.drop (k * n)).take n ∨ a ∈ l.drop ((k + 1) * n) := by
    intro k hk
    rcases mem_take_or_drop n _ a hk with h | h
    · exact Or.inl h
    · refine Or.inr ?_
      have e : l.drop ((k + 1) * n) = (l.drop (k * n)).drop n := by
        rw [List.drop_drop]
        congr 1
        ring
      rw [e]
      exact h
  have s0 : a ∈ l.drop (0 * n) := by simpa using ha
  rcases step 0 s0 with h | h
  · exact h0 a (by simpa using h)
  rcases step 1 h with h | h
  · exact h1 a (by simpa using h)
  rcases step 2 h with h | h
  · exact h2 a h
  rcases step 3 h with h | h
  · exact h3 a h
  rcases step 4 h with h | h
  · exact h4 a h
  rcases step 5 h with h | h
  · exact h5 a h
  rcases step 6 h with h | h
  · exact h6 a h
  rcases step 7 h with h | h
  · exact h7 a h
  rcases step 8 h with h | h
  · exact h8 a h
  rcases step 9 h with h | h
  · exact h9 a h
  rcases step 10 h with h | h
  · exact h10 a h
  exact h11 a h

/-! ## The walk of the table, piece by piece -/

/-- The walk over a table in two parts: when the first part is walked without
a failure, the walk goes on over the second part from the values then
existing. -/
theorem Instrument.checkStates_append (l1 l2 : List StateInfo) :
    ∀ existing existing1 : List String, (checkStates existing l1).toOption = some existing1 →
      checkStates existing (l1 ++ l2) = checkStates existing1 l2 := by
  induction l1 with
  | nil =>
    intro existing existing1 h
    simp only [checkStates, Except.toOption, Option.some.injEq] at h
    rw [List.nil_append, h]
  | cons state rest ih =>
    intro existing existing1 h
    rw [List.cons_append, checkStates]
    rw [checkStates] at h
    cases hs : checkState existing state with
    | error parts =>
      rw [hs] at h
      simp [Except.toOption] at h
    | ok e =>
      rw [hs] at h
      exact ih e existing1 h

/-- One step of the walk in pieces: past a piece that is walked without a
failure, the walk goes on over the rest of the table. -/
theorem Instrument.checkStates_piece (l : List StateInfo) (n m m1 : Nat) (hm : m1 = m + n)
    (existing existing1 : List String)
    (h : (checkStates existing ((l.drop m).take n)).toOption = some existing1) :
    checkStates existing (l.drop m) = checkStates existing1 (l.drop m1) := by
  have e : l.drop m1 = (l.drop m).drop n := by
    subst hm
    simp [List.drop_drop, Nat.add_comm]
  rw [e, ← checkStates_append _ _ existing existing1 h, List.take_append_drop]

set_option maxRecDepth 100000 in
/-- The walk over the table `Interfaces`, piece 0. -/
theorem Instrument.checkStates_Interfaces_0 :
    (checkStates [] (Interfaces.take 5)).toOption =
      some (existingAfter (Interfaces.take 5)) := by
  decide

set_option maxRecDepth 100000 in
/-- The walk over the table `Interfaces`, piece 1. -/
theorem Instrument.checkStates_Interfaces_1 :
    (checkStates (existingAfter (Interfaces.take 5)) ((Interfaces.drop 5).take 5)).toOption =
      some (existingAfter (Interfaces.take 10)) := by
  decide

set_option maxRecDepth 100000 in
/-- The walk over the table `Interfaces`, piece 2. -/
theorem Instrument.checkStates_Interfaces_2 :
    (checkStates (existingAfter (Interfaces.take 10)) ((Interfaces.drop 10).take 5)).toOption =
      some (existingAfter (Interfaces.take 15)) := by
  decide

set_option maxRecDepth 100000 in
/-- The walk over the table `Interfaces`, piece 3. -/
theorem Instrument.checkStates_Interfaces_3 :
    (checkStates (existingAfter (Interfaces.take 15)) ((Interfaces.drop 15).take 5)).toOption =
      some (existingAfter (Interfaces.take 20)) := by
  decide

set_option maxRecDepth 100000 in
/-- The walk over the table `Interfaces`, piece 4. -/
theorem Instrument.checkStates_Interfaces_4 :
    (checkStates (existingAfter (Interfaces.take 20)) ((Interfaces.drop 20).take 5)).toOption =
      some (existingAfter (Interfaces.take 25)) := by
  decide

set_option maxRecDepth 100000 in
/-- The walk over the table `Interfaces`, piece 5. -/
theorem Instrument.checkStates_Interfaces_5 :
    (checkStates (existingAfter (Interfaces.take 25)) ((Interfaces.drop 25).take 5)).toOption =
      some (existingAfter (Interfaces.take 30)) := by
  decide

set_option maxRecDepth 100000 in
/-- The walk over the table `Interfaces`, piece 6. -/
theorem Instrument.checkStates_Interfaces_6 :
    (checkStates (existingAfter (Interfaces.take 30)) ((Interfaces.drop 30).take 5)).toOption =
      some (existingAfter (Interfaces.take 35)) := by
  decide

set_option maxRecDepth 100000 in
/-- The walk over the table `Interfaces`, piece 7. -/
theorem Instrument.checkStates_Interfaces_7 :
    (checkStates (existingAfter (Interfaces.take 35)) ((Interfaces.drop 35).take 5)).toOption =
      some (existingAfter (Interfaces.take 40)) := by
  decide

set_option maxRecDepth 100000 in
/-- The walk over the table `Interfaces`, piece 8. -/
theorem Instrument.checkStates_Interfaces_8 :
    (checkStates (existingAfter (Interfaces.take 40)) ((Interfaces.drop 40).take 5)).toOption =
      some (existingAfter (Interfaces.take 45)) := by
  decide

set_option maxRecDepth 100000 in
/-- The walk over the table `Interfaces`, piece 9. -/
theorem Instrument.checkStates_Interfaces_9 :
    (checkStates (existingAfter (Interfaces.take 45)) ((Interfaces.drop 45).take 5)).toOption =
      some (existingAfter (Interfaces.take 50)) := by
  decide

set_option maxRecDepth 100000 in
/-- The walk over the table `Interfaces`, piece 10. -/
theorem Instrument.checkStates_Interfaces_10 :
    (checkStates (existingAfter (Interfaces.take 50)) ((Interfaces.drop 50).take 5)).toOption =
      some (existingAfter (Interfaces.take 55)) := by
  decide

set_option maxRecDepth 100000 in
/-- The walk over the table `Interfaces`, piece 11. -/
theorem Instrument.checkStates_Interfaces_11 :
    (checkStates (existingAfter (Interfaces.take 55)) (Interfaces.drop 55)).toOption =
      some (existingAfter Interfaces) := by
  decide

/-- The walk over the table `Interfaces` completes without a failure. -/
theorem Instrument.checkStates_Interfaces :
    (checkStates [] Interfaces).toOption = some (existingAfter Interfaces) := by
  have s0 : checkStates [] Interfaces =
      checkStates (existingAfter (Interfaces.take 5)) (Interfaces.drop 5) :=
    checkStates_piece Interfaces 5 0 5 rfl _ _ checkStates_Interfaces_0
  have s1 := checkStates_piece Interfaces 5 5 10 rfl _ _ checkStates_Interfaces_1
  have s2 := checkStates_piece Interfaces 5 10 15 rfl _ _ checkStates_Interfaces_2
  have s3 := checkStates_piece Interfaces 5 15 20 rfl _ _ checkStates_Interfaces_3
  have s4 := checkStates_piece Interfaces 5 20 25 rfl _ _ checkStates_Interfaces_4
  have s5 := checkStates_piece Interfaces 5 25 30 rfl _ _ checkStates_Interfaces_5
  have s6 := checkStates_piece Interfaces 5 30 35 rfl _ _ checkStates_Interfaces_6
  have s7 := checkStates_piece Interfaces 5 35 40 rfl _ _ checkStates_Interfaces_7
  have s8 := checkStates_piece Interfaces 5 40 45 rfl _ _ checkStates_Interfaces_8
  have s9 := checkStates_piece Interfaces 5 45 50 rfl _ _ checkStates_Interfaces_9
  have s10 := checkStates_piece Interfaces 5 50 55 rfl _ _ checkStates_Interfaces_10
  rw [s0, s1, s2, s3, s4, s5, s6, s7, s8, s9, s10]
  exact checkStates_Interfaces_11
/-- The check accepts the table `Interfaces`. -/
theorem checkStateTable_Interfaces : checkStateTable Interfaces = none := by
  have h := Instrument.checkStates_Interfaces
  rw [checkStateTable]
  cases hc : checkStates [] Interfaces with
  | ok existing => rfl
  | error parts =>
    rw [hc] at h
    simp [Except.toOption] at h

/-- Every operation code is in the list of all codes. -/
theorem Operation.Code.mem_all (c : Operation.Code) : c ∈ Operation.Code.all := by
  cases c <;> decide
/-! ## The values of the table, pairwise -/

set_option maxRecDepth 100000 in
/-- The values of the non-alias entries are apart, piece 0. -/
theorem Instrument.markersApart_0 : ∀ a ∈ (Operation.Code.all).take 5, ∀ b ∈ Operation.Code.all, MarkersApart a b := by
  decide

set_option maxRecDepth 100000 in
/-- The values of the non-alias entries are apart, piece 1. -/
theorem Instrument.markersApart_1 : ∀ a ∈ ((Operation.Code.all).drop 5).take 5, ∀ b ∈ Operation.Code.all, MarkersApart a b := by
  decide

set_option maxRecDepth 100000 in
/-- The values of the non-alias entries are apart, piece 2. -/
theorem Instrument.markersApart_2 : ∀ a ∈ ((Operation.Code.all).drop (2 * 5)).take 5, ∀ b ∈ Operation.Code.all, MarkersApart a b := by
  decide

set_option maxRecDepth 100000 in
/-- The values of the non-alias entries are apart, piece 3. -/
theorem Instrument.markersApart_3 : ∀ a ∈ ((Operation.Code.all).drop (3 * 5)).take 5, ∀ b ∈ Operation.Code.all, MarkersApart a b := by
  decide

set_option maxRecDepth 100000 in
/-- The values of the non-alias entries are apart, piece 4. -/
theorem Instrument.markersApart_4 : ∀ a ∈ ((Operation.Code.all).drop (4 * 5)).take 5, ∀ b ∈ Operation.Code.all, MarkersApart a b := by
  decide

set_option maxRecDepth 100000 in
/-- The values of the non-alias entries are apart, piece 5. -/
theorem Instrument.markersApart_5 : ∀ a ∈ ((Operation.Code.all).drop (5 * 5)).take 5, ∀ b ∈ Operation.Code.all, MarkersApart a b := by
  decide

set_option maxRecDepth 100000 in
/-- The values of the non-alias entries are apart, piece 6. -/
theorem Instrument.markersApart_6 : ∀ a ∈ ((Operation.Code.all).drop (6 * 5)).take 5, ∀ b ∈ Operation.Code.all, MarkersApart a b := by
  decide

set_option maxRecDepth 100000 in
/-- The values of the non-alias entries are apart, piece 7. -/
theorem Instrument.markersApart_7 : ∀ a ∈ ((Operation.Code.all).drop (7 * 5)).take 5, ∀ b ∈ Operation.Code.all, MarkersApart a b := by
  decide

set_option maxRecDepth 100000 in
/-- The values of the non-alias entries are apart, piece 8. -/
theorem Instrument.markersApart_8 : ∀ a ∈ ((Operation.Code.all).drop (8 * 5)).take 5, ∀ b ∈ Operation.Code.all, MarkersApart a b := by
  decide

set_option maxRecDepth 100000 in
/-- The values of the non-alias entries are apart, piece 9. -/
theorem Instrument.markersApart_9 : ∀ a ∈ ((Operation.Code.all).drop (9 * 5)).take 5, ∀ b ∈ Operation.Code.all, MarkersApart a b := by
  decide

set_option maxRecDepth 100000 in
/-- The values of the non-alias entries are apart, piece 10. -/
theorem Instrument.markersApart_10 : ∀ a ∈ ((Operation.Code.all).drop (10 * 5)).take 5, ∀ b ∈ Operation.Code.all, MarkersApart a b := by
  decide

set_option maxRecDepth 100000 in
/-- The values of the non-alias entries are apart, piece 11. -/
theorem Instrument.markersApart_11 : ∀ a ∈ (Operation.Code.all).drop (11 * 5), ∀ b ∈ Operation.Code.all, MarkersApart a b := by
  decide

/-- The values of the non-alias entries of the table are apart. -/
theorem Instrument.markersApart (a b : Operation.Code) : MarkersApart a b :=
  forall_mem_of_pieces (fun a => ∀ b ∈ Operation.Code.all, MarkersApart a b) 5
    Operation.Code.all markersApart_0 markersApart_1 markersApart_2 markersApart_3
    markersApart_4 markersApart_5 markersApart_6 markersApart_7 markersApart_8
    markersApart_9 markersApart_10 markersApart_11 a a.mem_all b b.mem_all

set_option maxRecDepth 100000 in
/-- Both values of an alias entry occur in a non-alias entry at a smaller
operation code, first part of the table. -/
theorem Instrument.aliasValuesEarlier_first :
    ∀ c ∈ Operation.Code.all.take 40, (InterfacesAt c)._isAlias = true →
      (∃ d ∈ Operation.Code.all, d.toNat < c.toNat ∧ (InterfacesAt d)._isAlias = false ∧
        ((InterfacesAt c)._enterMCV = (InterfacesAt d)._enterMCV ∨
         (InterfacesAt c)._enterMCV = (InterfacesAt d)._exitMCV)) ∧
      (∃ d ∈ Operation.Code.all, d.toNat < c.toNat ∧ (InterfacesAt d)._isAlias = false ∧
        ((InterfacesAt c)._exitMCV = (InterfacesAt d)._enterMCV ∨
         (InterfacesAt c)._exitMCV = (InterfacesAt d)._exitMCV)) := by
  decide

set_option maxRecDepth 100000 in
/-- Both values of an alias entry occur in a non-alias entry at a smaller
operation code, second part of the table. -/
theorem Instrument.aliasValuesEarlier_rest :
    ∀ c ∈ Operation.Code.all.drop 40, (InterfacesAt c)._isAlias = true →
      (∃ d ∈ Operation.Code.all, d.toNat < c.toNat ∧ (InterfacesAt d)._isAlias = false ∧
        ((InterfacesAt c)._enterMCV = (InterfacesAt d)._enterMCV ∨
         (InterfacesAt c)._enterMCV = (InterfacesAt d)._exitMCV)) ∧
      (∃ d ∈ Operation.Code.all, d.toNat < c.toNat ∧ (InterfacesAt d)._isAlias = false ∧
        ((InterfacesAt c)._exitMCV = (InterfacesAt d)._enterMCV ∨
         (InterfacesAt c)._exitMCV = (InterfacesAt d)._exitMCV)) := by
  decide

set_option maxRecDepth 100000 in
/-- C6: the table `Interfaces` has 59 entries, the entry of every operation
code at the index that is the code's value; no value occurs twice among the
enter and exit values of its non-alias entries (not as two enters, not as two
exits, not as an enter and an exit); and both values of every alias entry
occur in a non-alias entry at a smaller operation code. -/
theorem Interfaces_registry_invariant :
    Interfaces.length = 59 ∧
    (∀ c : Operation.Code, Interfaces[c.toNat]? = some (InterfacesAt c)) ∧
    (∀ a b : Operation.Code,
      (InterfacesAt a)._isAlias = false → (InterfacesAt b)._isAlias = false →
        (InterfacesAt a)._enterMCV ≠ (InterfacesAt b)._exitMCV ∧
        (a ≠ b → (InterfacesAt a)._enterMCV ≠ (InterfacesAt b)._enterMCV ∧
                 (InterfacesAt a)._exitMCV ≠ (InterfacesAt b)._exitMCV)) ∧
    (∀ c : Operation.Code, (InterfacesAt c)._isAlias = true →
      (∃ d : Operation.Code, d.toNat < c.toNat ∧ (InterfacesAt d)._isAlias = false ∧
        ((InterfacesAt c)._enterMCV = (InterfacesAt d)._enterMCV ∨
         (InterfacesAt c)._enterMCV = (InterfacesAt d)._exitMCV)) ∧
      (∃ d : Operation.Code, d.toNat < c.toNat ∧ (InterfacesAt d)._isAlias = false ∧
        ((InterfacesAt c)._exitMCV = (InterfacesAt d)._enterMCV ∨
         (InterfacesAt c)._exitMCV = (InterfacesAt d)._exitMCV))) := by
  refine ⟨by decide, Interfaces_at_code, ?_, ?_⟩
  · exact fun a b => Instrument.markersApart a b
  · intro c hc
    have key := (mem_take_or_drop 40 _ c c.mem_all).elim
      (fun h => Instrument.aliasValuesEarlier_first c h hc)
      (fun h => Instrument.aliasValuesEarlier_rest c h hc)
    obtain ⟨⟨d, -, hd⟩, ⟨e, -, he⟩⟩ := key
    exact ⟨⟨d, hd⟩, ⟨e, he⟩⟩

/-! ## The dispatcher -/

@[simp] theorem State.log_trace (s : State) (e : Effect) :
    (s.log e).trace = s.trace ++ [e] := rfl

@[simp] theorem State.log_ovniEnabled (s : State) (e : Effect) :
    (s.log e)._ovniEnabled = s._ovniEnabled := rfl

@[simp] theorem State.log_ovniFinalize (s : State) (e : Effect) :
    (s.log e)._ovniFinalize = s._ovniFinalize := rfl

@[simp] theorem State.log_symbols (s : State) (e : Effect) :
    (s.log e).symbols = s.symbols := rfl

@[simp] theorem State.log_threadReady (s : State) (e : Effect) :
    (s.log e).threadReady = s.threadReady := rfl

/-- What the initialisation of the static `symbol` does when it does not
terminate the process: it yields the resolved address, performs the lookups
and stores the address. -/
theorem Manager.symbol_of_not_fatal (env : Env) (inst : Instantiation) (name : String)
    (s : State) (h : (Manager.symbol env inst name s).isFatal = false) :
    Manager.symbol env inst name s =
      .ok (Manager.resolved env inst name s)
        { s with
          trace := s.trace ++ Manager.lookups inst name s
          symbols := match s.symbols.lookup inst with
            | some _ => s.symbols
            | none => (inst, env.dlsym name) :: s.symbols } := by
  unfold Manager.symbol Manager.resolved Manager.lookups at *
  cases hl : s.symbols.lookup inst with
  | some p => simp
  | none =>
    simp only [hl, Symbol.load] at h ⊢
    by_cases h0 : env.dlsym name = 0
    · simp [h0, IOHandler.fail, Outcome.isFatal] at h
    · simp [h0, State.log]

/-- The initialisation of the static `symbol` terminates the process exactly
when no address is stored and the lookup gives `nullptr`. -/
theorem Manager.symbol_isFatal (env : Env) (inst : Instantiation) (name : String)
    (s : State) :
    (Manager.symbol env inst name s).isFatal = true ↔
      s.symbols.lookup inst = none ∧ env.dlsym name = 0 := by
  unfold Manager.symbol
  cases hl : s.symbols.lookup inst with
  | some p => simp [Outcome.isFatal]
  | none =>
    by_cases h0 : env.dlsym name = 0 <;>
      simp [Symbol.load, h0, IOHandler.fail, Outcome.isFatal]

/-- The dispatcher, when the symbol resolves, in closed form. -/
theorem Manager.process_of_not_fatal (env : Env) (inst : Instantiation) (name : String)
    (params : List Int) (s : State)
    (h : (Manager.symbol env inst name s).isFatal = false) :
    Manager.process env inst name params s =
      (let s1 : State := { s with
          trace := s.trace ++ Manager.lookups inst name s
          symbols := match s.symbols.lookup inst with
            | some _ => s.symbols
            | none => (inst, env.dlsym name) :: s.symbols }
       let s2 := Instrument.exit inst.code
          ((Instrument.enter inst.code s1).log
            (.call (Manager.resolved env inst name s) params))
       match env.call (Manager.resolved env inst name s) params with
       | .returned value => .ok value s2
       | .threw e => .threw e s2) := by
  unfold Manager.process
  rw [Manager.symbol_of_not_fatal env inst name s h]

/-- C1: with the instrumentation enabled, a call of `Manager::process` whose
symbol resolves adds to the trace, after the lookup of the first call, exactly
the enter event of the operation, one invocation of the resolved function and
the exit event of the operation, in this order and with nothing in between;
the process is not terminated; and this is so whichever way the real call
ends (the statement holds for every `env.call`, returning or failing). -/
theorem process_enabled_trace (env : Env) (inst : Instantiation) (name : String)
    (params : List Int) (s : State) (henabled : s._ovniEnabled = true)
    (hsymbol : (Manager.symbol env inst name s).isFatal = false) :
    (Manager.process env inst name params s).state.trace =
      s.trace ++ Manager.lookups inst name s ++
        [.ovni_ev_emit (InterfacesAt inst.code)._enterMCV [],
         .call (Manager.resolved env inst name s) params,
         .ovni_ev_emit (InterfacesAt inst.code)._exitMCV []] ∧
    (Manager.process env inst name params s).isFatal = false := by
  rw [Manager.process_of_not_fatal env inst name params s hsymbol]
  cases env.call (Manager.resolved env inst name s) params <;>
    simp [Outcome.state, Outcome.isFatal, Instrument.enter, Instrument.exit,
      Instrument.emit, henabled]

/-- C1, at a concrete input: an enabled call of the barrier wrapper whose real
function fails. -/
theorem process_enabled_trace_witness :
    Examples.enabled._ovniEnabled = true ∧
    (Manager.symbol (Examples.env (some "ovni") (.threw 7)) Examples.barrier
      "MPI_Barrier" Examples.enabled).isFatal = false ∧
    (Manager.process (Examples.env (some "ovni") (.threw 7)) Examples.barrier
      "MPI_Barrier" [91] Examples.enabled).state.trace =
      [.dlsym "MPI_Barrier", .ovni_ev_emit "MCb" [], .call 4096 [91],
       .ovni_ev_emit "MCB" []] ∧
    (Manager.process (Examples.env (some "ovni") (.threw 7)) Examples.barrier
      "MPI_Barrier" [91] Examples.enabled).completion = some (.threw 7) :=
  ⟨rfl, by decide,
    (process_enabled_trace (Examples.env (some "ovni") (.threw 7)) Examples.barrier
      "MPI_Barrier" [91] Examples.enabled rfl (by decide)).1,
    by decide⟩

/-- C2: a call of `Manager::process` whose symbol resolves ends exactly as the
resolved function does on the parameters it was given (same value, or same
failure); the one invocation it adds to the trace carries those parameters
unchanged and in the same order; and the way it ends is the same whether the
instrumentation is enabled or not. -/
theorem process_returns_real_result (env : Env) (inst : Instantiation) (name : String)
    (params : List Int) (s : State)
    (hsymbol : (Manager.symbol env inst name s).isFatal = false) :
    (Manager.process env inst name params s).completion =
      some (env.call (Manager.resolved env inst name s) params) ∧
    (Manager.process env inst name params s).state.trace.filter Effect.isCall =
      s.trace.filter Effect.isCall ++ [.call (Manager.resolved env inst name s) params] ∧
    (Manager.process env inst name params { s with _ovniEnabled := true }).completion =
      (Manager.process env inst name params { s with _ovniEnabled := false }).completion := by
  have hfatal : ∀ b : Bool,
      (Manager.symbol env inst name { s with _ovniEnabled := b }).isFatal = false := by
    intro b
    cases hb : (Manager.symbol env inst name { s with _ovniEnabled := b }).isFatal with
    | false => rfl
    | true =>
      have h1 := (Manager.symbol_isFatal env inst name _).1 hb
      have h2 := (Manager.symbol_isFatal env inst name s).2 h1
      rw [h2] at hsymbol
      exact absurd hsymbol (by decide)
  refine ⟨?_, ?_, ?_⟩
  · rw [Manager.process_of_not_fatal env inst name params s hsymbol]
    cases env.call (Manager.resolved env inst name s) params <;>
      simp [Outcome.completion]
  · rw [Manager.process_of_not_fatal env inst name params s hsymbol]
    have hl : (Manager.lookups inst name s).filter Effect.isCall = [] := by
      unfold Manager.lookups
      cases s.symbols.lookup inst <;> simp [Effect.isCall]
    cases env.call (Manager.resolved env inst name s) params <;>
      cases he : s._ovniEnabled <;>
        simp [Outcome.state, Instrument.enter, Instrument.exit, Instrument.emit, he,
          List.filter_append, hl, Effect.isCall]
  · rw [Manager.process_of_not_fatal env inst name params _ (hfatal true),
      Manager.process_of_not_fatal env inst name params _ (hfatal false)]
    have hr : Manager.resolved env inst name { s with _ovniEnabled := true } =
        Manager.resolved env inst name { s with _ovniEnabled := false } := rfl
    rw [hr]
    cases env.call (Manager.resolved env inst name { s with _ovniEnabled := false }) params <;>
      simp [Outcome.completion]

/-- C2, at a concrete input: the barrier wrapper returns the status 17 of the
real function. -/
theorem process_returns_real_result_witness :
    (Manager.symbol (Examples.env none (.returned 17)) Examples.barrier
      "MPI_Barrier" (State.initial false)).isFatal = false ∧
    (Manager.process (Examples.env none (.returned 17)) Examples.barrier
      "MPI_Barrier" [91] (State.initial false)).completion = some (.returned 17) :=
  ⟨by decide,
    (process_returns_real_result (Examples.env none (.returned 17)) Examples.barrier
      "MPI_Barrier" [91] (State.initial false) (by decide)).1⟩

/-- C3: with the instrumentation disabled, `Instrument::enter` and
`Instrument::exit` leave the state as it is for every operation code, and a
call of `Manager::process` whose symbol resolves adds to the trace, after the
lookup of the first call, one invocation of the resolved function and nothing
else: no event is emitted. -/
theorem disabled_process_no_event (env : Env) (inst : Instantiation) (name : String)
    (params : List Int) (s : State) (hdisabled : s._ovniEnabled = false)
    (hsymbol : (Manager.symbol env inst name s).isFatal = false) :
    (∀ Operation : Operation.Code,
      Instrument.enter Operation s = s ∧ Instrument.exit Operation s = s) ∧
    (Manager.process env inst name params s).state.trace =
      s.trace ++ Manager.lookups inst name s ++
        [.call (Manager.resolved env inst name s) params] ∧
    (Manager.process env inst name params s).state.trace.filter Effect.isEvent =
      s.trace.filter Effect.isEvent := by
  have hl : (Manager.lookups inst name s).filter Effect.isEvent = [] := by
    unfold Manager.lookups
    cases s.symbols.lookup inst <;> simp [Effect.isEvent]
  refine ⟨fun Operation => ⟨by simp [Instrument.enter, hdisabled],
    by simp [Instrument.exit, hdisabled]⟩, ?_, ?_⟩
  · rw [Manager.process_of_not_fatal env inst name params s hsymbol]
    cases env.call (Manager.resolved env inst name s) params <;>
      simp [Outcome.state, Instrument.enter, Instrument.exit, hdisabled]
  · rw [Manager.process_of_not_fatal env inst name params s hsymbol]
    cases env.call (Manager.resolved env inst name s) params <;>
      simp [Outcome.state, Instrument.enter, Instrument.exit, hdisabled,
        List.filter_append, hl, Effect.isEvent]

/-- C3, at a concrete input: a disabled call of the barrier wrapper. -/
theorem disabled_process_no_event_witness :
    (State.initial false)._ovniEnabled = false ∧
    (Manager.symbol (Examples.env none (.returned 0)) Examples.barrier
      "MPI_Barrier" (State.initial false)).isFatal = false ∧
    (Manager.process (Examples.env none (.returned 0)) Examples.barrier
      "MPI_Barrier" [91] (State.initial false)).state.trace =
      [.dlsym "MPI_Barrier", .call 4096 [91]] :=
  ⟨rfl, by decide,
    (disabled_process_no_event (Examples.env none (.returned 0)) Examples.barrier
      "MPI_Barrier" [91] (State.initial false) rfl (by decide)).2.1⟩

/-! ## The check of the table -/

/-- The condition under which the walk over one entry succeeds, in terms of
the set of existing values. -/
theorem Instrument.checkState_ok_iff (existing : List String) (state : StateInfo)
    (r : List String) :
    checkState existing state = .ok r ↔
      (state._isAlias = true ∧ state._enterMCV ∈ existing ∧ state._exitMCV ∈ existing ∧
        r = existing) ∨
      (state._isAlias = false ∧ state._enterMCV ∉ existing ∧
        state._enterMCV ≠ state._exitMCV ∧ state._exitMCV ∉ existing ∧
        r = state._exitMCV :: state._enterMCV :: existing) := by
  unfold checkState
  cases ha : state._isAlias
  · by_cases h1 : state._enterMCV ∈ existing
    · simp [h1]
    · by_cases h2 : state._exitMCV = state._enterMCV
      · simp [h1, h2]
      · have h2' : ¬ state._enterMCV = state._exitMCV := fun h => h2 h.symm
        by_cases h3 : state._exitMCV ∈ existing
        · simp [h1, h2, h3]
        · simp [h1, h2, h2', h3, eq_comm]
  · by_cases h1 : state._enterMCV ∈ existing
    · by_cases h2 : state._exitMCV ∈ existing
      · simp [h1, h2, eq_comm]
      · simp [h1, h2]
    · simp [h1]

/-- The walk over a table succeeds exactly when every entry satisfies the
condition of the registry invariant, a value counting as seen when it is in
the initial set or a marker of an earlier non-alias entry. -/
theorem Instrument.checkStates_ok_iff (table : List StateInfo) :
    ∀ (existing : List String) (before : List StateInfo),
      (∀ m, m ∈ existing ↔ EarlierMarker before m) →
      ((∃ r, checkStates existing table = .ok r) ↔
        ∀ earlier state later, table = earlier ++ state :: later →
          EntryCorrect (before ++ earlier) state) := by
  induction table with
  | nil =>
    intro existing before _
    simp [checkStates]
  | cons e rest ih =>
    intro existing before hex
    have hsnoc : ∀ m, EarlierMarker (before ++ [e]) m ↔
        (EarlierMarker before m ∨ (e._isAlias = false ∧ (m = e._enterMCV ∨ m = e._exitMCV))) := by
      intro m
      unfold EarlierMarker
      constructor
      · rintro ⟨x, hx, hxa, hxm⟩
        rcases List.mem_append.1 hx with hx | hx
        · exact Or.inl ⟨x, hx, hxa, hxm⟩
        · have : x = e := by simpa using hx
          subst this
          exact Or.inr ⟨hxa, hxm⟩
      · rintro (⟨x, hx, hxa, hxm⟩ | ⟨ha, hm⟩)
        · exact ⟨x, List.mem_append_left _ hx, hxa, hxm⟩
        · exact ⟨e, by simp, ha, hm⟩
    have hsplit : (∀ earlier state later, e :: rest = earlier ++ state :: later →
          EntryCorrect (before ++ earlier) state) ↔
        (EntryCorrect before e ∧
          ∀ earlier state later, rest = earlier ++ state :: later →
            EntryCorrect ((before ++ [e]) ++ earlier) state) := by
      constructor
      · intro h
        refine ⟨by simpa using h [] e rest rfl, ?_⟩
        intro earlier state later hr
        have := h (e :: earlier) state later (by simp [hr])
        simpa using this
      · rintro ⟨h0, h1⟩ earlier state later hr
        cases earlier with
        | nil =>
          simp only [List.nil_append, List.cons.injEq] at hr
          obtain ⟨rfl, -⟩ := hr
          simpa using h0
        | cons x xs =>
          simp only [List.cons_append, List.cons.injEq] at hr
          obtain ⟨rfl, hr⟩ := hr
          have := h1 xs state later hr
          simpa using this
    rw [hsplit]
    constructor
    · rintro ⟨r, hr⟩
      simp only [checkStates] at hr
      cases hc : checkState existing e with
      | error parts => simp [hc] at hr
      | ok existing1 =>
        simp only [hc] at hr
        rcases (checkState_ok_iff existing e existing1).1 hc with
          ⟨ha, h1, h2, rfl⟩ | ⟨ha, h1, h12, h2, rfl⟩
        · refine ⟨⟨fun hf => by simp [ha] at hf,
            fun _ => ⟨(hex _).1 h1, (hex _).1 h2⟩⟩, ?_⟩
          refine (ih existing1 (before ++ [e]) ?_).1 ⟨r, hr⟩
          intro m
          rw [hsnoc, ← hex]
          simp [ha]
        · refine ⟨⟨fun _ => ⟨h12, fun h => h1 ((hex _).2 h), fun h => h2 ((hex _).2 h)⟩,
            fun hf => by simp [ha] at hf⟩, ?_⟩
          refine (ih _ (before ++ [e]) ?_).1 ⟨r, hr⟩
          intro m
          rw [hsnoc, ← hex]
          simp only [List.mem_cons, ha, true_and]
          tauto
    · rintro ⟨h0, h1⟩
      cases ha : e._isAlias with
      | true =>
        obtain ⟨m1, m2⟩ := h0.2 ha
        have hc : checkState existing e = .ok existing :=
          (checkState_ok_iff existing e existing).2
            (Or.inl ⟨ha, (hex _).2 m1, (hex _).2 m2, rfl⟩)
        have hm : ∀ m, m ∈ existing ↔ EarlierMarker (before ++ [e]) m := by
          intro m
          rw [hsnoc, ← hex]
          simp [ha]
        obtain ⟨r, hr⟩ := (ih existing (before ++ [e]) hm).2 h1
        exact ⟨r, by simp [checkStates, hc, hr]⟩
      | false =>
        obtain ⟨h12, m1, m2⟩ := h0.1 ha
        have hc : checkState existing e = .ok (e._exitMCV :: e._enterMCV :: existing) :=
          (checkState_ok_iff existing e _).2
            (Or.inr ⟨ha, fun h => m1 ((hex _).1 h), h12, fun h => m2 ((hex _).1 h), rfl⟩)
        have hm : ∀ m, m ∈ e._exitMCV :: e._enterMCV :: existing ↔
            EarlierMarker (before ++ [e]) m := by
          intro m
          rw [hsnoc, ← hex]
          simp only [List.mem_cons, ha, true_and]
          tauto
        obtain ⟨r, hr⟩ := (ih _ (before ++ [e]) hm).2 h1
        exact ⟨r, by simp [checkStates, hc, hr]⟩

/-- C7: for every table, the check completes without a fatal error if and
only if, walking the entries in index order, the two values of every
non-alias entry are different from each other and from every marker of every
earlier non-alias entry, and the two values of every alias entry each equal
some marker of an earlier non-alias entry. -/
theorem checkStateTable_none_iff (table : List StateInfo) :
    checkStateTable table = none ↔ RegistryCorrect table := by
  have h := Instrument.checkStates_ok_iff table [] []
    (by intro m; simp [EarlierMarker])
  simp only [List.nil_append] at h
  unfold RegistryCorrect
  rw [← h]
  unfold checkStateTable
  cases checkStates [] table <;> simp

/-! ## The markers of the operations -/

/-- Two states that extend the same state by one effect are equal exactly when
the effects are. -/
theorem State.log_eq_log_iff (s : State) (e1 e2 : Effect) :
    s.log e1 = s.log e2 ↔ e1 = e2 := by
  constructor
  · intro h
    have ht := congrArg State.trace h
    simpa using ht
  · rintro rfl
    rfl

set_option maxRecDepth 100000 in
/-- The values of the table agree within the alias groups and differ outside, piece 0. -/
theorem aliasGroupsAgree_0 : ∀ a ∈ (Operation.Code.all).take 5, ∀ b ∈ Operation.Code.all, AliasGroupsAgree a b := by
  decide

set_option maxRecDepth 100000 in
/-- The values of the table agree within the alias groups and differ outside, piece 1. -/
theorem aliasGroupsAgree_1 : ∀ a ∈ ((Operation.Code.all).drop 5).take 5, ∀ b ∈ Operation.Code.all, AliasGroupsAgree a b := by
  decide

set_option maxRecDepth 100000 in
/-- The values of the table agree within the alias groups and differ outside, piece 2. -/
theorem aliasGroupsAgree_2 : ∀ a ∈ ((Operation.Code.all).drop (2 * 5)).take 5, ∀ b ∈ Operation.Code.all, AliasGroupsAgree a b := by
  decide

set_option maxRecDepth 100000 in
/-- The values of the table agree within the alias groups and differ outside, piece 3. -/
theorem aliasGroupsAgree_3 : ∀ a ∈ ((Operation.Code.all).drop (3 * 5)).take 5, ∀ b ∈ Operation.Code.all, AliasGroupsAgree a b := by
  decide

set_option maxRecDepth 100000 in
/-- The values of the table agree within the alias groups and differ outside, piece 4. -/
theorem aliasGroupsAgree_4 : ∀ a ∈ ((Operation.Code.all).drop (4 * 5)).take 5, ∀ b ∈ Operation.Code.all, AliasGroupsAgree a b := by
  decide

set_option maxRecDepth 100000 in
/-- The values of the table agree within the alias groups and differ outside, piece 5. -/
theorem aliasGroupsAgree_5 : ∀ a ∈ ((Operation.Code.all).drop (5 * 5)).take 5, ∀ b ∈ Operation.Code.all, AliasGroupsAgree a b := by
  decide

set_option maxRecDepth 100000 in
/-- The values of the table agree within the alias groups and differ outside, piece 6. -/
theorem aliasGroupsAgree_6 : ∀ a ∈ ((Operation.Code.all).drop (6 * 5)).take 5, ∀ b ∈ Operation.Code.all, AliasGroupsAgree a b := by
  decide

set_option maxRecDepth 100000 in
/-- The values of the table agree within the alias groups and differ outside, piece 7. -/
theorem aliasGroupsAgree_7 : ∀ a ∈ ((Operation.Code.all).drop (7 * 5)).take 5, ∀ b ∈ Operation.Code.all, AliasGroupsAgree a b := by
  decide

set_option maxRecDepth 100000 in
/-- The values of the table agree within the alias groups and differ outside, piece 8. -/
theorem aliasGroupsAgree_8 : ∀ a ∈ ((Operation.Code.all).drop (8 * 5)).take 5, ∀ b ∈ Operation.Code.all, AliasGroupsAgree a b := by
  decide

set_option maxRecDepth 100000 in
/-- The values of the table agree within the alias groups and differ outside, piece 9. -/
theorem aliasGroupsAgree_9 : ∀ a ∈ ((Operation.Code.all).drop (9 * 5)).take 5, ∀ b ∈ Operation.Code.all, AliasGroupsAgree a b := by
  decide

set_option maxRecDepth 100000 in
/-- The values of the table agree within the alias groups and differ outside, piece 10. -/
theorem aliasGroupsAgree_10 : ∀ a ∈ ((Operation.Code.all).drop (10 * 5)).take 5, ∀ b ∈ Operation.Code.all, AliasGroupsAgree a b := by
  decide

set_option maxRecDepth 100000 in
/-- The values of the table agree within the alias groups and differ outside, piece 11. -/
theorem aliasGroupsAgree_11 : ∀ a ∈ (Operation.Code.all).drop (11 * 5), ∀ b ∈ Operation.Code.all, AliasGroupsAgree a b := by
  decide

/-- The values of the table agree within the alias groups and differ outside. -/
theorem aliasGroupsAgree (a b : Operation.Code) : AliasGroupsAgree a b :=
  forall_mem_of_pieces (fun a => ∀ b ∈ Operation.Code.all, AliasGroupsAgree a b) 5
    Operation.Code.all aliasGroupsAgree_0 aliasGroupsAgree_1 aliasGroupsAgree_2
    aliasGroupsAgree_3 aliasGroupsAgree_4 aliasGroupsAgree_5 aliasGroupsAgree_6
    aliasGroupsAgree_7 aliasGroupsAgree_8 aliasGroupsAgree_9 aliasGroupsAgree_10
    aliasGroupsAgree_11 a a.mem_all b b.mem_all

/-- The values of two distinct operation codes in the table agree in both
components exactly within an alias group, and differ in both outside. -/
theorem InterfacesAt_alias_groups (a b : Operation.Code) (hne : a ≠ b) :
    (((InterfacesAt a)._enterMCV = (InterfacesAt b)._enterMCV ∧
      (InterfacesAt a)._exitMCV = (InterfacesAt b)._exitMCV) ↔ sameAliasGroup a b = true) ∧
    (sameAliasGroup a b = false →
      (InterfacesAt a)._enterMCV ≠ (InterfacesAt b)._enterMCV ∧
      (InterfacesAt a)._exitMCV ≠ (InterfacesAt b)._exitMCV) := by
  have h := aliasGroupsAgree a b hne
  cases hg : sameAliasGroup a b with
  | true =>
    rw [hg, if_pos rfl] at h
    exact ⟨⟨fun _ => rfl, fun _ => h⟩, fun hf => absurd hf (by simp)⟩
  | false =>
    rw [hg, if_neg (by simp)] at h
    exact ⟨⟨fun he => absurd he.1 h.1, fun hf => absurd hf (by simp)⟩, fun _ => h⟩

/-- C9: with the instrumentation enabled, two distinct operation codes emit
the same enter event and the same exit event exactly when they belong to the
same alias group of the table, and two operation codes that are not in the
same group differ in both their enter event and their exit event. -/
theorem same_events_iff_same_alias_group (a b : Operation.Code) (s : State)
    (hne : a ≠ b) (henabled : s._ovniEnabled = true) :
    ((Instrument.enter a s = Instrument.enter b s ∧
      Instrument.exit a s = Instrument.exit b s) ↔ sameAliasGroup a b = true) ∧
    (sameAliasGroup a b = false →
      Instrument.enter a s ≠ Instrument.enter b s ∧
      Instrument.exit a s ≠ Instrument.exit b s) ∧
    (Instrument.enter a s).trace = s.trace ++ [.ovni_ev_emit (InterfacesAt a)._enterMCV []] ∧
    (Instrument.exit a s).trace = s.trace ++ [.ovni_ev_emit (InterfacesAt a)._exitMCV []] := by
  have hen : ∀ c d : Operation.Code, Instrument.enter c s = Instrument.enter d s ↔
      (InterfacesAt c)._enterMCV = (InterfacesAt d)._enterMCV := by
    intro c d
    simp [Instrument.enter, henabled, Instrument.emit, State.log_eq_log_iff]
  have hex : ∀ c d : Operation.Code, Instrument.exit c s = Instrument.exit d s ↔
      (InterfacesAt c)._exitMCV = (InterfacesAt d)._exitMCV := by
    intro c d
    simp [Instrument.exit, henabled, Instrument.emit, State.log_eq_log_iff]
  obtain ⟨h1, h2⟩ := InterfacesAt_alias_groups a b hne
  refine ⟨by rw [hen, hex]; exact h1, ?_, ?_, ?_⟩
  · intro hg
    rw [Ne, Ne, hen, hex]
    exact h2 hg
  · simp [Instrument.enter, henabled, Instrument.emit]
  · simp [Instrument.exit, henabled, Instrument.emit]

/-- C9, at concrete inputs: `Allgather` and `Allgatherv` emit the same events,
`Allgather` and `Barrier` do not. -/
theorem same_events_iff_same_alias_group_witness :
    Operation.Code.Allgather ≠ Operation.Code.Allgatherv ∧
    Operation.Code.Allgather ≠ Operation.Code.Barrier ∧
    Examples.enabled._ovniEnabled = true ∧
    (Instrument.enter .Allgather Examples.enabled = Instrument.enter .Allgatherv Examples.enabled ∧
      Instrument.exit .Allgather Examples.enabled = Instrument.exit .Allgatherv Examples.enabled) ∧
    (Instrument.enter .Allgather Examples.enabled ≠ Instrument.enter .Barrier Examples.enabled ∧
      Instrument.exit .Allgather Examples.enabled ≠ Instrument.exit .Barrier Examples.enabled) :=
  ⟨by decide, by decide, rfl,
    (same_events_iff_same_alias_group .Allgather .Allgatherv Examples.enabled
      (by decide) rfl).1.2 (by decide),
    (same_events_iff_same_alias_group .Allgather .Barrier Examples.enabled
      (by decide) rfl).2.1 (by decide)⟩

/-! ## The lookup of a symbol happens once -/

/-- A call whose symbol resolves, followed by more calls: the sequence goes on
from the state the call leaves, whichever way the real function ended. -/
theorem run_cons_processCall (env : Env) (inst : Instantiation) (name : String)
    (params : List Int) (rest : List Action) (s : State)
    (h : (Manager.symbol env inst name s).isFatal = false) :
    run env (.processCall inst name params :: rest) s =
      run env rest
        { s with
          trace := s.trace ++ Manager.lookups inst name s ++
            bracket s._ovniEnabled inst.code (Manager.resolved env inst name s) params
          symbols := match s.symbols.lookup inst with
            | some _ => s.symbols
            | none => (inst, env.dlsym name) :: s.symbols } := by
  simp only [run, step]
  rw [Manager.process_of_not_fatal env inst name params s h]
  cases env.call (Manager.resolved env inst name s) params <;>
    cases he : s._ovniEnabled <;>
      simp [Instrument.enter, Instrument.exit, Instrument.emit, State.log, bracket, he]

/-- Calls through a wrapper whose address is stored: no lookup, every call
invokes the stored address, the stored addresses stay as they are. -/
theorem run_callsThrough_stored (env : Env) (inst : Instantiation) (name : String)
    (symbol : Nat) (paramss : List (List Int)) :
    ∀ s : State, s.symbols.lookup inst = some symbol →
      run env (callsThrough inst name paramss) s =
        .ok () { s with
          trace := s.trace ++ paramss.flatMap (bracket s._ovniEnabled inst.code symbol) } := by
  induction paramss with
  | nil =>
    intro s _
    simp [callsThrough, run]
  | cons params rest ih =>
    intro s hs
    have hnf : (Manager.symbol env inst name s).isFatal = false := by
      cases hf : (Manager.symbol env inst name s).isFatal with
      | false => rfl
      | true =>
        have := ((Manager.symbol_isFatal env inst name s).1 hf).1
        rw [hs] at this
        exact absurd this (by simp)
    have hcons : callsThrough inst name (params :: rest) =
        .processCall inst name params :: callsThrough inst name rest := rfl
    rw [hcons, run_cons_processCall env inst name params _ s hnf]
    have hl : Manager.lookups inst name s = [] := by simp [Manager.lookups, hs]
    have hr : Manager.resolved env inst name s = symbol := by simp [Manager.resolved, hs]
    rw [ih _ (by simp [hs])]
    simp [hl, hr, hs, List.flatMap_cons]

/-- The first call through a wrapper whose address is not stored yet, and the
calls after it: one lookup, at the start, and every call invokes the address
that the lookup gave. -/
theorem run_callsThrough_fresh (env : Env) (inst : Instantiation) (name : String)
    (params : List Int) (rest : List (List Int)) (s : State)
    (hfresh : s.symbols.lookup inst = none) (hfound : env.dlsym name ≠ 0) :
    run env (callsThrough inst name (params :: rest)) s =
      .ok () { s with
        trace := s.trace ++ .dlsym name ::
          (params :: rest).flatMap (bracket s._ovniEnabled inst.code (env.dlsym name))
        symbols := (inst, env.dlsym name) :: s.symbols } := by
  have hnf : (Manager.symbol env inst name s).isFatal = false := by
    cases hf : (Manager.symbol env inst name s).isFatal with
    | false => rfl
    | true => exact absurd ((Manager.symbol_isFatal env inst name s).1 hf).2 hfound
  have hcons : callsThrough inst name (params :: rest) =
      .processCall inst name params :: callsThrough inst name rest := rfl
  rw [hcons, run_cons_processCall env inst name params _ s hnf]
  have hl : Manager.lookups inst name s = [.dlsym name] := by simp [Manager.lookups, hfresh]
  have hr : Manager.resolved env inst name s = env.dlsym name := by
    simp [Manager.resolved, hfresh]
  rw [run_callsThrough_stored env inst name (env.dlsym name) rest _ (by simp [hfresh])]
  simp [hl, hr, hfresh, List.flatMap_cons]

/-- The effects of resolved calls hold no lookup, and their invocations are
those of the given address, one for each parameter list. -/
theorem bracket_flatMap_facts (enabled : Bool) (code : Operation.Code) (symbol : Nat)
    (name : String) (paramss : List (List Int)) :
    (paramss.flatMap (bracket enabled code symbol)).count (.dlsym name) = 0 ∧
    (paramss.flatMap (bracket enabled code symbol)).filter Effect.isCall =
      paramss.map (fun params => Effect.call symbol params) := by
  induction paramss with
  | nil => simp
  | cons params rest ih =>
    cases enabled <;>
      simp [List.flatMap_cons, bracket, List.count_cons, List.filter_cons, Effect.isCall,
        ih.1, ih.2]

/-- C10: for every wrapper whose symbol the dynamic linker finds and every
sequence of k >= 1 calls through it, starting before its first call: the
process is not terminated; the new effects are the lookup of the wrapper's
name followed by the effects of the k calls, so that the lookup is performed
exactly once and is the first thing the first call does; each of the k calls
invokes the address which that lookup gave; and after the first call and
after every later one the stored address is that address. -/
theorem lookup_performed_once (env : Env) (inst : Instantiation) (name : String)
    (paramss : List (List Int)) (s : State) (hk : 1 ≤ paramss.length)
    (hfresh : s.symbols.lookup inst = none) (hfound : env.dlsym name ≠ 0) :
    (run env (callsThrough inst name paramss) s).isFatal = false ∧
    (run env (callsThrough inst name paramss) s).state.trace =
      s.trace ++ .dlsym name ::
        paramss.flatMap (bracket s._ovniEnabled inst.code (env.dlsym name)) ∧
    ((run env (callsThrough inst name paramss) s).state.trace.drop s.trace.length).count
      (.dlsym name) = 1 ∧
    ((run env (callsThrough inst name paramss) s).state.trace.drop s.trace.length).filter
      Effect.isCall = paramss.map (fun params => Effect.call (env.dlsym name) params) ∧
    (∀ n, 1 ≤ n →
      (run env (callsThrough inst name (paramss.take n)) s).state.symbols.lookup inst =
        some (env.dlsym name)) := by
  cases paramss with
  | nil => simp at hk
  | cons params rest =>
    have hfacts := bracket_flatMap_facts s._ovniEnabled inst.code (env.dlsym name) name
      (params :: rest)
    rw [run_callsThrough_fresh env inst name params rest s hfresh hfound]
    refine ⟨rfl, rfl, ?_, ?_, ?_⟩
    · simp only [Outcome.state, List.drop_left, List.count_cons_self, hfacts.1]
    · simp only [Outcome.state, List.drop_left]
      rw [List.filter_cons]
      simp only [Effect.isCall, hfacts.2]
      simp
    · intro n hn
      cases n with
      | zero => simp at hn
      | succ m =>
        rw [List.take_succ_cons,
          run_callsThrough_fresh env inst name params (rest.take m) s hfresh hfound]
        simp [Outcome.state]

/-- C10, at a concrete input: three calls of the barrier wrapper from the
initial state perform one lookup and invoke the address 4096 three times. -/
theorem lookup_performed_once_witness :
    1 ≤ [[1], [2], [3]].length ∧
    (State.initial false).symbols.lookup Examples.barrier = none ∧
    (Examples.env none (.returned 0)).dlsym "MPI_Barrier" ≠ 0 ∧
    (run (Examples.env none (.returned 0))
      (callsThrough Examples.barrier "MPI_Barrier" [[1], [2], [3]])
      (State.initial false)).state.trace =
      [.dlsym "MPI_Barrier", .call 4096 [1], .call 4096 [2], .call 4096 [3]] :=
  ⟨by decide, rfl, by decide,
    (lookup_performed_once (Examples.env none (.returned 0)) Examples.barrier
      "MPI_Barrier" [[1], [2], [3]] (State.initial false) (by decide) rfl
      (by decide)).2.1⟩

/-! ## The preinitialization -/

/-- The environment variable that `preinitialize` constructs does not depend
on the state. -/
theorem Envar.construct_fst (env : Env) (name defaultValue : String) (s t : State) :
    (Envar.construct env name defaultValue s).1 = (Envar.construct env name defaultValue t).1 := by
  unfold Envar.construct
  cases hg : env.getenv name with
  | none => rfl
  | some valueString => cases hp : StringSupport.parse valueString <;> simp [hp]

/-- The construction of an environment variable reads the environment and may
warn: it leaves the flags, the stored symbols and the backend alone. -/
theorem Envar.construct_snd (env : Env) (name defaultValue : String) (s : State) :
    (Envar.construct env name defaultValue s).2._ovniEnabled = s._ovniEnabled ∧
    (Envar.construct env name defaultValue s).2._ovniFinalize = s._ovniFinalize ∧
    (Envar.construct env name defaultValue s).2.symbols = s.symbols ∧
    (Envar.construct env name defaultValue s).2.threadReady = s.threadReady ∧
    (Envar.construct env name defaultValue s).2.trace.filter Effect.isBackend =
      s.trace.filter Effect.isBackend ∧
    (Envar.construct env name defaultValue s).1.getName = name := by
  unfold Envar.construct
  cases hg : env.getenv name with
  | none => simp [List.filter_append, Effect.isBackend, Envar.getName]
  | some valueString =>
    cases hp : StringSupport.parse valueString <;>
      simp [hp, List.filter_append, Effect.isBackend, Envar.getName, IOHandler.warn]

/-- A value other than the default one was read from the environment without
a warning. -/
theorem Envar.construct_of_ne_default (env : Env) (name defaultValue : String) (s : State)
    (h : (Envar.construct env name defaultValue s).1.get ≠ defaultValue) :
    (Envar.construct env name defaultValue s).2 = s.log (.getenv name) := by
  unfold Envar.construct at *
  cases hg : env.getenv name with
  | none => simp [hg, Envar.get] at h
  | some valueString =>
    cases hp : StringSupport.parse valueString with
    | none => simp [hg, hp, Envar.get] at h
    | some tmp => simp [hp]

/-- The preinitialization on the table `Interfaces`, past its safety check. -/
theorem Instrument.preinitialize_eq (env : Env) (s : State) :
    Instrument.preinitialize env s =
      if (Envar.construct env "SONAR_MPI_INSTRUMENT" "none" s).1.get = "ovni" then
        ovniInitialize env
          { (Envar.construct env "SONAR_MPI_INSTRUMENT" "none" s).2 with _ovniEnabled := true }
      else if (Envar.construct env "SONAR_MPI_INSTRUMENT" "none" s).1.get = "none" then
        .ok () { (Envar.construct env "SONAR_MPI_INSTRUMENT" "none" s).2 with
          _ovniEnabled := false }
      else
        IOHandler.fail env
          ["Invalid value ", (Envar.construct env "SONAR_MPI_INSTRUMENT" "none" s).1.get,
           " for ", (Envar.construct env "SONAR_MPI_INSTRUMENT" "none" s).1.getName]
          (Envar.construct env "SONAR_MPI_INSTRUMENT" "none" s).2 := by
  rw [ Instrument.preinitialize, Instrument.preinitializeWith, checkStateTable_Interfaces]
  by_cases h1 : (Envar.construct env "SONAR_MPI_INSTRUMENT" "none" s).1.get = "ovni"
  · simp [h1]
  · by_cases h2 : (Envar.construct env "SONAR_MPI_INSTRUMENT" "none" s).1.get = "none"
    · simp [h2]
    · simp [h1, h2, IOHandler.fail]

/-- C8: if the check of the table fails, the preinitialization over that table
terminates the process with the error of the check and nothing else happened:
for every environment (every configuration value) and every state (every
backend state) the only new effect is the error message, so the environment
was not read, no backend call was made and no event was emitted, and the two
flags are as they were. -/
theorem preinitialize_check_fails (table : List StateInfo) (env : Env) (s : State)
    (parts : List String) (hcheck : checkStateTable table = some parts) :
    Instrument.preinitializeWith table env s =
      .fatal (if env.NDEBUG then .exit 1 else .abort)
        (s.log (.stderr ("Error: " ++ IOHandler.emitReasonParts parts ++ "\n"))) ∧
    (Instrument.preinitializeWith table env s).state._ovniEnabled = s._ovniEnabled ∧
    (Instrument.preinitializeWith table env s).state._ovniFinalize = s._ovniFinalize ∧
    (Instrument.preinitializeWith table env s).state.trace.filter Effect.isBackend =
      s.trace.filter Effect.isBackend ∧
    Effect.getenv "SONAR_MPI_INSTRUMENT" ∉
      (Instrument.preinitializeWith table env s).state.trace.drop s.trace.length := by
  have h : Instrument.preinitializeWith table env s =
      .fatal (if env.NDEBUG then .exit 1 else .abort)
        (s.log (.stderr ("Error: " ++ IOHandler.emitReasonParts parts ++ "\n"))) := by
    unfold Instrument.preinitializeWith
    rw [hcheck]
    rfl
  rw [h]
  simp [Outcome.state, List.filter_append, Effect.isBackend]

/-- C8, at a concrete input: a table with a repeated value, the backend
selected and the ovni thread not ready. -/
theorem preinitialize_check_fails_witness :
    checkStateTable Examples.repeated = some ["ovni mcv ", "MUi", " is repeated"] ∧
    Instrument.preinitializeWith Examples.repeated (Examples.env (some "ovni") (.returned 0))
        (State.initial false) =
      .fatal .abort
        ⟨false, false, [], false, [.stderr "Error: ovni mcv MUi is repeated\n"]⟩ :=
  ⟨by decide,
    (preinitialize_check_fails Examples.repeated (Examples.env (some "ovni") (.returned 0))
      (State.initial false) ["ovni mcv ", "MUi", " is repeated"] (by decide)).1⟩

/-- A call of the dispatcher leaves the flags as they are, and with the
instrumentation disabled it makes no backend call. -/
theorem Manager.process_disabled (env : Env) (inst : Instantiation) (name : String)
    (params : List Int) (s : State) (hdisabled : s._ovniEnabled = false) :
    (Manager.process env inst name params s).state._ovniEnabled = false ∧
    (Manager.process env inst name params s).state.trace.filter Effect.isBackend =
      s.trace.filter Effect.isBackend := by
  cases hf : (Manager.symbol env inst name s).isFatal with
  | false =>
    have hl : (Manager.lookups inst name s).filter Effect.isBackend = [] := by
      unfold Manager.lookups
      cases s.symbols.lookup inst <;> simp [Effect.isBackend]
    rw [Manager.process_of_not_fatal env inst name params s hf]
    cases env.call (Manager.resolved env inst name s) params <;>
      simp [Outcome.state, Instrument.enter, Instrument.exit, hdisabled,
        List.filter_append, hl, Effect.isBackend]
  | true =>
    obtain ⟨h1, h2⟩ := (Manager.symbol_isFatal env inst name s).1 hf
    simp [Manager.process, Manager.symbol, h1, Symbol.load, h2, IOHandler.fail,
      Outcome.state, hdisabled, List.filter_append, Effect.isBackend]

/-- With a configuration value "none", every call keeps the instrumentation
disabled and makes no backend call. -/
theorem step_disabled (env : Env)
    (hvalue : ∀ t : State, (Envar.construct env "SONAR_MPI_INSTRUMENT" "none" t).1.get = "none")
    (a : Action) (s : State) (hdisabled : s._ovniEnabled = false) :
    (step env a s).state._ovniEnabled = false ∧
    (step env a s).state.trace.filter Effect.isBackend = s.trace.filter Effect.isBackend := by
  cases a with
  | processCall inst name params =>
    have h := Manager.process_disabled env inst name params s hdisabled
    simp only [step]
    cases hp : Manager.process env inst name params s <;>
      simpa [hp, Outcome.state] using h
  | preinitializeCall =>
    have hc := Envar.construct_snd env "SONAR_MPI_INSTRUMENT" "none" s
    simp only [step]
    rw [Instrument.preinitialize_eq, hvalue s]
    simp [Outcome.state, hc.2.2.2.2.1]
  | initializeCall rank nranks =>
    simp [step, Outcome.state, Instrument.initialize, hdisabled]
  | finalizeCall =>
    simp [step, Outcome.state, Instrument.finalize, hdisabled]

/-- With a configuration value "none", a sequence of calls from a state with
the instrumentation disabled makes no backend call. -/
theorem run_disabled (env : Env)
    (hvalue : ∀ t : State, (Envar.construct env "SONAR_MPI_INSTRUMENT" "none" t).1.get = "none")
    (acts : List Action) :
    ∀ s : State, s._ovniEnabled = false →
      (run env acts s).state.trace.filter Effect.isBackend =
        s.trace.filter Effect.isBackend := by
  induction acts with
  | nil => intro s _; rfl
  | cons a rest ih =>
    intro s hs
    have h := step_disabled env hvalue a s hs
    simp only [run]
    cases hstep : step env a s with
    | ok v t =>
      rw [hstep] at h
      simp only [Outcome.state] at h
      rw [ih t h.1, h.2]
    | threw e t =>
      rw [hstep] at h
      simp only [Outcome.state] at h
      rw [ih t h.1, h.2]
    | fatal how t =>
      rw [hstep] at h
      simpa [Outcome.state] using h.2

/-- C4, as stated, fails on the code: with the configuration value "off" the
preinitialization does not complete; it terminates the process with the error
"Invalid value off for SONAR_MPI_INSTRUMENT". -/
theorem preinitialize_off_is_fatal :
    (Examples.env (some "off") (.returned 0)).getenv "SONAR_MPI_INSTRUMENT" = some "off" ∧
    (Instrument.preinitialize (Examples.env (some "off") (.returned 0))
      (State.initial false)).isFatal = true ∧
    Instrument.preinitialize (Examples.env (some "off") (.returned 0)) (State.initial false) =
      .fatal .abort
        ⟨false, false, [], false,
          [.getenv "SONAR_MPI_INSTRUMENT",
           .stderr "Error: Invalid value off for SONAR_MPI_INSTRUMENT\n"]⟩ := by
  refine ⟨by decide, ?_, ?_⟩ <;> rw [Instrument.preinitialize_eq] <;> decide

/-- C4, amended: when the configuration value is "none", the preinitialization
completes without a fatal error and leaves the instrumentation disabled and
the ownership of the finalization as it was, having made no backend call; and
whatever calls follow (wrapped calls, the end of the initialization, the
finalization, a preinitialization again), no backend call is ever made: no
event is emitted, the backend is neither initialized nor finalized. -/
theorem preinitialize_none_disabled (env : Env) (s : State)
    (hvalue : (Envar.construct env "SONAR_MPI_INSTRUMENT" "none" s).1.get = "none") :
    (Instrument.preinitialize env s).isFatal = false ∧
    (Instrument.preinitialize env s).state._ovniEnabled = false ∧
    (Instrument.preinitialize env s).state._ovniFinalize = s._ovniFinalize ∧
    (Instrument.preinitialize env s).state.trace.filter Effect.isBackend =
      s.trace.filter Effect.isBackend ∧
    (∀ acts : List Action,
      (run env (.preinitializeCall :: acts) s).state.trace.filter Effect.isBackend =
        s.trace.filter Effect.isBackend) := by
  have hc := Envar.construct_snd env "SONAR_MPI_INSTRUMENT" "none" s
  have h : Instrument.preinitialize env s =
      .ok () { (Envar.construct env "SONAR_MPI_INSTRUMENT" "none" s).2 with
        _ovniEnabled := false } := by
    rw [Instrument.preinitialize_eq, hvalue]
    simp
  have hall : ∀ t : State,
      (Envar.construct env "SONAR_MPI_INSTRUMENT" "none" t).1.get = "none" := by
    intro t
    rw [Envar.construct_fst env _ _ t s]
    exact hvalue
  refine ⟨by rw [h]; rfl, by rw [h]; rfl, ?_, ?_, ?_⟩
  · rw [h]
    exact hc.2.1
  · rw [h]
    exact hc.2.2.2.2.1
  · intro acts
    rw [run, step, h]
    simp only []
    rw [run_disabled env hall acts _ rfl]
    exact hc.2.2.2.2.1

/-- C4, amended, at a concrete input: with the value "none", a
preinitialization, a call of the barrier wrapper and the finalization make
one lookup and one call of the real function, and no backend call. -/
theorem preinitialize_none_disabled_witness :
    (Envar.construct (Examples.env (some "none") (.returned 0)) "SONAR_MPI_INSTRUMENT" "none"
      (State.initial false)).1.get = "none" ∧
    (run (Examples.env (some "none") (.returned 0))
      [.preinitializeCall, .processCall Examples.barrier "MPI_Barrier" [91], .finalizeCall]
      (State.initial false)).state.trace =
      [.getenv "SONAR_MPI_INSTRUMENT", .dlsym "MPI_Barrier", .call 4096 [91]] ∧
    (run (Examples.env (some "none") (.returned 0))
      [.preinitializeCall, .processCall Examples.barrier "MPI_Barrier" [91], .finalizeCall]
      (State.initial false)).state.trace.filter Effect.isBackend =
      (State.initial false).trace.filter Effect.isBackend :=
  ⟨by decide, by rw [run, step, Instrument.preinitialize_eq]; decide,
    (preinitialize_none_disabled (Examples.env (some "none") (.returned 0))
      (State.initial false) (by decide)).2.2.2.2
        [.processCall Examples.barrier "MPI_Barrier" [91], .finalizeCall]⟩

/-! ## A symbol that is not found -/

/-- The message of the fatal error for a symbol that is not found. -/
theorem symbol_not_found_message (name : String) :
    "Error: " ++ IOHandler.emitReasonParts ["Could not find symbol ", name] ++ "\n" =
      "Error: Could not find symbol " ++ name ++ "\n" := by
  simp only [IOHandler.emitReasonParts]
  apply String.ext
  simp [String.data_append]

/-- C12: for every wrapper name for which the lookup gives `nullptr`, the
first call of `Manager::process` (no address is stored yet) terminates the
process; its only effects are the lookup and the one message
"Error: Could not find symbol <name>" with a newline on the error stream, so
that no enter event is emitted and no function is invoked, whether the
instrumentation is enabled or not. -/
theorem process_symbol_not_found (env : Env) (inst : Instantiation) (name : String)
    (params : List Int) (s : State) (hfresh : s.symbols.lookup inst = none)
    (hnull : env.dlsym name = 0) :
    Manager.process env inst name params s =
      .fatal (if env.NDEBUG then .exit 1 else .abort)
        ((s.log (.dlsym name)).log
          (.stderr ("Error: Could not find symbol " ++ name ++ "\n"))) ∧
    (Manager.process env inst name params s).state.trace =
      s.trace ++ [.dlsym name, .stderr ("Error: Could not find symbol " ++ name ++ "\n")] ∧
    (Manager.process env inst name params s).state.trace.filter Effect.isEvent =
      s.trace.filter Effect.isEvent ∧
    (Manager.process env inst name params s).state.trace.filter Effect.isCall =
      s.trace.filter Effect.isCall := by
  have h : Manager.process env inst name params s =
      .fatal (if env.NDEBUG then .exit 1 else .abort)
        ((s.log (.dlsym name)).log
          (.stderr ("Error: Could not find symbol " ++ name ++ "\n"))) := by
    simp only [Manager.process, Manager.symbol, hfresh, Symbol.load, hnull, if_true,
      IOHandler.fail, symbol_not_found_message]
  rw [h]
  simp [Outcome.state, List.filter_append, Effect.isEvent, Effect.isCall]

/-- C12, at a concrete input: the wrapper `MPI_Wait` is not known to the
dynamic linker of the example, with the instrumentation enabled. -/
theorem process_symbol_not_found_witness :
    Examples.enabled.symbols.lookup ⟨.C, .Wait, .Regular, "int", ["request_t", "status_t"]⟩ =
      none ∧
    (Examples.env (some "ovni") (.returned 0)).dlsym "MPI_Wait" = 0 ∧
    Manager.process (Examples.env (some "ovni") (.returned 0))
        ⟨.C, .Wait, .Regular, "int", ["request_t", "status_t"]⟩ "MPI_Wait" [5, 6]
        Examples.enabled =
      .fatal .abort
        ⟨true, true, [], true,
          [.dlsym "MPI_Wait", .stderr "Error: Could not find symbol MPI_Wait\n"]⟩ :=
  ⟨rfl, by decide,
    (process_symbol_not_found (Examples.env (some "ovni") (.returned 0))
      ⟨.C, .Wait, .Regular, "int", ["request_t", "status_t"]⟩ "MPI_Wait" [5, 6]
      Examples.enabled rfl (by decide)).1⟩

/-! ## The preinitialization with the backend selected -/

/-- C13: when the configuration value is "ovni", the ovni thread is not ready
and the host name is available, the preinitialization completes and its
effects are, in this order: the read of the variable, the process
initialization with application 1, loom `<hostname>.<pid>` and the pid, the
thread initialization with the thread id, the registration of CPU 0, and the
"OHx" event with payload (-1, -1, 0); afterwards the instrumentation is
enabled and the finalization is owned (`_ovniFinalize` is true). -/
theorem preinitialize_ovni_not_ready (env : Env) (s : State) (hostname : String)
    (hvalue : (Envar.construct env "SONAR_MPI_INSTRUMENT" "none" s).1.get = "ovni")
    (hready : s.threadReady = false) (hhost : env.gethostname = some hostname) :
    Instrument.preinitialize env s =
      .ok ()
        { _ovniEnabled := true
          _ovniFinalize := true
          symbols := s.symbols
          threadReady := true
          trace := s.trace ++
            [.getenv "SONAR_MPI_INSTRUMENT",
             .ovni_proc_init 1 (hostname ++ "." ++ Instrument.to_string env.getpid) env.getpid,
             .ovni_thread_init env.gettid,
             .ovni_add_cpu 0 0,
             .ovni_ev_emit "OHx" [-1, -1, 0]] } := by
  rw [Instrument.preinitialize_eq, hvalue, if_pos rfl,
    Envar.construct_of_ne_default env _ _ s (by rw [hvalue]; decide)]
  simp [Instrument.ovniInitialize, hready, Utils.getHostName, hhost, Instrument.emitPayload,
    State.log]

/-- C13, at a concrete input: the process 4242 on the host `node1`. -/
theorem preinitialize_ovni_not_ready_witness :
    (Envar.construct (Examples.env (some "ovni") (.returned 0)) "SONAR_MPI_INSTRUMENT" "none"
      (State.initial false)).1.get = "ovni" ∧
    (State.initial false).threadReady = false ∧
    (Examples.env (some "ovni") (.returned 0)).gethostname = some "node1" ∧
    Instrument.preinitialize (Examples.env (some "ovni") (.returned 0)) (State.initial false) =
      .ok ()
        ⟨true, true, [], true,
          [.getenv "SONAR_MPI_INSTRUMENT", .ovni_proc_init 1 "node1.4242" 4242,
           .ovni_thread_init 4243, .ovni_add_cpu 0 0, .ovni_ev_emit "OHx" [-1, -1, 0]]⟩ :=
  ⟨by decide, rfl, rfl,
    (preinitialize_ovni_not_ready (Examples.env (some "ovni") (.returned 0))
      (State.initial false) "node1" (by decide) rfl rfl).trans (by decide)⟩

/-- C14: when the configuration value is "ovni" and the ovni thread is already
ready, the preinitialization completes, enables the instrumentation and has
the read of the variable as its only effect: no backend call is made, no
event is emitted, and `_ovniFinalize` is as it was, so false when it was
false. -/
theorem preinitialize_ovni_ready (env : Env) (s : State)
    (hvalue : (Envar.construct env "SONAR_MPI_INSTRUMENT" "none" s).1.get = "ovni")
    (hready : s.threadReady = true) :
    Instrument.preinitialize env s =
      .ok () { s with
        _ovniEnabled := true
        trace := s.trace ++ [.getenv "SONAR_MPI_INSTRUMENT"] } ∧
    (Instrument.preinitialize env s).state._ovniEnabled = true ∧
    (Instrument.preinitialize env s).state._ovniFinalize = s._ovniFinalize ∧
    (s._ovniFinalize = false → (Instrument.preinitialize env s).state._ovniFinalize = false) ∧
    (Instrument.preinitialize env s).state.trace.filter Effect.isBackend =
      s.trace.filter Effect.isBackend := by
  have h : Instrument.preinitialize env s =
      .ok () { s with
        _ovniEnabled := true
        trace := s.trace ++ [.getenv "SONAR_MPI_INSTRUMENT"] } := by
    rw [Instrument.preinitialize_eq, hvalue, if_pos rfl,
      Envar.construct_of_ne_default env _ _ s (by rw [hvalue]; decide)]
    simp [Instrument.ovniInitialize, hready, State.log]
  rw [h]
  refine ⟨rfl, rfl, rfl, fun hf => hf, ?_⟩
  simp [Outcome.state, List.filter_append, Effect.isBackend]

/-- C14, at a concrete input: the backend is selected and the thread was made
ready by somebody else. -/
theorem preinitialize_ovni_ready_witness :
    (Envar.construct (Examples.env (some "ovni") (.returned 0)) "SONAR_MPI_INSTRUMENT" "none"
      (State.initial true)).1.get = "ovni" ∧
    (State.initial true).threadReady = true ∧
    Instrument.preinitialize (Examples.env (some "ovni") (.returned 0)) (State.initial true) =
      .ok () ⟨true, false, [], true, [.getenv "SONAR_MPI_INSTRUMENT"]⟩ :=
  ⟨by decide, rfl,
    (preinitialize_ovni_ready (Examples.env (some "ovni") (.returned 0))
      (State.initial true) (by decide) rfl).1⟩

/-! ## The finalization -/

/-- The trace after the finalization. -/
theorem Instrument.finalize_trace (s : State) :
    (Instrument.finalize s).trace =
      s.trace ++ (if s._ovniEnabled = true ∧ s._ovniFinalize = true then
        [.ovni_ev_emit "OHe" [], .ovni_flush, .ovni_proc_fini] else []) := by
  cases he : s._ovniEnabled <;> cases hf : s._ovniFinalize <;>
    simp [Instrument.finalize, Instrument.ovniFinalize, Instrument.emit, State.log, he, hf]

/-- C15: `Instrument::finalize` performs the backend teardown, the "OHe" event,
then the flush, then the finalization of the ovni process, in this order,
exactly when the instrumentation is enabled and the finalization is owned; in
every other state it leaves the state as it is: no backend call, no event, no
flush. -/
theorem finalize_teardown (s : State) :
    (s._ovniEnabled = true ∧ s._ovniFinalize = true →
      Instrument.finalize s =
        { s with trace := s.trace ++ [.ovni_ev_emit "OHe" [], .ovni_flush, .ovni_proc_fini] }) ∧
    (¬ (s._ovniEnabled = true ∧ s._ovniFinalize = true) → Instrument.finalize s = s) ∧
    ((Instrument.finalize s).trace ≠ s.trace ↔
      (s._ovniEnabled = true ∧ s._ovniFinalize = true)) := by
  cases he : s._ovniEnabled <;> cases hf : s._ovniFinalize <;>
    simp [Instrument.finalize, Instrument.ovniFinalize, Instrument.emit, State.log, he, hf]

/-! ## The two flags -/

/-- C19: `Instrument::initialize`, `Instrument::finalize`, `Instrument::enter`,
`Instrument::exit`, the construction and the destruction of a guard, and
`Manager::process` (whether it returns, lets a failure through or terminates
the process) leave `_ovniEnabled` and `_ovniFinalize` exactly as they found
them, for every state and every input. -/
theorem flags_written_by_preinitialize_only (env : Env) (inst : Instantiation)
    (name : String) (params : List Int) (Operation : Operation.Code) (rank nranks : Int)
    (s : State) :
    (( Instrument.initialize rank nranks s)._ovniEnabled = s._ovniEnabled ∧
      ( Instrument.initialize rank nranks s)._ovniFinalize = s._ovniFinalize) ∧
    ((Instrument.finalize s)._ovniEnabled = s._ovniEnabled ∧
      (Instrument.finalize s)._ovniFinalize = s._ovniFinalize) ∧
    ((Instrument.enter Operation s)._ovniEnabled = s._ovniEnabled ∧
      (Instrument.enter Operation s)._ovniFinalize = s._ovniFinalize) ∧
    ((Instrument.exit Operation s)._ovniEnabled = s._ovniEnabled ∧
      (Instrument.exit Operation s)._ovniFinalize = s._ovniFinalize) ∧
    ((Instrument.Guard.construct Operation s)._ovniEnabled = s._ovniEnabled ∧
      (Instrument.Guard.construct Operation s)._ovniFinalize = s._ovniFinalize) ∧
    ((Instrument.Guard.destroy Operation s)._ovniEnabled = s._ovniEnabled ∧
      (Instrument.Guard.destroy Operation s)._ovniFinalize = s._ovniFinalize) ∧
    ((Manager.process env inst name params s).state._ovniEnabled = s._ovniEnabled ∧
      (Manager.process env inst name params s).state._ovniFinalize = s._ovniFinalize) := by
  have henter : ∀ t : State, (Instrument.enter Operation t)._ovniEnabled = t._ovniEnabled ∧
      (Instrument.enter Operation t)._ovniFinalize = t._ovniFinalize := by
    intro t
    cases he : t._ovniEnabled <;> simp [Instrument.enter, Instrument.emit, he]
  have hexit : ∀ t : State, (Instrument.exit Operation t)._ovniEnabled = t._ovniEnabled ∧
      (Instrument.exit Operation t)._ovniFinalize = t._ovniFinalize := by
    intro t
    cases he : t._ovniEnabled <;> simp [Instrument.exit, Instrument.emit, he]
  refine ⟨?_, ?_, henter s, hexit s, henter s, hexit s, ?_⟩
  · cases he : s._ovniEnabled <;>
      simp [ Instrument.initialize, Instrument.ovniSetProcessInformation, he]
  · cases he : s._ovniEnabled <;> cases hf : s._ovniFinalize <;>
      simp [Instrument.finalize, Instrument.ovniFinalize, Instrument.emit, he, hf]
  · cases hfatal : (Manager.symbol env inst name s).isFatal with
    | false =>
      rw [Manager.process_of_not_fatal env inst name params s hfatal]
      cases env.call (Manager.resolved env inst name s) params <;>
        cases he : s._ovniEnabled <;>
          simp [Outcome.state, Instrument.enter, Instrument.exit, Instrument.emit, he]
    | true =>
      obtain ⟨h1, h2⟩ := (Manager.symbol_isFatal env inst name s).1 hfatal
      simp [Manager.process, Manager.symbol, h1, Symbol.load, h2, IOHandler.fail,
        Outcome.state]

/-! ## The fatal error -/

/-- The parts of a message, streamed one after the other, are their
concatenation in the order of the arguments. -/
theorem IOHandler.emitReasonParts_eq_join (parts : List String) :
    IOHandler.emitReasonParts parts = String.join parts := by
  have h : ∀ (l : List String) (acc : String),
      l.foldl (fun r s => r ++ s) acc = acc ++ IOHandler.emitReasonParts l := by
    intro l
    induction l with
    | nil =>
      intro acc
      apply String.ext
      simp [IOHandler.emitReasonParts, String.data_append]
    | cons x xs ih =>
      intro acc
      rw [List.foldl_cons, ih]
      apply String.ext
      simp [IOHandler.emitReasonParts, String.data_append]
  have h0 := h parts ""
  unfold String.join
  rw [h0]
  apply String.ext
  simp [String.data_append]

/-- C20: `IOHandler::fail` writes exactly one message to the error stream,
"Error: " followed by the parts in the order of the arguments followed by a
newline, and then terminates the process, by `abort` in a debug build and
with exit status 1 in a release build (`NDEBUG`); it does not return to its
caller, neither with a value nor with a failure. -/
theorem fail_writes_and_terminates (α : Type) (env : Env) (reasonParts : List String)
    (s : State) :
    (IOHandler.fail env reasonParts s : Outcome α) =
      .fatal (if env.NDEBUG then .exit 1 else .abort)
        { s with trace := s.trace ++ [.stderr ("Error: " ++ String.join reasonParts ++ "\n")] } ∧
    (env.NDEBUG = false →
      (IOHandler.fail env reasonParts s : Outcome α) =
        .fatal .abort (s.log (.stderr ("Error: " ++ String.join reasonParts ++ "\n")))) ∧
    (env.NDEBUG = true →
      (IOHandler.fail env reasonParts s : Outcome α) =
        .fatal (.exit 1) (s.log (.stderr ("Error: " ++ String.join reasonParts ++ "\n")))) ∧
    (IOHandler.fail env reasonParts s : Outcome α).isFatal = true ∧
    (∀ (value : α) (t : State), (IOHandler.fail env reasonParts s : Outcome α) ≠ .ok value t) ∧
    (∀ (e : Int) (t : State), (IOHandler.fail env reasonParts s : Outcome α) ≠ .threw e t) := by
  refine ⟨?_, ?_, ?_, rfl, ?_, ?_⟩
  · simp [IOHandler.fail, State.log, IOHandler.emitReasonParts_eq_join]
  · intro h
    simp [IOHandler.fail, h, IOHandler.emitReasonParts_eq_join]
  · intro h
    simp [IOHandler.fail, h, IOHandler.emitReasonParts_eq_join]
  · intro value t h
    simp [IOHandler.fail] at h
  · intro e t h
    simp [IOHandler.fail] at h

/-! ## What each call can add to the trace -/

/-- A list whose elements all fail a test is filtered to nothing. -/
theorem filter_eq_nil_of_forall {p q : Effect → Bool} (t : List Effect)
    (ht : ∀ e ∈ t, q e = true) (hpq : ∀ e, q e = true → p e = false) :
    t.filter p = [] := by
  rw [List.filter_eq_nil_iff]
  intro e he
  simp [hpq e (ht e he)]

/-- The preinitialization leaves the stored symbols alone and appends to the
trace effects of the preinitialization only. -/
theorem Instrument.preinitialize_frame (env : Env) (s : State) :
    (Instrument.preinitialize env s).state.symbols = s.symbols ∧
    ∃ t, (Instrument.preinitialize env s).state.trace = s.trace ++ t ∧
      ∀ e ∈ t, Effect.isPreinitialization e = true := by
  rw [Instrument.preinitialize_eq]
  have hc : (Envar.construct env "SONAR_MPI_INSTRUMENT" "none" s).2.symbols = s.symbols ∧
      ∃ t, (Envar.construct env "SONAR_MPI_INSTRUMENT" "none" s).2.trace = s.trace ++ t ∧
        ∀ e ∈ t, Effect.isPreinitialization e = true := by
    refine ⟨(Envar.construct_snd env _ _ s).2.2.1, ?_⟩
    unfold Envar.construct
    cases hg : env.getenv "SONAR_MPI_INSTRUMENT" with
    | none => exact ⟨[_], rfl, by simp [Effect.isPreinitialization]⟩
    | some valueString =>
      cases hp : StringSupport.parse valueString with
      | some tmp =>
        exact ⟨[.getenv "SONAR_MPI_INSTRUMENT"], by simp [hp],
          by simp [Effect.isPreinitialization]⟩
      | none =>
        exact ⟨[.getenv "SONAR_MPI_INSTRUMENT",
          .stderr ("Warning: " ++ IOHandler.emitReasonParts
            ["Invalid value for ", "SONAR_MPI_INSTRUMENT", "; defaulting to ", "none"] ++ "\n")],
          by simp [hp, IOHandler.warn], by simp [Effect.isPreinitialization]⟩
  obtain ⟨hsym, t, ht, hall⟩ := hc
  by_cases h1 : (Envar.construct env "SONAR_MPI_INSTRUMENT" "none" s).1.get = "ovni"
  · rw [if_pos h1]
    unfold Instrument.ovniInitialize
    cases hr : (Envar.construct env "SONAR_MPI_INSTRUMENT" "none" s).2.threadReady
    · cases hh : env.gethostname with
      | none =>
        refine ⟨by simp [hr, Utils.getHostName, hh, IOHandler.fail, Outcome.state, hsym],
          t ++ [.stderr ("Error: " ++
            IOHandler.emitReasonParts ["Could not retrieve the hostname"] ++ "\n")], ?_, ?_⟩
        · simp [hr, Utils.getHostName, hh, IOHandler.fail, Outcome.state, ht]
        · intro e he
          rcases List.mem_append.1 he with he | he
          · exact hall e he
          · simp at he
            subst he
            rfl
      | some hostname =>
        refine ⟨by simp [hr, Utils.getHostName, hh, Outcome.state, Instrument.emitPayload, hsym],
          t ++ [.ovni_proc_init 1 (hostname ++ "." ++ to_string env.getpid) env.getpid,
            .ovni_thread_init env.gettid, .ovni_add_cpu 0 0,
            .ovni_ev_emit "OHx" [-1, -1, 0]], ?_, ?_⟩
        · simp [hr, Utils.getHostName, hh, Outcome.state, Instrument.emitPayload, ht]
        · intro e he
          rcases List.mem_append.1 he with he | he
          · exact hall e he
          · simp at he
            rcases he with he | he | he | he <;> subst he <;> rfl
    · exact ⟨by simp [hr, Outcome.state, hsym], t, by simp [hr, Outcome.state, ht], hall⟩
  · rw [if_neg h1]
    by_cases h2 : (Envar.construct env "SONAR_MPI_INSTRUMENT" "none" s).1.get = "none"
    · rw [if_pos h2]
      exact ⟨hsym, t, ht, hall⟩
    · rw [if_neg h2]
      refine ⟨by simp [IOHandler.fail, Outcome.state, hsym],
        t ++ [.stderr ("Error: " ++ IOHandler.emitReasonParts
          ["Invalid value ", (Envar.construct env "SONAR_MPI_INSTRUMENT" "none" s).1.get,
           " for ", (Envar.construct env "SONAR_MPI_INSTRUMENT" "none" s).1.getName] ++ "\n")],
        ?_, ?_⟩
      · simp [IOHandler.fail, Outcome.state, ht]
      · intro e he
        rcases List.mem_append.1 he with he | he
        · exact hall e he
        · simp at he
          subst he
          rfl

/-- A call of the dispatcher appends to the trace effects of the dispatch of
its operation only. -/
theorem Manager.process_frame (env : Env) (inst : Instantiation) (name : String)
    (params : List Int) (s : State) :
    ∃ t, (Manager.process env inst name params s).state.trace = s.trace ++ t ∧
      ∀ e ∈ t, Effect.isDispatch inst.code e = true := by
  cases hfatal : (Manager.symbol env inst name s).isFatal with
  | false =>
    have hl : ∀ e ∈ Manager.lookups inst name s, Effect.isDispatch inst.code e = true := by
      unfold Manager.lookups
      cases s.symbols.lookup inst <;> simp [Effect.isDispatch]
    rw [Manager.process_of_not_fatal env inst name params s hfatal]
    cases he : s._ovniEnabled
    · refine ⟨Manager.lookups inst name s ++ [.call (Manager.resolved env inst name s) params],
        ?_, ?_⟩
      · cases env.call (Manager.resolved env inst name s) params <;>
          simp [Outcome.state, Instrument.enter, Instrument.exit, he]
      · intro e hmem
        rcases List.mem_append.1 hmem with hmem | hmem
        · exact hl e hmem
        · simp at hmem
          subst hmem
          rfl
    · refine ⟨Manager.lookups inst name s ++
          [.ovni_ev_emit (InterfacesAt inst.code)._enterMCV [],
           .call (Manager.resolved env inst name s) params,
           .ovni_ev_emit (InterfacesAt inst.code)._exitMCV []], ?_, ?_⟩
      · cases env.call (Manager.resolved env inst name s) params <;>
          simp [Outcome.state, Instrument.enter, Instrument.exit, Instrument.emit, he]
      · intro e hmem
        rcases List.mem_append.1 hmem with hmem | hmem
        · exact hl e hmem
        · simp at hmem
          rcases hmem with hmem | hmem | hmem <;> subst hmem <;> simp [Effect.isDispatch]
  | true =>
    obtain ⟨h1, h2⟩ := (Manager.symbol_isFatal env inst name s).1 hfatal
    refine ⟨[.dlsym name, .stderr ("Error: " ++
      IOHandler.emitReasonParts ["Could not find symbol ", name] ++ "\n")], ?_, ?_⟩
    · simp [Manager.process, Manager.symbol, h1, Symbol.load, h2, IOHandler.fail,
        Outcome.state]
    · simp [Effect.isDispatch]

/-- No value of the table is the thread end event "OHe". -/
theorem InterfacesAt_ne_OHe (c : Operation.Code) :
    (InterfacesAt c)._enterMCV ≠ "OHe" ∧ (InterfacesAt c)._exitMCV ≠ "OHe" := by
  cases c <;> decide

/-- The preinitialization adds nothing of the teardown and no registration. -/
theorem Effect.isPreinitialization_not (e : Effect) (h : e.isPreinitialization = true) :
    e.isTeardown = false ∧ e.isRegistration = false := by
  cases e <;> simp_all [Effect.isPreinitialization, Effect.isTeardown, Effect.isRegistration]

/-- The dispatch of an operation adds nothing of the teardown and no
registration. -/
theorem Effect.isDispatch_not (code : Operation.Code) (e : Effect)
    (h : e.isDispatch code = true) :
    e.isTeardown = false ∧ e.isRegistration = false := by
  have ht := InterfacesAt_ne_OHe code
  cases e <;> simp_all [Effect.isDispatch, Effect.isTeardown, Effect.isRegistration]
  rcases h with ⟨h | h, -⟩ <;> subst h
  · exact ht.1
  · exact ht.2
/-! ## The teardown happens once for each finalization -/

/-- Effects that are not of the teardown do not change the count of an effect
of the teardown. -/
theorem count_append_of_not_teardown (e : Effect) (he : e.isTeardown = true)
    (l t : List Effect) (ht : ∀ x ∈ t, x.isTeardown = false) :
    (l ++ t).count e = l.count e := by
  have h0 : t.count e = 0 := by
    apply List.count_eq_zero_of_not_mem
    intro hmem
    rw [ht e hmem] at he
    exact absurd he (by decide)
  rw [List.count_append, h0, Nat.add_zero]

/-- One call adds an effect of the teardown at most once, and only when the
call is the finalization. -/
theorem step_teardown_count (env : Env) (e : Effect) (he : e.isTeardown = true)
    (hone : [Effect.ovni_ev_emit "OHe" [], .ovni_flush, .ovni_proc_fini].count e ≤ 1)
    (a : Action) (s : State) :
    (step env a s).state.trace.count e ≤ s.trace.count e + [a].count .finalizeCall := by
  cases a with
  | processCall inst name params =>
    obtain ⟨t, ht, hall⟩ := Manager.process_frame env inst name params s
    have hst : (step env (.processCall inst name params) s).state.trace = s.trace ++ t := by
      simp only [step]
      cases hp : Manager.process env inst name params s <;>
        simpa [hp, Outcome.state] using ht
    rw [hst, count_append_of_not_teardown e he _ _
      (fun x hx => (Effect.isDispatch_not inst.code x (hall x hx)).1)]
    exact Nat.le_add_right _ _
  | preinitializeCall =>
    obtain ⟨-, t, ht, hall⟩ := Instrument.preinitialize_frame env s
    simp only [step]
    rw [ht, count_append_of_not_teardown e he _ _
      (fun x hx => (Effect.isPreinitialization_not x (hall x hx)).1)]
    exact Nat.le_add_right _ _
  | initializeCall rank nranks =>
    have hst : (step env (.initializeCall rank nranks) s).state.trace =
        s.trace ++ (if s._ovniEnabled then [.ovni_proc_set_rank rank nranks] else []) := by
      cases hen : s._ovniEnabled <;>
        simp [step, Outcome.state, Instrument.initialize,
          Instrument.ovniSetProcessInformation, hen]
    rw [hst, count_append_of_not_teardown e he]
    · exact Nat.le_add_right _ _
    · intro x hx
      cases hen : s._ovniEnabled <;> simp [hen] at hx
      subst hx
      rfl
  | finalizeCall =>
    simp only [step, Outcome.state]
    rw [Instrument.finalize_trace]
    by_cases hboth : s._ovniEnabled = true ∧ s._ovniFinalize = true
    · rw [if_pos hboth]
      simp only [List.count_append]
      have : [Action.finalizeCall].count .finalizeCall = 1 := by decide
      omega
    · rw [if_neg hboth, List.append_nil]
      exact Nat.le_add_right _ _

/-- A sequence of calls adds an effect of the teardown at most as many times as
it calls the finalization. -/
theorem run_teardown_count (env : Env) (e : Effect) (he : e.isTeardown = true)
    (hone : [Effect.ovni_ev_emit "OHe" [], .ovni_flush, .ovni_proc_fini].count e ≤ 1)
    (acts : List Action) :
    ∀ s : State,
      (run env acts s).state.trace.count e ≤ s.trace.count e + acts.count .finalizeCall := by
  induction acts with
  | nil =>
    intro s
    simp [run, Outcome.state]
  | cons a rest ih =>
    intro s
    have h := step_teardown_count env e he hone a s
    have hc : (a :: rest).count .finalizeCall =
        [a].count .finalizeCall + rest.count .finalizeCall := by
      rw [← List.count_append]
      rfl
    simp only [run]
    cases hstep : step env a s with
    | ok v t =>
      rw [hstep] at h
      simp only [Outcome.state] at h
      have := ih t
      dsimp only
      omega
    | threw x t =>
      rw [hstep] at h
      simp only [Outcome.state] at h
      have := ih t
      dsimp only
      omega
    | fatal how t =>
      rw [hstep] at h
      simp only [Outcome.state] at h ⊢
      omega

/-- C16, as stated, fails on the code: after a preinitialization that took over
the finalization, a second `Instrument::finalize` performs the teardown
again; the trace holds the thread end event, the flush and the finalization
of the ovni process twice. -/
theorem finalize_twice_tears_down_twice :
    (Instrument.preinitialize (Examples.env (some "ovni") (.returned 0))
      (State.initial false)).state._ovniFinalize = true ∧
    (run (Examples.env (some "ovni") (.returned 0))
      [.preinitializeCall, .finalizeCall, .finalizeCall] (State.initial false)).state.trace =
      [.getenv "SONAR_MPI_INSTRUMENT", .ovni_proc_init 1 "node1.4242" 4242,
       .ovni_thread_init 4243, .ovni_add_cpu 0 0, .ovni_ev_emit "OHx" [-1, -1, 0],
       .ovni_ev_emit "OHe" [], .ovni_flush, .ovni_proc_fini,
       .ovni_ev_emit "OHe" [], .ovni_flush, .ovni_proc_fini] := by
  constructor
  · rw [Instrument.preinitialize_eq]
    decide
  · rw [run, step, Instrument.preinitialize_eq]
    decide

/-- C16, amended: the backend teardown is performed at most once for each
invocation of `Instrument::finalize`: in every sequence of calls, from every
state, the thread end event, the flush and the finalization of the ovni
process each occur at most as many times more as the sequence invokes the
finalization, hence at most once when it invokes it once.  The finalization
does not clear the flags: invoked twice in an enabled, owning state it
performs the teardown twice. -/
theorem teardown_once_per_finalize (env : Env) (acts : List Action) (s : State) :
    (run env acts s).state.trace.count (.ovni_ev_emit "OHe" []) ≤
      s.trace.count (.ovni_ev_emit "OHe" []) + acts.count .finalizeCall ∧
    (run env acts s).state.trace.count .ovni_flush ≤
      s.trace.count .ovni_flush + acts.count .finalizeCall ∧
    (run env acts s).state.trace.count .ovni_proc_fini ≤
      s.trace.count .ovni_proc_fini + acts.count .finalizeCall ∧
    (s._ovniEnabled = true ∧ s._ovniFinalize = true →
      Instrument.finalize (Instrument.finalize s) =
        { s with trace := s.trace ++
            [.ovni_ev_emit "OHe" [], .ovni_flush, .ovni_proc_fini,
             .ovni_ev_emit "OHe" [], .ovni_flush, .ovni_proc_fini] }) := by
  refine ⟨run_teardown_count env (.ovni_ev_emit "OHe" []) rfl (by decide) acts s,
    run_teardown_count env .ovni_flush rfl (by decide) acts s,
    run_teardown_count env .ovni_proc_fini rfl (by decide) acts s, ?_⟩
  intro hboth
  simp [Instrument.finalize, Instrument.ovniFinalize, Instrument.emit, State.log,
    hboth.1, hboth.2]

/-- C16, amended, at a concrete input: a preinitialization, a call of the
barrier wrapper and one finalization perform the teardown once. -/
theorem teardown_once_per_finalize_witness :
    (run (Examples.env (some "ovni") (.returned 0))
      [.preinitializeCall, .processCall Examples.barrier "MPI_Barrier" [91], .finalizeCall]
      (State.initial false)).state.trace.count .ovni_proc_fini ≤ 1 ∧
    (run (Examples.env (some "ovni") (.returned 0))
      [.preinitializeCall, .processCall Examples.barrier "MPI_Barrier" [91], .finalizeCall]
      (State.initial false)).state.trace =
      [.getenv "SONAR_MPI_INSTRUMENT", .ovni_proc_init 1 "node1.4242" 4242,
       .ovni_thread_init 4243, .ovni_add_cpu 0 0, .ovni_ev_emit "OHx" [-1, -1, 0],
       .dlsym "MPI_Barrier", .ovni_ev_emit "MCb" [], .call 4096 [91], .ovni_ev_emit "MCB" [],
       .ovni_ev_emit "OHe" [], .ovni_flush, .ovni_proc_fini] :=
  ⟨(teardown_once_per_finalize (Examples.env (some "ovni") (.returned 0))
      [.preinitializeCall, .processCall Examples.barrier "MPI_Barrier" [91], .finalizeCall]
      (State.initial false)).2.2.1,
    by rw [run, step, Instrument.preinitialize_eq]; decide⟩

/-! ## The entry points of the life cycle -/

/-- The entry points are instances of the shapes. -/
theorem entry_points_eq (env : Env) (mpi : Queries) (argc argv required provided err : Int)
    (s : State) :
    C.MPI_Init env mpi argc argv s =
      initSteps id env "MPI_Comm_rank" "MPI_Comm_size" mpi.MPI_Comm_rank mpi.MPI_Comm_size
        ⟨.C, .Init, .Regular, "int", ["int *", "char ***"]⟩ "MPI_Init" [argc, argv] s ∧
    C.MPI_Init_thread env mpi argc argv required provided s =
      initSteps id env "MPI_Comm_rank" "MPI_Comm_size" mpi.MPI_Comm_rank mpi.MPI_Comm_size
        ⟨.C, .InitThread, .Regular, "int", ["int *", "char ***", "int", "int *"]⟩
        "MPI_Init_thread" [argc, argv, required, provided] s ∧
    Fortran.mpi_init_ env mpi err s =
      initSteps (fun _ => ()) env "mpi_comm_rank_" "mpi_comm_size_" mpi.mpi_comm_rank_
        mpi.mpi_comm_size_ ⟨.Fortran, .Init, .Regular, "void", ["MPI_Fint *"]⟩
        "mpi_init_" [err] s ∧
    Fortran.mpi_init_thread_ env mpi required provided err s =
      initSteps (fun _ => ()) env "mpi_comm_rank_" "mpi_comm_size_" mpi.mpi_comm_rank_
        mpi.mpi_comm_size_
        ⟨.Fortran, .InitThread, .Regular, "void", ["MPI_Fint", "MPI_Fint *", "MPI_Fint *"]⟩
        "mpi_init_thread_" [required, provided, err] s ∧
    C.MPI_Finalize env s =
      finalizeSteps id env ⟨.C, .Finalize, .Regular, "int", []⟩ "MPI_Finalize" [] s ∧
    Fortran.mpi_finalize_ env err s =
      finalizeSteps (fun _ => ()) env ⟨.Fortran, .Finalize, .Regular, "void", ["MPI_Fint *"]⟩
        "mpi_finalize_" [err] s :=
  ⟨rfl, rfl, rfl, rfl, rfl, rfl⟩
/-- The dispatcher, when the symbol resolves, with the state it leaves. -/
theorem Manager.process_of_not_fatal_bracket (env : Env) (inst : Instantiation)
    (name : String) (params : List Int) (s : State)
    (h : (Manager.symbol env inst name s).isFatal = false) :
    Manager.process env inst name params s =
      match env.call (Manager.resolved env inst name s) params with
      | .returned value =>
        .ok value { s with
          trace := s.trace ++ Manager.lookups inst name s ++
            bracket s._ovniEnabled inst.code (Manager.resolved env inst name s) params
          symbols := match s.symbols.lookup inst with
            | some _ => s.symbols
            | none => (inst, env.dlsym name) :: s.symbols }
      | .threw e =>
        .threw e { s with
          trace := s.trace ++ Manager.lookups inst name s ++
            bracket s._ovniEnabled inst.code (Manager.resolved env inst name s) params
          symbols := match s.symbols.lookup inst with
            | some _ => s.symbols
            | none => (inst, env.dlsym name) :: s.symbols } := by
  rw [Manager.process_of_not_fatal env inst name params s h]
  cases env.call (Manager.resolved env inst name s) params <;>
    cases he : s._ovniEnabled <;>
      simp [Instrument.enter, Instrument.exit, Instrument.emit, State.log, bracket, he]

/-- The effects of a resolved call hold its invocation and no registration and
nothing of the teardown. -/
theorem lookups_bracket_facts (env : Env) (inst : Instantiation) (name : String)
    (params : List Int) (s : State) :
    Effect.call (Manager.resolved env inst name s) params ∈
      Manager.lookups inst name s ++
        bracket s._ovniEnabled inst.code (Manager.resolved env inst name s) params ∧
    ∀ e ∈ Manager.lookups inst name s ++
        bracket s._ovniEnabled inst.code (Manager.resolved env inst name s) params,
      e.isRegistration = false ∧ e.isTeardown = false := by
  have ht := InterfacesAt_ne_OHe inst.code
  constructor
  · cases he : s._ovniEnabled <;> simp [bracket]
  · intro e hmem
    rcases List.mem_append.1 hmem with hmem | hmem
    · unfold Manager.lookups at hmem
      cases hl : s.symbols.lookup inst <;> simp [hl] at hmem
      subst hmem
      exact ⟨rfl, rfl⟩
    · cases he : s._ovniEnabled <;> simp [bracket, he] at hmem
      · subst hmem
        exact ⟨rfl, rfl⟩
      · rcases hmem with hmem | hmem | hmem <;> subst hmem <;>
          simp [Effect.isRegistration, Effect.isTeardown, ht.1, ht.2]

/-- When a list that starts with elements failing a test is split at an
element passing it, the elements before the split start with those
elements. -/
theorem prefix_of_split (p : Effect → Bool) (e : Effect) (he : p e = true)
    (M : List Effect) :
    ∀ (X pre post : List Effect), (∀ x ∈ M, p x = false) →
      M ++ X = pre ++ e :: post → ∃ rest, pre = M ++ rest ∧ X = rest ++ e :: post := by
  induction M with
  | nil =>
    intro X pre post _ h
    exact ⟨pre, rfl, by simpa using h⟩
  | cons m M ih =>
    intro X pre post hM h
    cases pre with
    | nil =>
      simp only [List.cons_append, List.nil_append, List.cons.injEq] at h
      have := hM m (by simp)
      rw [h.1, he] at this
      exact absurd this (by decide)
    | cons q pre1 =>
      simp only [List.cons_append, List.cons.injEq] at h
      obtain ⟨rest, h1, h2⟩ := ih X pre1 post (fun x hx => hM x (by simp [hx])) h.2
      exact ⟨rest, by simp [h.1, h1], h2⟩

/-- The finalize entry points: the trace is the one before, then effects of
the dispatch that hold nothing of the teardown, then the teardown or nothing;
and with the teardown the effects of the dispatch hold the invocation of the
real finalizer. -/
theorem finalizeSteps_split {α : Type} (ret : Int → α) (env : Env) (inst : Instantiation)
    (name : String) (params : List Int) (s : State) :
    ∃ M X, (finalizeSteps ret env inst name params s).state.trace = s.trace ++ M ++ X ∧
      (∀ e ∈ M, e.isTeardown = false) ∧
      (X = [] ∨ Effect.call (Manager.resolved env inst name s) params ∈ M) := by
  unfold finalizeSteps
  cases hfatal : (Manager.symbol env inst name s).isFatal with
  | false =>
    have hfacts := lookups_bracket_facts env inst name params s
    rw [Manager.process_of_not_fatal_bracket env inst name params s hfatal]
    refine ⟨Manager.lookups inst name s ++
      bracket s._ovniEnabled inst.code (Manager.resolved env inst name s) params, ?_⟩
    cases env.call (Manager.resolved env inst name s) params with
    | threw e =>
      exact ⟨[], by simp [Outcome.andThen, Outcome.state], fun e he => (hfacts.2 e he).2, Or.inl rfl⟩
    | returned value =>
      by_cases hboth : s._ovniEnabled = true ∧ s._ovniFinalize = true
      · refine ⟨[.ovni_ev_emit "OHe" [], .ovni_flush, .ovni_proc_fini], ?_,
          fun e he => (hfacts.2 e he).2, Or.inr hfacts.1⟩
        simp only [Outcome.andThen, Outcome.state]
        rw [Instrument.finalize_trace]
        simp [hboth.1, hboth.2]
      · refine ⟨[], ?_, fun e he => (hfacts.2 e he).2, Or.inl rfl⟩
        simp only [Outcome.andThen, Outcome.state]
        rw [Instrument.finalize_trace]
        simp only [if_neg hboth]
        simp
  | true =>
    obtain ⟨t, ht, hall⟩ := Manager.process_frame env inst name params s
    have hpf : (Manager.process env inst name params s).isFatal = true := by
      obtain ⟨h1, h2⟩ := (Manager.symbol_isFatal env inst name s).1 hfatal
      simp [Manager.process, Manager.symbol, h1, Symbol.load, h2, IOHandler.fail,
        Outcome.isFatal]
    refine ⟨t, [], ?_, fun e he => (Effect.isDispatch_not inst.code e (hall e he)).1,
      Or.inl rfl⟩
    cases hp : Manager.process env inst name params s with
    | ok v s2 => simp [hp, Outcome.isFatal] at hpf
    | threw e s2 => simp [hp, Outcome.isFatal] at hpf
    | fatal how s2 =>
      rw [hp] at ht
      simpa [Outcome.andThen, Outcome.state] using ht

/-- The finalize entry points, enabled and owning, when the symbol resolves
and the real finalizer returns. -/
theorem finalizeSteps_returned {α : Type} (ret : Int → α) (env : Env) (inst : Instantiation)
    (name : String) (params : List Int) (s : State) (value : Int)
    (hcode : inst.code = .Finalize)
    (henabled : s._ovniEnabled = true) (howns : s._ovniFinalize = true)
    (hsymbol : (Manager.symbol env inst name s).isFatal = false)
    (hcall : env.call (Manager.resolved env inst name s) params = .returned value) :
    (finalizeSteps ret env inst name params s).isFatal = false ∧
    (finalizeSteps ret env inst name params s).state.trace =
      s.trace ++ Manager.lookups inst name s ++
        [.ovni_ev_emit "MUf" [], .call (Manager.resolved env inst name s) params,
         .ovni_ev_emit "MUF" [], .ovni_ev_emit "OHe" [], .ovni_flush, .ovni_proc_fini] := by
  unfold finalizeSteps
  rw [Manager.process_of_not_fatal_bracket env inst name params s hsymbol, hcall]
  simp only [Outcome.andThen, Outcome.state, Outcome.isFatal]
  rw [Instrument.finalize_trace]
  simp [bracket, henabled, howns, hcode, InterfacesAt]
/-- The finalize entry points: nothing of the teardown comes before the
invocation of the real finalizer. -/
theorem finalizeSteps_teardown_after {α : Type} (ret : Int → α) (env : Env)
    (inst : Instantiation) (name : String) (params : List Int) (s : State)
    (pre post : List Effect) (e : Effect) (he : e.isTeardown = true)
    (h : (finalizeSteps ret env inst name params s).state.trace = s.trace ++ pre ++ e :: post) :
    Effect.call (Manager.resolved env inst name s) params ∈ pre := by
  obtain ⟨M, X, hMX, hM, hX⟩ := finalizeSteps_split ret env inst name params s
  rw [hMX, List.append_assoc, List.append_assoc] at h
  have h2 := List.append_cancel_left h
  obtain ⟨rest, hpre, hrest⟩ := prefix_of_split Effect.isTeardown e he M X pre post hM h2
  rcases hX with hX | hX
  · rw [hX] at hrest
    simp at hrest
  · rw [hpre]
    exact List.mem_append_left _ hX

/-- The last event of the effects of a finalize entry point that tore the
backend down is the thread end event. -/
theorem finalize_last_event (l : List Effect) (lookups : List Effect) (symbol : Nat)
    (params : List Int) (hl : lookups.filter Effect.isEvent = []) :
    (((l ++ lookups ++
        [Effect.ovni_ev_emit "MUf" [], Effect.call symbol params, Effect.ovni_ev_emit "MUF" [],
         Effect.ovni_ev_emit "OHe" [], Effect.ovni_flush, Effect.ovni_proc_fini]).drop
        l.length).filter Effect.isEvent).getLast? = some (Effect.ovni_ev_emit "OHe" []) := by
  rw [List.append_assoc, List.drop_left, List.filter_append, hl]
  rfl

/-- C18: in the finalize entry points `MPI_Finalize` and `mpi_finalize_`, in
an enabled, owning state, when the symbol resolves and the real finalizer
returns, the entry point is not terminated and its effects are, after the
lookup of a first call and in this order: the enter event "MUf", the
invocation of the real finalizer, the exit event "MUF", the thread end event
"OHe", the flush, the finalization of the ovni process; the "OHe" event is the
last event among them.  And however the entry point ends, an effect of the
teardown comes after the invocation of the real finalizer. -/
theorem finalize_entry_points_order (env : Env) (err : Int) (s : State)
    (henabled : s._ovniEnabled = true) (howns : s._ovniFinalize = true) :
    (∀ value,
      (Manager.symbol env ⟨.C, .Finalize, .Regular, "int", []⟩ "MPI_Finalize" s).isFatal = false →
      env.call (Manager.resolved env ⟨.C, .Finalize, .Regular, "int", []⟩ "MPI_Finalize" s) [] =
        .returned value →
      (C.MPI_Finalize env s).isFatal = false ∧
      (C.MPI_Finalize env s).state.trace =
        s.trace ++ Manager.lookups ⟨.C, .Finalize, .Regular, "int", []⟩ "MPI_Finalize" s ++
          [.ovni_ev_emit "MUf" [],
           .call (Manager.resolved env ⟨.C, .Finalize, .Regular, "int", []⟩ "MPI_Finalize" s) [],
           .ovni_ev_emit "MUF" [], .ovni_ev_emit "OHe" [], .ovni_flush, .ovni_proc_fini] ∧
      (((C.MPI_Finalize env s).state.trace.drop s.trace.length).filter
        Effect.isEvent).getLast? = some (.ovni_ev_emit "OHe" [])) ∧
    (∀ value,
      (Manager.symbol env ⟨.Fortran, .Finalize, .Regular, "void", ["MPI_Fint *"]⟩
        "mpi_finalize_" s).isFatal = false →
      env.call (Manager.resolved env ⟨.Fortran, .Finalize, .Regular, "void", ["MPI_Fint *"]⟩
        "mpi_finalize_" s) [err] = .returned value →
      (Fortran.mpi_finalize_ env err s).isFatal = false ∧
      (Fortran.mpi_finalize_ env err s).state.trace =
        s.trace ++ Manager.lookups ⟨.Fortran, .Finalize, .Regular, "void", ["MPI_Fint *"]⟩
            "mpi_finalize_" s ++
          [.ovni_ev_emit "MUf" [],
           .call (Manager.resolved env ⟨.Fortran, .Finalize, .Regular, "void", ["MPI_Fint *"]⟩
             "mpi_finalize_" s) [err],
           .ovni_ev_emit "MUF" [], .ovni_ev_emit "OHe" [], .ovni_flush, .ovni_proc_fini] ∧
      (((Fortran.mpi_finalize_ env err s).state.trace.drop s.trace.length).filter
        Effect.isEvent).getLast? = some (.ovni_ev_emit "OHe" [])) ∧
    (∀ pre e post, e.isTeardown = true →
      (C.MPI_Finalize env s).state.trace = s.trace ++ pre ++ e :: post →
      Effect.call (Manager.resolved env ⟨.C, .Finalize, .Regular, "int", []⟩ "MPI_Finalize" s)
        [] ∈ pre) ∧
    (∀ pre e post, e.isTeardown = true →
      (Fortran.mpi_finalize_ env err s).state.trace = s.trace ++ pre ++ e :: post →
      Effect.call (Manager.resolved env ⟨.Fortran, .Finalize, .Regular, "void", ["MPI_Fint *"]⟩
        "mpi_finalize_" s) [err] ∈ pre) := by
  have hlook : ∀ (inst : Instantiation) (name : String),
      (Manager.lookups inst name s).filter Effect.isEvent = [] := by
    intro inst name
    unfold Manager.lookups
    cases s.symbols.lookup inst <;> simp [Effect.isEvent]
  refine ⟨?_, ?_, ?_, ?_⟩
  · intro value hsymbol hcall
    have h := finalizeSteps_returned id env ⟨.C, .Finalize, .Regular, "int", []⟩
      "MPI_Finalize" [] s value rfl henabled howns hsymbol hcall
    refine ⟨h.1, h.2, ?_⟩
    have h2 : (C.MPI_Finalize env s).state.trace = _ := h.2
    rw [h2]
    exact finalize_last_event _ _ _ _ (hlook _ _)
  · intro value hsymbol hcall
    have h := finalizeSteps_returned (fun _ => ()) env
      ⟨.Fortran, .Finalize, .Regular, "void", ["MPI_Fint *"]⟩
      "mpi_finalize_" [err] s value rfl henabled howns hsymbol hcall
    refine ⟨h.1, h.2, ?_⟩
    have h2 : (Fortran.mpi_finalize_ env err s).state.trace = _ := h.2
    rw [h2]
    exact finalize_last_event _ _ _ _ (hlook _ _)
  · intro pre e post he h
    exact finalizeSteps_teardown_after id env _ _ _ s pre post e he h
  · intro pre e post he h
    exact finalizeSteps_teardown_after (fun _ => ()) env _ _ _ s pre post e he h

/-- C18, at a concrete input: `MPI_Finalize` in an enabled, owning state. -/
theorem finalize_entry_points_order_witness :
    Examples.enabled._ovniEnabled = true ∧ Examples.enabled._ovniFinalize = true ∧
    (C.MPI_Finalize (Examples.world (some "ovni") (.returned 0)) Examples.enabled).state.trace =
      [.dlsym "MPI_Finalize", .ovni_ev_emit "MUf" [], .call 1012 [], .ovni_ev_emit "MUF" [],
       .ovni_ev_emit "OHe" [], .ovni_flush, .ovni_proc_fini] :=
  ⟨rfl, rfl,
    ((finalize_entry_points_order (Examples.world (some "ovni") (.returned 0)) 0
      Examples.enabled rfl rfl).1 0 (by decide) (by decide)).2.1⟩
/-- The initialization entry points: the trace is the one before, then effects
that hold no registration, then the registration or nothing; and with the
registration those effects hold the invocation of the real initializer, which
has returned. -/
theorem initSteps_split {α : Type} (ret : Int → α) (env : Env) (rankQuery sizeQuery : String)
    (rank size : Int × Int) (inst : Instantiation) (name : String) (params : List Int)
    (s : State) :
    ∃ M X,
      (initSteps ret env rankQuery sizeQuery rank size inst name params s).state.trace =
        s.trace ++ M ++ X ∧
      (∀ e ∈ M, e.isRegistration = false) ∧
      (X = [] ∨
        (Effect.call (Manager.resolved env inst name s) params ∈ M ∧
          ∃ err, env.call (Manager.resolved env inst name s) params = .returned err)) := by
  obtain ⟨hsym, t0, ht0, hall0⟩ := Instrument.preinitialize_frame env s
  have hreg0 : ∀ e ∈ t0, e.isRegistration = false :=
    fun e he => (Effect.isPreinitialization_not e (hall0 e he)).2
  rw [initSteps]
  cases hpre : Instrument.preinitialize env s with
  | threw x s1 =>
    rw [hpre] at ht0
    exact ⟨t0, [], by simpa [Outcome.andThen, Outcome.state] using ht0, hreg0, Or.inl rfl⟩
  | fatal how s1 =>
    rw [hpre] at ht0
    exact ⟨t0, [], by simpa [Outcome.andThen, Outcome.state] using ht0, hreg0, Or.inl rfl⟩
  | ok u s1 =>
    rw [hpre] at ht0 hsym
    simp only [Outcome.state] at ht0 hsym
    have hres : Manager.resolved env inst name s1 = Manager.resolved env inst name s := by
      unfold Manager.resolved
      rw [hsym]
    simp only [Outcome.andThen]
    cases hfatal : (Manager.symbol env inst name s1).isFatal with
    | true =>
      obtain ⟨t1, ht1, hall1⟩ := Manager.process_frame env inst name params s1
      have hpf : (Manager.process env inst name params s1).isFatal = true := by
        obtain ⟨h1, h2⟩ := (Manager.symbol_isFatal env inst name s1).1 hfatal
        simp [Manager.process, Manager.symbol, h1, Symbol.load, h2, IOHandler.fail,
          Outcome.isFatal]
      refine ⟨t0 ++ t1, [], ?_, ?_, Or.inl rfl⟩
      · cases hp : Manager.process env inst name params s1 with
        | ok v s2 => simp [hp, Outcome.isFatal] at hpf
        | threw e s2 => simp [hp, Outcome.isFatal] at hpf
        | fatal how s2 =>
          rw [hp] at ht1
          simp only [Outcome.andThen, Outcome.state] at ht1 ⊢
          rw [ht1, ht0]
          simp
      · intro e he
        rcases List.mem_append.1 he with he | he
        · exact hreg0 e he
        · exact (Effect.isDispatch_not inst.code e (hall1 e he)).2
    | false =>
      have hfacts := lookups_bracket_facts env inst name params s1
      have hreg1 : ∀ e ∈ t0 ++ (Manager.lookups inst name s1 ++
          bracket s1._ovniEnabled inst.code (Manager.resolved env inst name s1) params),
          e.isRegistration = false := by
        intro e he
        rcases List.mem_append.1 he with he | he
        · exact hreg0 e he
        · exact (hfacts.2 e he).1
      rw [Manager.process_of_not_fatal_bracket env inst name params s1 hfatal]
      cases hcall : env.call (Manager.resolved env inst name s1) params with
      | threw x =>
        refine ⟨_, [], ?_, hreg1, Or.inl rfl⟩
        simp [Outcome.andThen, Outcome.state, ht0]
      | returned err =>
        simp only [Outcome.andThen]
        unfold getInformationWith
        by_cases hr : rank.1 = MPI_SUCCESS
        · by_cases hz : size.1 = MPI_SUCCESS
          · cases hen : s1._ovniEnabled
            · refine ⟨t0 ++ (Manager.lookups inst name s1 ++
                  bracket s1._ovniEnabled inst.code (Manager.resolved env inst name s1)
                    params) ++ [.query rankQuery, .query sizeQuery], [], ?_, ?_, Or.inl rfl⟩
              · simp [hr, hz, Outcome.andThen, Outcome.state, Instrument.initialize, hen, State.log, ht0]
              · intro e he
                rcases List.mem_append.1 he with he | he
                · exact hreg1 e he
                · simp at he
                  rcases he with he | he <;> subst he <;> rfl
            · refine ⟨t0 ++ (Manager.lookups inst name s1 ++
                  bracket s1._ovniEnabled inst.code (Manager.resolved env inst name s1)
                    params) ++ [.query rankQuery, .query sizeQuery],
                [.ovni_proc_set_rank rank.2 size.2], ?_, ?_, Or.inr ⟨?_, err, ?_⟩⟩
              · simp [hr, hz, Outcome.andThen, Outcome.state, Instrument.initialize,
                  Instrument.ovniSetProcessInformation, hen, State.log, ht0]
              · intro e he
                rcases List.mem_append.1 he with he | he
                · exact hreg1 e he
                · simp at he
                  rcases he with he | he <;> subst he <;> rfl
              · rw [← hres]
                exact List.mem_append_left _ (List.mem_append_right _ hfacts.1)
              · rw [← hres]
                exact hcall
          · refine ⟨t0 ++ (Manager.lookups inst name s1 ++
                bracket s1._ovniEnabled inst.code (Manager.resolved env inst name s1)
                  params) ++ [.query rankQuery, .query sizeQuery,
                .stderr ("Error: " ++ IOHandler.emitReasonParts
                  ["Could not retrieve the MPI rank size"] ++ "\n")], [], ?_, ?_, Or.inl rfl⟩
            · simp [hr, hz, Outcome.andThen, Outcome.state, IOHandler.fail, State.log, ht0]
            · intro e he
              rcases List.mem_append.1 he with he | he
              · exact hreg1 e he
              · simp at he
                rcases he with he | he | he <;> subst he <;> rfl
        · refine ⟨t0 ++ (Manager.lookups inst name s1 ++
              bracket s1._ovniEnabled inst.code (Manager.resolved env inst name s1)
                params) ++ [.query rankQuery,
              .stderr ("Error: " ++ IOHandler.emitReasonParts
                ["Could not retrieve the MPI rank"] ++ "\n")], [], ?_, ?_, Or.inl rfl⟩
          · simp [hr, Outcome.andThen, Outcome.state, IOHandler.fail, State.log, ht0]
          · intro e he
            rcases List.mem_append.1 he with he | he
            · exact hreg1 e he
            · simp at he
              rcases he with he | he <;> subst he <;> rfl

/-- The initialization entry points satisfy the order of the steps. -/
theorem initSteps_order {α : Type} (ret : Int → α) (env : Env) (rankQuery sizeQuery : String)
    (rank size : Int × Int) (inst : Instantiation) (name : String) (params : List Int)
    (s : State) :
    InitializationOrder env inst name params rankQuery sizeQuery rank size s
      (initSteps ret env rankQuery sizeQuery rank size inst name params s).state
      (initSteps ret env rankQuery sizeQuery rank size inst name params s).isFatal := by
  constructor
  · intro s1 err hpre hsymbol hcall hr hz
    rw [initSteps, hpre]
    simp only [Outcome.andThen]
    rw [Manager.process_of_not_fatal_bracket env inst name params s1 hsymbol, hcall]
    simp only [Outcome.andThen]
    unfold getInformationWith
    cases hen : s1._ovniEnabled <;>
      simp [hr, hz, Outcome.andThen, Outcome.state, Outcome.isFatal, Instrument.initialize,
        Instrument.ovniSetProcessInformation, hen, State.log]
  · intro pre r n post h
    obtain ⟨M, X, hMX, hM, hX⟩ :=
      initSteps_split ret env rankQuery sizeQuery rank size inst name params s
    rw [hMX, List.append_assoc, List.append_assoc] at h
    have h2 := List.append_cancel_left h
    obtain ⟨rest, hp, hrest⟩ :=
      prefix_of_split Effect.isRegistration (.ovni_proc_set_rank r n) rfl M X pre post hM h2
    rcases hX with hX | ⟨hX, hret⟩
    · rw [hX] at hrest
      simp at hrest
    · exact ⟨by rw [hp]; exact List.mem_append_left _ hX, hret⟩
/-- C17: each of the four initialization entry points (`MPI_Init`,
`MPI_Init_thread`, `mpi_init_`, `mpi_init_thread_`) satisfies the order of
the steps: the preinitialization; then the dispatched real initializer between
the enter and the exit event of `Init` or `InitThread`; then the rank and size
queries; then, when the instrumentation is enabled, the registration of
exactly the rank and the size that the queries gave.  And however the entry
point ends, a registration among its effects comes after the invocation of the
real initializer, which has returned. -/
theorem initialization_entry_points_order (env : Env) (mpi : Queries)
    (argc argv required provided err : Int) (s : State) :
    InitializationOrder env ⟨.C, .Init, .Regular, "int", ["int *", "char ***"]⟩ "MPI_Init"
      [argc, argv] "MPI_Comm_rank" "MPI_Comm_size" mpi.MPI_Comm_rank mpi.MPI_Comm_size s
      (C.MPI_Init env mpi argc argv s).state (C.MPI_Init env mpi argc argv s).isFatal ∧
    InitializationOrder env
      ⟨.C, .InitThread, .Regular, "int", ["int *", "char ***", "int", "int *"]⟩
      "MPI_Init_thread" [argc, argv, required, provided] "MPI_Comm_rank" "MPI_Comm_size"
      mpi.MPI_Comm_rank mpi.MPI_Comm_size s
      (C.MPI_Init_thread env mpi argc argv required provided s).state
      (C.MPI_Init_thread env mpi argc argv required provided s).isFatal ∧
    InitializationOrder env ⟨.Fortran, .Init, .Regular, "void", ["MPI_Fint *"]⟩ "mpi_init_"
      [err] "mpi_comm_rank_" "mpi_comm_size_" mpi.mpi_comm_rank_ mpi.mpi_comm_size_ s
      (Fortran.mpi_init_ env mpi err s).state (Fortran.mpi_init_ env mpi err s).isFatal ∧
    InitializationOrder env
      ⟨.Fortran, .InitThread, .Regular, "void", ["MPI_Fint", "MPI_Fint *", "MPI_Fint *"]⟩
      "mpi_init_thread_" [required, provided, err] "mpi_comm_rank_" "mpi_comm_size_"
      mpi.mpi_comm_rank_ mpi.mpi_comm_size_ s
      (Fortran.mpi_init_thread_ env mpi required provided err s).state
      (Fortran.mpi_init_thread_ env mpi required provided err s).isFatal := by
  have e := entry_points_eq env mpi argc argv required provided err s
  rw [e.1, e.2.1, e.2.2.1, e.2.2.2.1]
  exact
  ⟨initSteps_order id env "MPI_Comm_rank" "MPI_Comm_size" mpi.MPI_Comm_rank
      mpi.MPI_Comm_size ⟨.C, .Init, .Regular, "int", ["int *", "char ***"]⟩ "MPI_Init"
      [argc, argv] s,
    initSteps_order id env "MPI_Comm_rank" "MPI_Comm_size" mpi.MPI_Comm_rank
      mpi.MPI_Comm_size ⟨.C, .InitThread, .Regular, "int", ["int *", "char ***", "int", "int *"]⟩
      "MPI_Init_thread" [argc, argv, required, provided] s,
    initSteps_order (fun _ => ()) env "mpi_comm_rank_" "mpi_comm_size_" mpi.mpi_comm_rank_
      mpi.mpi_comm_size_ ⟨.Fortran, .Init, .Regular, "void", ["MPI_Fint *"]⟩ "mpi_init_"
      [err] s,
    initSteps_order (fun _ => ()) env "mpi_comm_rank_" "mpi_comm_size_" mpi.mpi_comm_rank_
      mpi.mpi_comm_size_
      ⟨.Fortran, .InitThread, .Regular, "void", ["MPI_Fint", "MPI_Fint *", "MPI_Fint *"]⟩
      "mpi_init_thread_" [required, provided, err] s⟩

/-- C17, at a concrete input: `MPI_Init` with the backend selected, from the
initial state, in a process of rank 3 of 8. -/
theorem initialization_entry_points_order_witness :
    (C.MPI_Init (Examples.world (some "ovni") (.returned 0)) Examples.queries 1 2
      (State.initial false)).state.trace =
      [.getenv "SONAR_MPI_INSTRUMENT", .ovni_proc_init 1 "node1.4242" 4242,
       .ovni_thread_init 4243, .ovni_add_cpu 0 0, .ovni_ev_emit "OHx" [-1, -1, 0],
       .dlsym "MPI_Init", .ovni_ev_emit "MUi" [], .call 1008 [1, 2], .ovni_ev_emit "MUI" [],
       .query "MPI_Comm_rank", .query "MPI_Comm_size", .ovni_proc_set_rank 3 8] ∧
    (Fortran.mpi_init_thread_ (Examples.world none (.returned 0)) Examples.queries 1 2 3
      (State.initial false)).state.trace =
      [.getenv "SONAR_MPI_INSTRUMENT", .dlsym "mpi_init_thread_", .call 1016 [1, 2, 3],
       .query "mpi_comm_rank_", .query "mpi_comm_size_"] := by
  have h := initialization_entry_points_order (Examples.world (some "ovni") (.returned 0))
    Examples.queries 1 2 0 0 0 (State.initial false)
  have h1 := (h.1.1
    ⟨true, true, [], true,
      [.getenv "SONAR_MPI_INSTRUMENT", .ovni_proc_init 1 "node1.4242" 4242,
       .ovni_thread_init 4243, .ovni_add_cpu 0 0, .ovni_ev_emit "OHx" [-1, -1, 0]]⟩
    0 (by rw [Instrument.preinitialize_eq]; decide) (by decide) (by decide) rfl rfl).2
  exact ⟨h1.trans (by decide),
    by rw [Fortran.mpi_init_thread_, Instrument.preinitialize_eq]; decide⟩

/-! ## The status of the real initializer -/

/-- The initialization entry points, when every step up to the queries
succeeds: the status of the real initializer is returned when both queries
succeed, and the process is terminated when one of them fails. -/
theorem initSteps_status {α : Type} (ret : Int → α) (env : Env) (rankQuery sizeQuery : String)
    (rank size : Int × Int) (inst : Instantiation) (name : String) (params : List Int)
    (s s1 : State) (status : Int)
    (hpre : Instrument.preinitialize env s = .ok () s1)
    (hsymbol : (Manager.symbol env inst name s1).isFatal = false)
    (hcall : env.call (Manager.resolved env inst name s1) params = .returned status) :
    (rank.1 = MPI_SUCCESS → size.1 = MPI_SUCCESS →
      ∃ final : State, initSteps ret env rankQuery sizeQuery rank size inst name params s =
        .ok (ret status) final) ∧
    (rank.1 ≠ MPI_SUCCESS →
      ∃ t : State, initSteps ret env rankQuery sizeQuery rank size inst name params s =
        .fatal (if env.NDEBUG then .exit 1 else .abort)
          { t with trace := t.trace ++
              [.query rankQuery, .stderr "Error: Could not retrieve the MPI rank\n"] }) ∧
    (rank.1 = MPI_SUCCESS → size.1 ≠ MPI_SUCCESS →
      ∃ t : State, initSteps ret env rankQuery sizeQuery rank size inst name params s =
        .fatal (if env.NDEBUG then .exit 1 else .abort)
          { t with trace := t.trace ++
              [.query rankQuery, .query sizeQuery,
               .stderr "Error: Could not retrieve the MPI rank size\n"] }) := by
  have hm1 : "Error: " ++ IOHandler.emitReasonParts ["Could not retrieve the MPI rank"] ++ "\n" =
      "Error: Could not retrieve the MPI rank\n" := by decide
  have hm2 : "Error: " ++ IOHandler.emitReasonParts ["Could not retrieve the MPI rank size"] ++
      "\n" = "Error: Could not retrieve the MPI rank size\n" := by decide
  rw [initSteps, hpre]
  simp only [Outcome.andThen]
  rw [Manager.process_of_not_fatal_bracket env inst name params s1 hsymbol, hcall]
  simp only [Outcome.andThen]
  unfold getInformationWith
  refine ⟨?_, ?_, ?_⟩
  · intro hr hz
    exact ⟨_, by simp only [hr, hz, ne_eq, not_true_eq_false, if_false, Outcome.andThen]; rfl⟩
  · intro hr
    refine ⟨{ s1 with
      trace := s1.trace ++ Manager.lookups inst name s1 ++
        bracket s1._ovniEnabled inst.code (Manager.resolved env inst name s1) params
      symbols := match s1.symbols.lookup inst with
        | some _ => s1.symbols
        | none => (inst, env.dlsym name) :: s1.symbols }, ?_⟩
    simp [hr, Outcome.andThen, IOHandler.fail, State.log, hm1]
    try rfl
  · intro hr hz
    refine ⟨{ s1 with
      trace := s1.trace ++ Manager.lookups inst name s1 ++
        bracket s1._ovniEnabled inst.code (Manager.resolved env inst name s1) params
      symbols := match s1.symbols.lookup inst with
        | some _ => s1.symbols
        | none => (inst, env.dlsym name) :: s1.symbols }, ?_⟩
    simp [hr, hz, Outcome.andThen, IOHandler.fail, State.log, hm2]
    try rfl

/-- C21, as stated, fails on the code: the real `MPI_Init` returns the status
17 and the rank query that follows fails; the wrapper does not return 17, it
terminates the process with "Could not retrieve the MPI rank". -/
theorem init_wrapper_terminates_on_failed_query :
    (Examples.world none (.returned 17)).call 1008 [1, 2] = .returned 17 ∧
    (C.MPI_Init (Examples.world none (.returned 17)) Examples.failing 1 2
      (State.initial false)).isFatal = true ∧
    (C.MPI_Init (Examples.world none (.returned 17)) Examples.failing 1 2
      (State.initial false)).completion = none ∧
    (C.MPI_Init (Examples.world none (.returned 17)) Examples.failing 1 2
      (State.initial false)).state.trace =
      [.getenv "SONAR_MPI_INSTRUMENT", .dlsym "MPI_Init", .call 1008 [1, 2],
       .query "MPI_Comm_rank", .stderr "Error: Could not retrieve the MPI rank\n"] := by
  refine ⟨by decide, ?_, ?_, ?_⟩ <;> rw [C.MPI_Init, Instrument.preinitialize_eq] <;> decide

/-- C21, amended: when the preinitialization returns and the symbol resolves,
for every status that the real `MPI_Init` or `MPI_Init_thread` returns,
success or not, the wrapper returns that same status to its caller and does
not terminate the process, provided both the rank query and the size query
that follow succeed; when one of the queries fails, the wrapper terminates
the process itself. -/
theorem init_wrappers_return_status (env : Env) (mpi : Queries)
    (argc argv required provided status : Int) (s s1 : State)
    (hpre : Instrument.preinitialize env s = .ok () s1) :
    ((Manager.symbol env ⟨.C, .Init, .Regular, "int", ["int *", "char ***"]⟩ "MPI_Init"
        s1).isFatal = false →
      env.call (Manager.resolved env ⟨.C, .Init, .Regular, "int", ["int *", "char ***"]⟩
        "MPI_Init" s1) [argc, argv] = .returned status →
      (mpi.MPI_Comm_rank.1 = MPI_SUCCESS → mpi.MPI_Comm_size.1 = MPI_SUCCESS →
        (C.MPI_Init env mpi argc argv s).completion = some (.returned status) ∧
        (C.MPI_Init env mpi argc argv s).isFatal = false) ∧
      ((mpi.MPI_Comm_rank.1 ≠ MPI_SUCCESS ∨ mpi.MPI_Comm_size.1 ≠ MPI_SUCCESS) →
        (C.MPI_Init env mpi argc argv s).isFatal = true)) ∧
    ((Manager.symbol env
        ⟨.C, .InitThread, .Regular, "int", ["int *", "char ***", "int", "int *"]⟩
        "MPI_Init_thread" s1).isFatal = false →
      env.call (Manager.resolved env
        ⟨.C, .InitThread, .Regular, "int", ["int *", "char ***", "int", "int *"]⟩
        "MPI_Init_thread" s1) [argc, argv, required, provided] = .returned status →
      (mpi.MPI_Comm_rank.1 = MPI_SUCCESS → mpi.MPI_Comm_size.1 = MPI_SUCCESS →
        (C.MPI_Init_thread env mpi argc argv required provided s).completion =
          some (.returned status) ∧
        (C.MPI_Init_thread env mpi argc argv required provided s).isFatal = false) ∧
      ((mpi.MPI_Comm_rank.1 ≠ MPI_SUCCESS ∨ mpi.MPI_Comm_size.1 ≠ MPI_SUCCESS) →
        (C.MPI_Init_thread env mpi argc argv required provided s).isFatal = true)) := by
  have key : ∀ (inst : Instantiation) (name : String) (params : List Int),
      (Manager.symbol env inst name s1).isFatal = false →
      env.call (Manager.resolved env inst name s1) params = .returned status →
      (mpi.MPI_Comm_rank.1 = MPI_SUCCESS → mpi.MPI_Comm_size.1 = MPI_SUCCESS →
        (initSteps id env "MPI_Comm_rank" "MPI_Comm_size" mpi.MPI_Comm_rank mpi.MPI_Comm_size
          inst name params s).completion = some (.returned status) ∧
        (initSteps id env "MPI_Comm_rank" "MPI_Comm_size" mpi.MPI_Comm_rank mpi.MPI_Comm_size
          inst name params s).isFatal = false) ∧
      ((mpi.MPI_Comm_rank.1 ≠ MPI_SUCCESS ∨ mpi.MPI_Comm_size.1 ≠ MPI_SUCCESS) →
        (initSteps id env "MPI_Comm_rank" "MPI_Comm_size" mpi.MPI_Comm_rank mpi.MPI_Comm_size
          inst name params s).isFatal = true) := by
    intro inst name params hsymbol hcall
    have h := initSteps_status id env "MPI_Comm_rank" "MPI_Comm_size" mpi.MPI_Comm_rank
      mpi.MPI_Comm_size inst name params s s1 status hpre hsymbol hcall
    refine ⟨?_, ?_⟩
    · intro hr hz
      obtain ⟨final, hf⟩ := h.1 hr hz
      rw [hf]
      exact ⟨rfl, rfl⟩
    · intro hq
      by_cases hr : mpi.MPI_Comm_rank.1 = MPI_SUCCESS
      · have hz : mpi.MPI_Comm_size.1 ≠ MPI_SUCCESS := by
          rcases hq with hq | hq
          · exact absurd hr hq
          · exact hq
        obtain ⟨t, ht⟩ := h.2.2 hr hz
        rw [ht]
        rfl
      · obtain ⟨t, ht⟩ := h.2.1 hr
        rw [ht]
        rfl
  have e := entry_points_eq env mpi argc argv required provided 0 s
  rw [e.1, e.2.1]
  exact ⟨key _ _ _, key _ _ _⟩

/-- C21, amended, at a concrete input: the real `MPI_Init` returns the status
17 and both queries succeed; the wrapper returns 17. -/
theorem init_wrappers_return_status_witness :
    Instrument.preinitialize (Examples.world none (.returned 17)) (State.initial false) =
      .ok () ⟨false, false, [], false, [.getenv "SONAR_MPI_INSTRUMENT"]⟩ ∧
    (C.MPI_Init (Examples.world none (.returned 17)) Examples.queries 1 2
      (State.initial false)).completion = some (.returned 17) :=
  ⟨by rw [Instrument.preinitialize_eq]; decide,
    (((init_wrappers_return_status (Examples.world none (.returned 17)) Examples.queries
      1 2 0 0 17 (State.initial false)
      ⟨false, false, [], false, [.getenv "SONAR_MPI_INSTRUMENT"]⟩
      (by rw [Instrument.preinitialize_eq]; decide)).1
        (by decide) (by decide)).1 rfl rfl).1⟩

/-! ## The wrapper tables -/

/-- A list of triples has no duplicate when, for each language and count
flavor, the operation codes of the triples of that language and flavor have
none. -/
theorem nodup_of_groups (l : List (Operation.Lang × Operation.Code × Operation.Count))
    (h : ∀ (lang : Operation.Lang) (cnt : Operation.Count),
      ((l.filter (fun t => t.1 == lang && t.2.2 == cnt)).map (fun t => t.2.1.toNat)).Nodup) :
    l.Nodup := by
  induction l with
  | nil => exact List.nodup_nil
  | cons x xs ih =>
    rw [List.nodup_cons]
    constructor
    · intro hx
      have hf : (x :: xs).filter (fun t => t.1 == x.1 && t.2.2 == x.2.2) =
          x :: xs.filter (fun t => t.1 == x.1 && t.2.2 == x.2.2) := by
        simp [List.filter_cons]
      have hg := h x.1 x.2.2
      rw [hf, List.map_cons, List.nodup_cons] at hg
      exact hg.1 (List.mem_map_of_mem _ (List.mem_filter.2 ⟨hx, by simp⟩))
    · apply ih
      intro lang cnt
      exact (h lang cnt).sublist
        (((List.sublist_cons_self x xs).filter _).map _)

set_option maxRecDepth 1000000 in
/-- The operation codes of the C regular wrappers are pairwise different. -/
theorem allWrappers_codes_C_Regular :
    ((((allWrappers 4).map Wrapper.triple).filter
      (fun t => t.1 == .C && t.2.2 == .Regular)).map (fun t => t.2.1.toNat)).Nodup := by
  decide

set_option maxRecDepth 1000000 in
/-- The operation codes of the C large count wrappers are pairwise
different. -/
theorem allWrappers_codes_C_Large :
    ((((allWrappers 4).map Wrapper.triple).filter
      (fun t => t.1 == .C && t.2.2 == .Large)).map (fun t => t.2.1.toNat)).Nodup := by
  decide

set_option maxRecDepth 1000000 in
/-- The operation codes of the Fortran regular wrappers are pairwise
different. -/
theorem allWrappers_codes_Fortran_Regular :
    ((((allWrappers 4).map Wrapper.triple).filter
      (fun t => t.1 == .Fortran && t.2.2 == .Regular)).map (fun t => t.2.1.toNat)).Nodup := by
  decide

set_option maxRecDepth 1000000 in
/-- The Fortran file has no large count wrapper. -/
theorem allWrappers_codes_Fortran_Large :
    ((((allWrappers 4).map Wrapper.triple).filter
      (fun t => t.1 == .Fortran && t.2.2 == .Large)).map (fun t => t.2.1.toNat)).Nodup := by
  decide

/-- No two wrappers of the two files have the same language, operation code
and count flavor. -/
theorem allWrappers_triple_nodup : ((allWrappers 4).map Wrapper.triple).Nodup := by
  apply nodup_of_groups
  intro lang cnt
  cases lang <;> cases cnt
  · exact allWrappers_codes_C_Regular
  · exact allWrappers_codes_C_Large
  · exact allWrappers_codes_Fortran_Regular
  · exact allWrappers_codes_Fortran_Large

set_option maxRecDepth 1000000 in
/-- The shape of the Fortran wrappers, first half of the table. -/
theorem Fortran.wrappers_signature_first :
    ∀ w ∈ (Fortran.wrappers 4).take 30, w.name ≠ "mpi_init_thread_" →
      Fortran.hasFortranSignature w = true := by
  decide

set_option maxRecDepth 1000000 in
/-- The shape of the Fortran wrappers, second half of the table. -/
theorem Fortran.wrappers_signature_rest :
    ∀ w ∈ (Fortran.wrappers 4).drop 30, w.name ≠ "mpi_init_thread_" →
      Fortran.hasFortranSignature w = true := by
  decide

/-- Every Fortran wrapper but `mpi_init_thread_` has the shape of a Fortran
entry point. -/
theorem Fortran.wrappers_signature :
    ∀ w ∈ Fortran.wrappers 4, w.name ≠ "mpi_init_thread_" →
      Fortran.hasFortranSignature w = true := by
  intro w hw
  rcases mem_take_or_drop 30 _ w hw with h | h
  · exact Fortran.wrappers_signature_first w h
  · exact Fortran.wrappers_signature_rest w h

/-- C22, on the code: the wrapper `mpi_init_thread_` of the Fortran file
declares its first parameter `required` with the type `MPI_Fint`, which is not
a pointer type, so it does not have the signature of a Fortran entry point;
every other Fortran wrapper returns nothing, has pointer types for all its
parameters and the error status pointer as its last one; and every wrapper
hands its parameters to `Manager::process` with the types it declares. -/
theorem fortran_wrapper_signatures :
    (⟨.Fortran, .InitThread, .Regular, "void", "mpi_init_thread_",
      ["MPI_Fint", "MPI_Fint *", "MPI_Fint *"]⟩ : Wrapper) ∈ Fortran.wrappers 4 ∧
    Fortran.isPointer "MPI_Fint" = false ∧
    Fortran.hasFortranSignature ⟨.Fortran, .InitThread, .Regular, "void", "mpi_init_thread_",
      ["MPI_Fint", "MPI_Fint *", "MPI_Fint *"]⟩ = false ∧
    (∀ w ∈ Fortran.wrappers 4, w.name ≠ "mpi_init_thread_" →
      Fortran.hasFortranSignature w = true) ∧
    (∀ w : Wrapper, w.instantiation.params = w.types ∧ w.instantiation.returnTy = w.ret) :=
  ⟨by decide, by decide, by decide, Fortran.wrappers_signature, fun _ => ⟨rfl, rfl⟩⟩

/-- The first effect of a call through a wrapper whose address is not stored
is the lookup of the wrapper's own name. -/
theorem DEFINE_FUNC_lookup (env : Env) (w : Wrapper) (params : List Int) (s : State)
    (hfresh : s.symbols.lookup w.instantiation = none) :
    ∃ rest, (DEFINE_FUNC env w params s).state.trace = s.trace ++ .dlsym w.name :: rest := by
  unfold DEFINE_FUNC
  have hl : Manager.lookups w.instantiation w.name s = [.dlsym w.name] := by
    simp [Manager.lookups, hfresh]
  cases hfatal : (Manager.symbol env w.instantiation w.name s).isFatal with
  | false =>
    rw [Manager.process_of_not_fatal_bracket env _ _ params s hfatal]
    refine ⟨bracket s._ovniEnabled w.instantiation.code
      (Manager.resolved env w.instantiation w.name s) params, ?_⟩
    cases env.call (Manager.resolved env w.instantiation w.name s) params <;>
      simp [Outcome.state, hl]
  | true =>
    obtain ⟨h1, h2⟩ := (Manager.symbol_isFatal env _ _ s).1 hfatal
    exact ⟨[.stderr ("Error: " ++
      IOHandler.emitReasonParts ["Could not find symbol ", w.name] ++ "\n")], by
      simp [Manager.process, Manager.symbol, h1, Symbol.load, h2, IOHandler.fail,
        Outcome.state]⟩

set_option maxRecDepth 1000000 in
/-- The names of the large count wrappers of the C file, first half of the
table. -/
theorem C.large_names_first :
    ∀ w ∈ (C.wrappers 4).take 80, w.cnt = .Large →
      (C.regularName 4 w.op).map (fun name => name ++ "_c") = some w.name := by
  decide

set_option maxRecDepth 1000000 in
/-- The names of the large count wrappers of the C file, second half of the
table. -/
theorem C.large_names_rest :
    ∀ w ∈ (C.wrappers 4).drop 80, w.cnt = .Large →
      (C.regularName 4 w.op).map (fun name => name ++ "_c") = some w.name := by
  decide

/-- The names of the large count wrappers of the C file. -/
theorem C.large_names :
    ∀ w ∈ C.wrappers 4, w.cnt = .Large →
      (C.regularName 4 w.op).map (fun name => name ++ "_c") = some w.name := by
  intro w hw
  rcases mem_take_or_drop 80 _ w hw with h | h
  · exact C.large_names_first w h
  · exact C.large_names_rest w h

set_option maxRecDepth 1000000 in
/-- The names of the wrappers of the Fortran file, first half of the table. -/
theorem Fortran.lower_names_first :
    ∀ w ∈ (Fortran.wrappers 4).take 30,
      (C.regularName 4 w.op).map (fun name => lowerCase name ++ "_") = some w.name := by
  decide

set_option maxRecDepth 1000000 in
/-- The names of the wrappers of the Fortran file, second half of the table. -/
theorem Fortran.lower_names_rest :
    ∀ w ∈ (Fortran.wrappers 4).drop 30,
      (C.regularName 4 w.op).map (fun name => lowerCase name ++ "_") = some w.name := by
  decide

/-- The names of the wrappers of the Fortran file. -/
theorem Fortran.lower_names :
    ∀ w ∈ Fortran.wrappers 4,
      (C.regularName 4 w.op).map (fun name => lowerCase name ++ "_") = some w.name := by
  intro w hw
  rcases mem_take_or_drop 30 _ w hw with h | h
  · exact Fortran.lower_names_first w h
  · exact Fortran.lower_names_rest w h

/-- C23: every wrapper passes its own exported name as the lookup name (a
wrapper defined with `DEFINE_FUNCn` dispatches with its name, and the first
call looks that name up; the six wrappers written out by hand dispatch with
the name of their row of the table); the name of every C large count wrapper
is the name of the C regular wrapper of the same operation code with "_c"
appended; and the name of every Fortran wrapper is the name of the C regular
wrapper of the same operation code in lower case with "_" appended. -/
theorem wrapper_names_convention :
    (∀ (env : Env) (w : Wrapper) (params : List Int) (s : State),
      DEFINE_FUNC env w params s = Manager.process env w.instantiation w.name params s ∧
      (s.symbols.lookup w.instantiation = none →
        ∃ rest, (DEFINE_FUNC env w params s).state.trace =
          s.trace ++ .dlsym w.name :: rest)) ∧
    (∀ (env : Env) (mpi : Queries) (argc argv required provided err : Int) (s : State),
      C.MPI_Init env mpi argc argv s =
        initSteps id env "MPI_Comm_rank" "MPI_Comm_size" mpi.MPI_Comm_rank mpi.MPI_Comm_size
          (Wrapper.mk .C .Init .Regular "int" "MPI_Init" ["int *", "char ***"]).instantiation
          "MPI_Init" [argc, argv] s ∧
      C.MPI_Init_thread env mpi argc argv required provided s =
        initSteps id env "MPI_Comm_rank" "MPI_Comm_size" mpi.MPI_Comm_rank mpi.MPI_Comm_size
          (Wrapper.mk .C .InitThread .Regular "int" "MPI_Init_thread"
            ["int *", "char ***", "int", "int *"]).instantiation
          "MPI_Init_thread" [argc, argv, required, provided] s ∧
      C.MPI_Finalize env s =
        finalizeSteps id env
          (Wrapper.mk .C .Finalize .Regular "int" "MPI_Finalize" []).instantiation
          "MPI_Finalize" [] s ∧
      Fortran.mpi_init_ env mpi err s =
        initSteps (fun _ => ()) env "mpi_comm_rank_" "mpi_comm_size_" mpi.mpi_comm_rank_
          mpi.mpi_comm_size_
          (Wrapper.mk .Fortran .Init .Regular "void" "mpi_init_" ["MPI_Fint *"]).instantiation
          "mpi_init_" [err] s ∧
      Fortran.mpi_init_thread_ env mpi required provided err s =
        initSteps (fun _ => ()) env "mpi_comm_rank_" "mpi_comm_size_" mpi.mpi_comm_rank_
          mpi.mpi_comm_size_
          (Wrapper.mk .Fortran .InitThread .Regular "void" "mpi_init_thread_"
            ["MPI_Fint", "MPI_Fint *", "MPI_Fint *"]).instantiation
          "mpi_init_thread_" [required, provided, err] s ∧
      Fortran.mpi_finalize_ env err s =
        finalizeSteps (fun _ => ()) env
          (Wrapper.mk .Fortran .Finalize .Regular "void" "mpi_finalize_"
            ["MPI_Fint *"]).instantiation
          "mpi_finalize_" [err] s) ∧
    (∀ w ∈ C.wrappers 4, w.cnt = .Large →
      (C.regularName 4 w.op).map (fun name => name ++ "_c") = some w.name) ∧
    (∀ w ∈ Fortran.wrappers 4,
      (C.regularName 4 w.op).map (fun name => lowerCase name ++ "_") = some w.name) :=
  ⟨fun env w params s => ⟨rfl, DEFINE_FUNC_lookup env w params s⟩,
    fun env mpi argc argv required provided err s =>
      ⟨(entry_points_eq env mpi argc argv required provided err s).1,
        (entry_points_eq env mpi argc argv required provided err s).2.1,
        (entry_points_eq env mpi argc argv required provided err s).2.2.2.2.1,
        (entry_points_eq env mpi argc argv required provided err s).2.2.1,
        (entry_points_eq env mpi argc argv required provided err s).2.2.2.1,
        (entry_points_eq env mpi argc argv required provided err s).2.2.2.2.2⟩,
    C.large_names, Fortran.lower_names⟩

/-! ## The entries of the table -/

set_option maxRecDepth 100000 in
/-- C25: the table `Interfaces` has `NumCodes` entries, the operation codes
are exactly the values below `NumCodes`, every operation code has its entry at
the index that is its value, and in every entry the enter value and the exit
value are three characters long and start with the character M. -/
theorem Interfaces_entries_three_characters :
    Interfaces.length = Operation.NumCodes ∧
    (∀ c : Operation.Code,
      c.toNat < Operation.NumCodes ∧ Interfaces[c.toNat]? = some (InterfacesAt c)) ∧
    (∀ i, i < Operation.NumCodes → ∃ c : Operation.Code, c.toNat = i) ∧
    (∀ e ∈ Interfaces,
      e._enterMCV.length = 3 ∧ e._exitMCV.length = 3 ∧
      e._enterMCV.data.head? = some 'M' ∧ e._exitMCV.data.head? = some 'M') := by
  have hall : Operation.Code.all.map Operation.Code.toNat =
      List.range Operation.NumCodes := by decide
  refine ⟨by decide, ?_, ?_, by decide⟩
  · intro c
    exact ⟨by cases c <;> decide, Interfaces_at_code c⟩
  · intro i hi
    have hmem : i ∈ Operation.Code.all.map Operation.Code.toNat := by
      rw [hall]
      exact List.mem_range.2 hi
    obtain ⟨c, -, hc⟩ := List.mem_map.1 hmem
    exact ⟨c, hc⟩

set_option maxRecDepth 100000 in
/-- C29: the check validates the two values of an alias entry one by one: it
accepts the table whose alias entry pairs the enter value "MAg" of one
non-alias entry with the exit value "MAA" of another, a pair that no single
non-alias entry of that table has; whereas in the table `Interfaces` the pair
of every alias entry is the pair of one single non-alias entry at a smaller
operation code. -/
theorem alias_values_checked_one_by_one :
    checkStateTable Examples.mixedAlias = none ∧
    (∃ e ∈ Examples.mixedAlias, e._isAlias = true ∧
      ∀ d ∈ Examples.mixedAlias, d._isAlias = false →
        ¬ (e._enterMCV = d._enterMCV ∧ e._exitMCV = d._exitMCV)) ∧
    (∀ c : Operation.Code, (InterfacesAt c)._isAlias = true →
      ∃ d : Operation.Code, d.toNat < c.toNat ∧ (InterfacesAt d)._isAlias = false ∧
        (InterfacesAt c)._enterMCV = (InterfacesAt d)._enterMCV ∧
        (InterfacesAt c)._exitMCV = (InterfacesAt d)._exitMCV) := by
  refine ⟨by decide, ⟨⟨"MAg", "MAA", true⟩, by decide, by decide⟩, ?_⟩
  have key : ∀ c ∈ Operation.Code.all, (InterfacesAt c)._isAlias = true →
      ∃ d ∈ Operation.Code.all, d.toNat < c.toNat ∧ (InterfacesAt d)._isAlias = false ∧
        (InterfacesAt c)._enterMCV = (InterfacesAt d)._enterMCV ∧
        (InterfacesAt c)._exitMCV = (InterfacesAt d)._exitMCV := by
    decide
  intro c hc
  obtain ⟨d, -, hd⟩ := key c c.mem_all hc
  exact ⟨d, hd⟩

/-! ## The name of the loom -/

/-- The decimal digits of a number, read back: each character is a digit, none
is a dot or a minus sign, and the digits give the number. -/
theorem toDigitsCore_decimal (fuel : Nat) :
    ∀ (n : Nat) (ds : List Char), n < fuel →
      ∃ l : List Char, Nat.toDigitsCore 10 fuel n ds = l ++ ds ∧
        (∀ c ∈ l, c ≠ '.' ∧ c ≠ '-') ∧
        l.foldl (fun a c => 10 * a + (c.toNat - 48)) 0 = n := by
  have hdigit : ∀ k, k < 10 →
      (Nat.digitChar k).toNat - 48 = k ∧ Nat.digitChar k ≠ '.' ∧ Nat.digitChar k ≠ '-' := by
    decide
  induction fuel with
  | zero => intro n ds h; exact absurd h (Nat.not_lt_zero _)
  | succ fuel ih =>
    intro n ds hn
    have hd := hdigit (n % 10) (Nat.mod_lt _ (by decide))
    by_cases h0 : n / 10 = 0
    · refine ⟨[Nat.digitChar (n % 10)], ?_, ?_, ?_⟩
      · simp [Nat.toDigitsCore, h0]
      · intro c hc
        rw [List.mem_singleton] at hc
        subst hc
        exact hd.2
      · have hlt : n < 10 := by omega
        simp only [List.foldl, hd.1]
        omega
    · have hlt : n / 10 < fuel := by omega
      obtain ⟨l, hl, hc, hv⟩ := ih (n / 10) (Nat.digitChar (n % 10) :: ds) hlt
      refine ⟨l ++ [Nat.digitChar (n % 10)], ?_, ?_, ?_⟩
      · simp [Nat.toDigitsCore, h0, hl]
      · intro c hmem
        rcases List.mem_append.1 hmem with hmem | hmem
        · exact hc c hmem
        · rw [List.mem_singleton] at hmem
          subst hmem
          exact hd.2
      · rw [List.foldl_append, hv]
        simp only [List.foldl, hd.1]
        omega

/-- The decimal text of a natural number holds neither a dot nor a minus
sign, and the text gives the number. -/
theorem Nat.repr_decimal (n : Nat) :
    (∀ c ∈ (Nat.repr n).data, c ≠ '.' ∧ c ≠ '-') ∧
    (Nat.repr n).data.foldl (fun a c => 10 * a + (c.toNat - 48)) 0 = n := by
  obtain ⟨l, hl, hc, hv⟩ := toDigitsCore_decimal (n + 1) n [] (Nat.lt_succ_self n)
  have hdata : (Nat.repr n).data = l := by
    show Nat.toDigits 10 n = l
    unfold Nat.toDigits
    rw [hl, List.append_nil]
  rw [hdata]
  exact ⟨hc, hv⟩

/-- The decimal text of an integer holds no dot, and the text gives the
integer. -/
theorem Instrument.to_string_decimal (i j : Int) :
    (∀ c ∈ (to_string i).data, c ≠ '.') ∧ (to_string i = to_string j → i = j) := by
  have hdata : ∀ k : Int, (to_string k).data =
      if k < 0 then '-' :: (Nat.repr k.natAbs).data else (Nat.repr k.toNat).data := by
    intro k
    unfold to_string
    by_cases hk : k < 0 <;> simp [hk, String.data_append]
  have hhead : ∀ n : Nat, ∀ l : List Char, (Nat.repr n).data ≠ '-' :: l := by
    intro n l h
    have := (Nat.repr_decimal n).1 '-' (by rw [h]; exact List.mem_cons_self _ _)
    exact this.2 rfl
  constructor
  · intro c hc
    rw [hdata] at hc
    by_cases hi : i < 0
    · simp only [hi, if_true, List.mem_cons] at hc
      rcases hc with hc | hc
      · subst hc
        decide
      · exact ((Nat.repr_decimal _).1 c hc).1
    · simp only [hi, if_false] at hc
      exact ((Nat.repr_decimal _).1 c hc).1
  · intro h
    have hd := congrArg String.data h
    rw [hdata, hdata] at hd
    by_cases hi : i < 0 <;> by_cases hj : j < 0
    · simp only [hi, hj, if_true, List.cons.injEq, true_and] at hd
      have := congrArg (List.foldl (fun a c => 10 * a + (c.toNat - 48)) 0) hd
      rw [(Nat.repr_decimal _).2, (Nat.repr_decimal _).2] at this
      omega
    · simp only [hi, hj, if_true, if_false] at hd
      exact absurd hd.symm (hhead _ _)
    · simp only [hi, hj, if_true, if_false] at hd
      exact absurd hd (hhead _ _)
    · simp only [hi, hj, if_false] at hd
      have := congrArg (List.foldl (fun a c => 10 * a + (c.toNat - 48)) 0) hd
      rw [(Nat.repr_decimal _).2, (Nat.repr_decimal _).2] at this
      omega

/-- Two texts that end in a dot followed by a text without a dot are equal
only when the parts before and after that dot are equal. -/
theorem split_at_last_dot (x y : List Char) :
    ∀ a b : List Char, '.' ∉ a → '.' ∉ b → a ++ '.' :: x = b ++ '.' :: y → a = b ∧ x = y := by
  intro a
  induction a with
  | nil =>
    intro b _ hb h
    cases b with
    | nil => simpa using h
    | cons c b =>
      simp only [List.nil_append, List.cons_append, List.cons.injEq] at h
      exact absurd (List.mem_cons.2 (Or.inl h.1)) hb
  | cons d a ih =>
    intro b ha hb h
    cases b with
    | nil =>
      simp only [List.nil_append, List.cons_append, List.cons.injEq] at h
      exact absurd (List.mem_cons.2 (Or.inl h.1.symm)) ha
    | cons c b =>
      simp only [List.cons_append, List.cons.injEq] at h
      have := ih b (fun hm => ha (List.mem_cons_of_mem _ hm))
        (fun hm => hb (List.mem_cons_of_mem _ hm)) h.2
      exact ⟨by rw [h.1, this.1], this.2⟩

/-- The name of the loom determines the host name and the process id. -/
theorem loom_inj (h1 h2 : String) (p1 p2 : Int)
    (h : h1 ++ "." ++ to_string p1 = h2 ++ "." ++ to_string p2) : h1 = h2 ∧ p1 = p2 := by
  have hd := congrArg (fun t : String => t.data.reverse) h
  simp only [String.data_append, List.reverse_append] at hd
  have hdot : ".".data.reverse = ['.'] := rfl
  rw [hdot] at hd
  simp only [List.singleton_append] at hd
  have hsplit := split_at_last_dot h1.data.reverse h2.data.reverse
    (to_string p1).data.reverse (to_string p2).data.reverse
    (fun hm => (to_string_decimal p1 p1).1 '.' (List.mem_reverse.1 hm) rfl)
    (fun hm => (to_string_decimal p2 p2).1 '.' (List.mem_reverse.1 hm) rfl) hd
  refine ⟨String.ext (List.reverse_injective hsplit.2), ?_⟩
  exact (to_string_decimal p1 p2).2 (String.ext (List.reverse_injective hsplit.1))

/-- C24: `ovniInitialize`, when it initialises ovni itself, gives the process
the loom `hostname ++ "." ++ decimal(pid)`: this is the name in the
`ovni_proc_init` call, the first backend call it makes. The naming is
injective: different pairs of host name and process id give different loom
names, and in particular two different process ids on one host do. -/
theorem loom_names_injective :
    (∀ (env : Env) (s : State) (hostname : String),
      env.gethostname = some hostname → s.threadReady = false →
      ∃ rest, (ovniInitialize env s).state.trace =
        s.trace ++ .ovni_proc_init 1 (hostname ++ "." ++ to_string env.getpid) env.getpid ::
          rest) ∧
    (∀ (h1 h2 : String) (p1 p2 : Int), (h1, p1) ≠ (h2, p2) →
      h1 ++ "." ++ to_string p1 ≠ h2 ++ "." ++ to_string p2) ∧
    (∀ (h : String) (p1 p2 : Int), p1 ≠ p2 →
      h ++ "." ++ to_string p1 ≠ h ++ "." ++ to_string p2) := by
  refine ⟨?_, ?_, ?_⟩
  · intro env s hostname hh hr
    exact ⟨[.ovni_thread_init env.gettid, .ovni_add_cpu 0 0, .ovni_ev_emit "OHx" [-1, -1, 0]],
      by simp [ovniInitialize, Utils.getHostName, hh, hr, State.log, emitPayload,
        Outcome.state]⟩
  · intro h1 h2 p1 p2 hne heq
    have := loom_inj h1 h2 p1 p2 heq
    exact hne (by rw [this.1, this.2])
  · intro h p1 p2 hne heq
    exact hne (loom_inj h h p1 p2 heq).2

/-- C24 at concrete inputs: the loom of process 4242 on the host "node1" is
"node1.4242"; the pairs ("node1.4", 2) and ("node1", 42) give different
looms, and so do the processes 4242 and 4243 on the host "node1". -/
theorem loom_names_injective_witness :
    "node1" ++ "." ++ to_string 4242 = "node1.4242" ∧
    "node1.4" ++ "." ++ to_string 2 ≠ "node1" ++ "." ++ to_string 42 ∧
    "node1" ++ "." ++ to_string 4242 ≠ "node1" ++ "." ++ to_string 4243 :=
  ⟨by decide, loom_names_injective.2.1 "node1.4" "node1" 2 42 (by decide),
    loom_names_injective.2.2 "node1" 4242 4243 (by decide)⟩

/-! ## The state before the preinitialization -/

/-- A sequence of calls without a preinitialization, from a state with the
instrumentation disabled, keeps it disabled and makes no backend call. -/
theorem run_uninitialized (env : Env) (acts : List Action)
    (hno : Action.preinitializeCall ∉ acts) :
    ∀ s : State, s._ovniEnabled = false →
      (run env acts s).state._ovniEnabled = false ∧
      (run env acts s).state.trace.filter Effect.isBackend =
        s.trace.filter Effect.isBackend := by
  induction acts with
  | nil => intro s hs; exact ⟨hs, rfl⟩
  | cons a rest ih =>
    intro s hs
    have hrest : Action.preinitializeCall ∉ rest := fun h => hno (List.mem_cons_of_mem _ h)
    have hstep : (step env a s).state._ovniEnabled = false ∧
        (step env a s).state.trace.filter Effect.isBackend =
          s.trace.filter Effect.isBackend := by
      cases a with
      | processCall inst name params =>
        have h := Manager.process_disabled env inst name params s hs
        simp only [step]
        cases hp : Manager.process env inst name params s <;>
          simpa [hp, Outcome.state] using h
      | preinitializeCall => exact absurd (List.mem_cons_self _ _) hno
      | initializeCall rank nranks =>
        simp [step, Instrument.initialize, hs, Outcome.state]
      | finalizeCall =>
        simp [step, Instrument.finalize, hs, Outcome.state]
    simp only [run]
    cases h : step env a s with
    | ok v t =>
      rw [h] at hstep
      simp only [Outcome.state] at hstep
      have := ih hrest t hstep.1
      exact ⟨this.1, this.2.trans hstep.2⟩
    | threw e t =>
      rw [h] at hstep
      simp only [Outcome.state] at hstep
      have := ih hrest t hstep.1
      exact ⟨this.1, this.2.trans hstep.2⟩
    | fatal how t =>
      rw [h] at hstep
      exact hstep

/-- C30: at process start, before `Instrument::preinitialize` has run, both
flags are false; in that state a wrapped call makes no backend call (it emits
no event), `Instrument::initialize` and `Instrument::finalize` change nothing,
and any sequence of wrapped calls, initializations and finalizations that
holds no preinitialization leaves the instrumentation disabled and makes no
backend call. -/
theorem uninitialized_state_is_silent (env : Env) (threadReady : Bool) :
    (State.initial threadReady)._ovniEnabled = false ∧
    (State.initial threadReady)._ovniFinalize = false ∧
    (∀ (inst : Instantiation) (name : String) (params : List Int),
      (Manager.process env inst name params (State.initial threadReady)).state.trace.filter
        Effect.isBackend = [] ∧
      (Manager.process env inst name params (State.initial threadReady)).state.trace.filter
        Effect.isEvent = []) ∧
    (∀ rank nranks : Int,
      ( Instrument.initialize rank nranks (State.initial threadReady)) =
        State.initial threadReady) ∧
    Instrument.finalize (State.initial threadReady) = State.initial threadReady ∧
    (∀ acts : List Action, Action.preinitializeCall ∉ acts →
      (run env acts (State.initial threadReady)).state._ovniEnabled = false ∧
      (run env acts (State.initial threadReady)).state.trace.filter Effect.isBackend = []) := by
  refine ⟨rfl, rfl, ?_, fun _ _ => rfl, rfl, ?_⟩
  · intro inst name params
    have h := (Manager.process_disabled env inst name params (State.initial threadReady) rfl).2
    have hb : (Manager.process env inst name params (State.initial threadReady)).state.trace.filter
        Effect.isBackend = [] := by
      rw [h]
      rfl
    refine ⟨hb, ?_⟩
    rw [List.filter_eq_nil_iff] at hb ⊢
    intro e he hev
    apply hb e he
    cases e <;> simp_all [Effect.isEvent, Effect.isBackend]
  · intro acts hno
    have h := run_uninitialized env acts hno (State.initial threadReady) rfl
    refine ⟨h.1, ?_⟩
    rw [h.2]
    rfl

/-- C30 at a concrete input: from the state at process start, a call of the
barrier wrapper, an initialization and a finalization do one lookup and one
call of the real function, and nothing else. -/
theorem uninitialized_state_is_silent_witness :
    (run (Examples.env (some "ovni") (.returned 0))
      [.processCall Examples.barrier "MPI_Barrier" [91], .initializeCall 0 4, .finalizeCall]
      (State.initial false)).state.trace =
      [.dlsym "MPI_Barrier", .call 4096 [91]] ∧
    (run (Examples.env (some "ovni") (.returned 0))
      [.processCall Examples.barrier "MPI_Barrier" [91], .initializeCall 0 4, .finalizeCall]
      (State.initial false)).state._ovniEnabled = false ∧
    (run (Examples.env (some "ovni") (.returned 0))
      [.processCall Examples.barrier "MPI_Barrier" [91], .initializeCall 0 4, .finalizeCall]
      (State.initial false)).state.trace.filter Effect.isBackend = [] :=
  ⟨by decide,
    (uninitialized_state_is_silent (Examples.env (some "ovni") (.returned 0)) false).2.2.2.2.2
      [.processCall Examples.barrier "MPI_Barrier" [91], .initializeCall 0 4, .finalizeCall]
      (by decide)⟩

/-! ## The default value of the variable -/

/-- C26: when the variable `SONAR_MPI_INSTRUMENT` is not defined, the
environment variable object takes the default value "none" and
`Instrument::preinitialize` returns with the instrumentation disabled, having
done nothing but read the variable: no error, no warning and no backend call;
with the variable defined as "none" the outcome is the same one. -/
theorem preinitialize_undefined_is_none (env : Env) (s : State) :
    (env.getenv "SONAR_MPI_INSTRUMENT" = none →
      (Envar.construct env "SONAR_MPI_INSTRUMENT" "none" s).1 =
        ⟨"none", false, "SONAR_MPI_INSTRUMENT"⟩ ∧
      Instrument.preinitialize env s =
        .ok () { s with _ovniEnabled := false,
                        trace := s.trace ++ [.getenv "SONAR_MPI_INSTRUMENT"] }) ∧
    (env.getenv "SONAR_MPI_INSTRUMENT" = some "none" →
      Instrument.preinitialize env s =
        .ok () { s with _ovniEnabled := false,
                        trace := s.trace ++ [.getenv "SONAR_MPI_INSTRUMENT"] }) := by
  have hp : StringSupport.parse "none" = some "none" := by decide
  constructor
  · intro h
    have hc : Envar.construct env "SONAR_MPI_INSTRUMENT" "none" s =
        (⟨"none", false, "SONAR_MPI_INSTRUMENT"⟩, s.log (.getenv "SONAR_MPI_INSTRUMENT")) := by
      simp [Envar.construct, h]
    refine ⟨by rw [hc], ?_⟩
    rw [Instrument.preinitialize_eq, hc]
    simp [Envar.get, State.log]
  · intro h
    have hc : Envar.construct env "SONAR_MPI_INSTRUMENT" "none" s =
        (⟨"none", true, "SONAR_MPI_INSTRUMENT"⟩, s.log (.getenv "SONAR_MPI_INSTRUMENT")) := by
      simp [Envar.construct, h, hp]
    rw [Instrument.preinitialize_eq, hc]
    simp [Envar.get, State.log]

/-- C26 at a concrete input: without the variable, the preinitialization from
the state at process start returns, and the only effect is the read of the
variable. -/
theorem preinitialize_undefined_is_none_witness :
    (Examples.env none (.returned 0)).getenv "SONAR_MPI_INSTRUMENT" = none ∧
    Instrument.preinitialize (Examples.env none (.returned 0)) (State.initial false) =
      .ok () ⟨false, false, [], false, [.getenv "SONAR_MPI_INSTRUMENT"]⟩ :=
  ⟨by decide,
    ((preinitialize_undefined_is_none (Examples.env none (.returned 0))
      (State.initial false)).1 (by decide)).2⟩

/-! ## The first token of the value -/

/-- Formatted extraction yields the first token: leading white space is
skipped and the token ends at the next white space. -/
theorem StringSupport.parse_token (ws tok rest : List Char)
    (hws : ∀ c ∈ ws, StringSupport.isspace c = true) (htok : tok ≠ [])
    (hns : ∀ c ∈ tok, StringSupport.isspace c = false)
    (hrest : ∀ c, rest.head? = some c → StringSupport.isspace c = true) :
    StringSupport.parse (String.mk (ws ++ tok ++ rest)) = some (String.mk tok) := by
  have hdrop : ∀ l : List Char, (∀ c ∈ l, StringSupport.isspace c = true) →
      (l ++ (tok ++ rest)).dropWhile StringSupport.isspace = tok ++ rest := by
    intro l
    induction l with
    | nil =>
      intro _
      cases tok with
      | nil => exact absurd rfl htok
      | cons c t =>
        have := hns c (List.mem_cons_self _ _)
        simp [List.dropWhile, this]
    | cons c l ih =>
      intro h
      have hc := h c (List.mem_cons_self _ _)
      simp only [List.cons_append, List.dropWhile, hc]
      exact ih (fun d hd => h d (List.mem_cons_of_mem _ hd))
  have htake : ∀ l : List Char, (∀ c ∈ l, StringSupport.isspace c = false) →
      (l ++ rest).takeWhile (fun c => !StringSupport.isspace c) = l := by
    intro l
    induction l with
    | nil =>
      intro _
      cases rest with
      | nil => rfl
      | cons c r =>
        have := hrest c rfl
        simp [List.takeWhile, this]
    | cons c l ih =>
      intro h
      have hc := h c (List.mem_cons_self _ _)
      simp only [List.cons_append, List.takeWhile, hc, Bool.not_false]
      exact congrArg _ (ih (fun d hd => h d (List.mem_cons_of_mem _ hd)))
  unfold StringSupport.parse
  simp only [List.append_assoc]
  rw [hdrop ws hws, htake tok hns]
  cases tok with
  | nil => exact absurd rfl htok
  | cons c t => simp

/-- Formatted extraction fails on a value of white space only. -/
theorem StringSupport.parse_whitespace (v : String)
    (h : ∀ c ∈ v.data, StringSupport.isspace c = true) : StringSupport.parse v = none := by
  have hdrop : ∀ l : List Char, (∀ c ∈ l, StringSupport.isspace c = true) →
      l.dropWhile StringSupport.isspace = [] := by
    intro l
    induction l with
    | nil => intro _; rfl
    | cons c l ih =>
      intro h
      have hc := h c (List.mem_cons_self _ _)
      simp only [List.dropWhile, hc]
      exact ih (fun d hd => h d (List.mem_cons_of_mem _ hd))
  unfold StringSupport.parse
  rw [hdrop v.data h]
  rfl

/-- The preinitialization with the variable defined reads the environment
through the parsed value only. -/
theorem Instrument.preinitialize_setenv (env : Env) (s : State) (v : String) :
    Instrument.preinitialize (env.setenv "SONAR_MPI_INSTRUMENT" v) s =
      match StringSupport.parse v with
      | some tmp =>
        if tmp = "ovni" then
          ovniInitialize env { s.log (.getenv "SONAR_MPI_INSTRUMENT") with _ovniEnabled := true }
        else if tmp = "none" then
          .ok () { s.log (.getenv "SONAR_MPI_INSTRUMENT") with _ovniEnabled := false }
        else
          IOHandler.fail env ["Invalid value ", tmp, " for ", "SONAR_MPI_INSTRUMENT"]
            (s.log (.getenv "SONAR_MPI_INSTRUMENT"))
      | none =>
        .ok () { IOHandler.warn
          ["Invalid value for ", "SONAR_MPI_INSTRUMENT", "; defaulting to ", "none"]
          (s.log (.getenv "SONAR_MPI_INSTRUMENT")) with _ovniEnabled := false } := by
  rw [Instrument.preinitialize_eq]
  have hi : ∀ t : State, ovniInitialize (env.setenv "SONAR_MPI_INSTRUMENT" v) t =
      ovniInitialize env t := fun _ => rfl
  cases hp : StringSupport.parse v with
  | none => simp [Envar.construct, Env.setenv, hp, Envar.get]
  | some tmp =>
    simp only [Envar.construct, Env.setenv, hp, Envar.get, Envar.getName, if_true, hi]
    rfl

/-- C27: the configuration decision of `Instrument::preinitialize` reads the
value of the variable through its first token only. Formatted extraction
yields the first token delimited by white space, and fails on a value that is
empty or white space only; two values with the same first token give the same
preinitialization; a value whose first token is "ovni" enables the
instrumentation, whatever text follows the token; and a defined value that
does not parse makes the preinitialization print the line
"Warning: Invalid value for SONAR_MPI_INSTRUMENT; defaulting to none", return
without terminating and leave the instrumentation disabled. -/
theorem preinitialize_reads_first_token (env : Env) (s : State) :
    (∀ ws tok rest : List Char,
      (∀ c ∈ ws, StringSupport.isspace c = true) → tok ≠ [] →
      (∀ c ∈ tok, StringSupport.isspace c = false) →
      (∀ c, rest.head? = some c → StringSupport.isspace c = true) →
      StringSupport.parse (String.mk (ws ++ tok ++ rest)) = some (String.mk tok)) ∧
    (∀ v : String, (∀ c ∈ v.data, StringSupport.isspace c = true) →
      StringSupport.parse v = none) ∧
    (∀ v1 v2 : String, StringSupport.parse v1 = StringSupport.parse v2 →
      Instrument.preinitialize (env.setenv "SONAR_MPI_INSTRUMENT" v1) s =
        Instrument.preinitialize (env.setenv "SONAR_MPI_INSTRUMENT" v2) s) ∧
    (∀ v : String, StringSupport.parse v = some "ovni" →
      Instrument.preinitialize (env.setenv "SONAR_MPI_INSTRUMENT" v) s =
        Instrument.preinitialize (env.setenv "SONAR_MPI_INSTRUMENT" "ovni") s ∧
      (Instrument.preinitialize (env.setenv "SONAR_MPI_INSTRUMENT" v) s).state._ovniEnabled =
        true) ∧
    (∀ v : String, StringSupport.parse v = none →
      Instrument.preinitialize (env.setenv "SONAR_MPI_INSTRUMENT" v) s =
        .ok () { s with
          _ovniEnabled := false,
          trace := s.trace ++ [.getenv "SONAR_MPI_INSTRUMENT",
            .stderr "Warning: Invalid value for SONAR_MPI_INSTRUMENT; defaulting to none\n"] }) := by
  have hsame : ∀ v1 v2 : String, StringSupport.parse v1 = StringSupport.parse v2 →
      Instrument.preinitialize (env.setenv "SONAR_MPI_INSTRUMENT" v1) s =
        Instrument.preinitialize (env.setenv "SONAR_MPI_INSTRUMENT" v2) s := by
    intro v1 v2 h
    rw [Instrument.preinitialize_setenv, Instrument.preinitialize_setenv, h]
  refine ⟨StringSupport.parse_token, StringSupport.parse_whitespace, hsame, ?_, ?_⟩
  · intro v hv
    refine ⟨hsame v "ovni" (hv.trans (by decide)), ?_⟩
    rw [Instrument.preinitialize_setenv, hv]
    simp only [if_true]
    unfold ovniInitialize Utils.getHostName
    cases hr : s.threadReady with
    | true => simp [State.log, hr, Outcome.state]
    | false =>
      cases hh : env.gethostname <;>
        simp [State.log, hr, hh, Outcome.state, IOHandler.fail, emitPayload]
  · intro v hv
    rw [Instrument.preinitialize_setenv, hv]
    have hm : "Warning: " ++ IOHandler.emitReasonParts
        ["Invalid value for ", "SONAR_MPI_INSTRUMENT", "; defaulting to ", "none"] ++ "\n" =
        "Warning: Invalid value for SONAR_MPI_INSTRUMENT; defaulting to none\n" := by decide
    simp [IOHandler.warn, State.log, hm]

/-- C27 at concrete inputs: the value "  ovni and more text" parses to "ovni"
and enables the instrumentation, and the value of two blanks gives the warning
and leaves the instrumentation disabled. -/
theorem preinitialize_reads_first_token_witness :
    StringSupport.parse "  ovni and more text" = some "ovni" ∧
    (Instrument.preinitialize ((Examples.env none (.returned 0)).setenv "SONAR_MPI_INSTRUMENT"
      "  ovni and more text") (State.initial true)).state._ovniEnabled = true ∧
    StringSupport.parse "  " = none ∧
    Instrument.preinitialize ((Examples.env none (.returned 0)).setenv "SONAR_MPI_INSTRUMENT"
      "  ") (State.initial true) =
      .ok () ⟨false, false, [], true, [.getenv "SONAR_MPI_INSTRUMENT",
        .stderr "Warning: Invalid value for SONAR_MPI_INSTRUMENT; defaulting to none\n"]⟩ :=
  ⟨by decide,
    ((preinitialize_reads_first_token (Examples.env none (.returned 0))
      (State.initial true)).2.2.2.1 "  ovni and more text" (by decide)).2,
    by decide,
    (preinitialize_reads_first_token (Examples.env none (.returned 0))
      (State.initial true)).2.2.2.2 "  " (by decide)⟩

/-! ## The stored symbols of the wrappers -/

/-- Two wrappers of the files that call the same instantiation are the same
wrapper. -/
theorem allWrappers_instantiation_inj (w1 : Wrapper) (h1 : w1 ∈ allWrappers 4)
    (w2 : Wrapper) (h2 : w2 ∈ allWrappers 4)
    (h : w1.instantiation = w2.instantiation) : w1 = w2 := by
  apply List.inj_on_of_nodup_map allWrappers_triple_nodup h1 h2
  have hl := congrArg Instantiation.lang h
  have hc := congrArg Instantiation.code h
  have hn := congrArg Instantiation.count h
  simp only [Wrapper.instantiation] at hl hc hn
  simp [Wrapper.triple, hl, hc, hn]

/-- A call through a wrapper of the files, from a state in which every wrapper
owns its slot, keeps every wrapper owning its slot and invokes, unless the
process is terminated, the address of the wrapper's own name. -/
theorem Manager.process_own_slot (env : Env) (w : Wrapper) (hw : w ∈ allWrappers 4)
    (params : List Int) (s : State) (hs : OwnSlots env (allWrappers 4) s) :
    OwnSlots env (allWrappers 4) (Manager.process env w.instantiation w.name params s).state ∧
    (Manager.process env w.instantiation w.name params s).state.trace.filter Effect.isCall =
      s.trace.filter Effect.isCall ++
        (if (Manager.process env w.instantiation w.name params s).isFatal then []
          else [.call (env.dlsym w.name) params]) := by
  cases hf : (Manager.symbol env w.instantiation w.name s).isFatal with
  | false =>
    have hr : Manager.resolved env w.instantiation w.name s = env.dlsym w.name := by
      unfold Manager.resolved
      cases hl : s.symbols.lookup w.instantiation with
      | none => rfl
      | some addr => exact hs w hw addr hl
    have hl : (Manager.lookups w.instantiation w.name s).filter Effect.isCall = [] := by
      unfold Manager.lookups
      cases s.symbols.lookup w.instantiation <;> simp [Effect.isCall]
    have hb : (bracket s._ovniEnabled w.instantiation.code (env.dlsym w.name) params).filter
        Effect.isCall = [.call (env.dlsym w.name) params] := by
      cases s._ovniEnabled <;> simp [bracket, Effect.isCall]
    have hown : OwnSlots env (allWrappers 4)
        { s with
          trace := s.trace ++ Manager.lookups w.instantiation w.name s ++
            bracket s._ovniEnabled w.instantiation.code (env.dlsym w.name) params
          symbols := match s.symbols.lookup w.instantiation with
            | some _ => s.symbols
            | none => (w.instantiation, env.dlsym w.name) :: s.symbols } := by
      intro v hv addr hlookup
      cases hstored : s.symbols.lookup w.instantiation with
      | some p =>
        simp only [hstored] at hlookup
        exact hs v hv addr hlookup
      | none =>
        simp only [hstored, List.lookup] at hlookup
        by_cases hvw : v.instantiation = w.instantiation
        · have : v = w := allWrappers_instantiation_inj v hv w hw hvw
          subst this
          simp at hlookup
          exact hlookup.symm
        · have hbeq : (v.instantiation == w.instantiation) = false := by
            simpa using hvw
          simp only [hbeq] at hlookup
          exact hs v hv addr hlookup
    rw [Manager.process_of_not_fatal_bracket env _ _ params s hf, hr]
    cases env.call (env.dlsym w.name) params <;>
      exact ⟨hown, by simp [Outcome.state, Outcome.isFatal, List.filter_append, hl, hb]⟩
  | true =>
    obtain ⟨h1, h2⟩ := (Manager.symbol_isFatal env _ _ s).1 hf
    have hp : Manager.process env w.instantiation w.name params s =
        .fatal (if env.NDEBUG then .exit 1 else .abort)
          ((s.log (.dlsym w.name)).log (.stderr ("Error: " ++
            IOHandler.emitReasonParts ["Could not find symbol ", w.name] ++ "\n"))) := by
      simp [Manager.process, Manager.symbol, h1, Symbol.load, h2, IOHandler.fail]
    rw [hp]
    exact ⟨hs, by simp [Outcome.state, Outcome.isFatal, State.log, List.filter_append,
      Effect.isCall]⟩

/-- A sequence of calls through wrappers of the files, from a state in which
every wrapper owns its slot, invokes for each call that runs the address of
the name of its own wrapper. -/
theorem run_own_slots (env : Env) (calls : List (Wrapper × List Int))
    (hcalls : ∀ c ∈ calls, c.1 ∈ allWrappers 4) :
    ∀ s : State, OwnSlots env (allWrappers 4) s →
      ∃ k, k ≤ calls.length ∧
        (run env (calls.map Wrapper.dispatch) s).state.trace.filter Effect.isCall =
          s.trace.filter Effect.isCall ++
            (calls.take k).map (fun c => Effect.call (env.dlsym c.1.name) c.2) ∧
        ((run env (calls.map Wrapper.dispatch) s).isFatal = false → k = calls.length) := by
  induction calls with
  | nil => intro s _; exact ⟨0, le_refl _, by simp [run, Outcome.state], fun _ => rfl⟩
  | cons c rest ih =>
    intro s hs
    have hc := hcalls c (List.mem_cons_self _ _)
    have hrest : ∀ d ∈ rest, d.1 ∈ allWrappers 4 :=
      fun d hd => hcalls d (List.mem_cons_of_mem _ hd)
    have hstep := Manager.process_own_slot env c.1 hc c.2 s hs
    simp only [List.map_cons, Wrapper.dispatch, run, step]
    cases hp : Manager.process env c.1.instantiation c.1.name c.2 s with
    | ok v t =>
      rw [hp] at hstep
      simp only [Outcome.state, Outcome.isFatal] at hstep
      obtain ⟨k, hk, htrace, hfatal⟩ := ih hrest t hstep.1
      refine ⟨k + 1, by simpa using hk, ?_, fun h => by simpa using hfatal h⟩
      rw [htrace, hstep.2]
      simp
    | threw e t =>
      rw [hp] at hstep
      simp only [Outcome.state, Outcome.isFatal] at hstep
      obtain ⟨k, hk, htrace, hfatal⟩ := ih hrest t hstep.1
      refine ⟨k + 1, by simpa using hk, ?_, fun h => by simpa using hfatal h⟩
      rw [htrace, hstep.2]
      simp
    | fatal how t =>
      rw [hp] at hstep
      simp only [Outcome.state, Outcome.isFatal] at hstep
      exact ⟨0, Nat.zero_le _, by simpa [Outcome.state] using hstep.2,
        fun h => by simp [Outcome.isFatal] at h⟩

/-- C28: the stored symbol of `Manager::process` belongs to the instantiation,
not to the name: once a call through an instantiation has stored an address,
a call through the same instantiation under any other name does no lookup and
invokes the stored address. Across the wrappers of the C file and of the
Fortran file for MPI_VERSION 4, no two wrappers with different names have the
same language, operation code and count flavor, so they call different
instantiations. Hence, from a state with no stored symbol, in every sequence of
calls through wrappers of the files each call that runs invokes the address
that the lookup gives for the name of its own wrapper, and when the process is
not terminated every call of the sequence runs. -/
theorem wrappers_own_their_slots (env : Env) (s : State) (hfresh : s.symbols = []) :
    (∀ (inst : Instantiation) (name1 name2 : String) (params1 params2 : List Int),
      env.dlsym name1 ≠ 0 →
      (Manager.process env inst name1 params1 s).state.symbols.lookup inst =
        some (env.dlsym name1) ∧
      (Manager.process env inst name2 params2
          (Manager.process env inst name1 params1 s).state).state.trace =
        (Manager.process env inst name1 params1 s).state.trace ++
          bracket s._ovniEnabled inst.code (env.dlsym name1) params2) ∧
    (∀ w1 ∈ allWrappers 4, ∀ w2 ∈ allWrappers 4, w1.name ≠ w2.name →
      w1.triple ≠ w2.triple ∧ w1.instantiation ≠ w2.instantiation) ∧
    (∀ calls : List (Wrapper × List Int), (∀ c ∈ calls, c.1 ∈ allWrappers 4) →
      ∃ k, k ≤ calls.length ∧
        (run env (calls.map Wrapper.dispatch) s).state.trace.filter Effect.isCall =
          s.trace.filter Effect.isCall ++
            (calls.take k).map (fun c => Effect.call (env.dlsym c.1.name) c.2) ∧
        ((run env (calls.map Wrapper.dispatch) s).isFatal = false → k = calls.length)) := by
  refine ⟨?_, ?_, ?_⟩
  · intro inst name1 name2 params1 params2 hfound
    have hl : s.symbols.lookup inst = none := by rw [hfresh]; rfl
    have hf : (Manager.symbol env inst name1 s).isFatal = false := by
      cases h : (Manager.symbol env inst name1 s).isFatal with
      | false => rfl
      | true => exact absurd ((Manager.symbol_isFatal env inst name1 s).1 h).2 hfound
    have hstate : (Manager.process env inst name1 params1 s).state =
        { s with
          trace := s.trace ++ Manager.lookups inst name1 s ++
            bracket s._ovniEnabled inst.code (Manager.resolved env inst name1 s) params1
          symbols := (inst, env.dlsym name1) :: s.symbols } := by
      rw [Manager.process_of_not_fatal_bracket env inst name1 params1 s hf]
      cases env.call (Manager.resolved env inst name1 s) params1 <;>
        simp [Outcome.state, hl]
    rw [hstate]
    have hl2 : ∀ t : List Effect,
        ({ s with trace := t, symbols := (inst, env.dlsym name1) :: s.symbols } :
          State).symbols.lookup inst = some (env.dlsym name1) := by
      intro t
      simp [List.lookup]
    refine ⟨hl2 _, ?_⟩
    have hf2 : ∀ t : List Effect, (Manager.symbol env inst name2
        { s with trace := t, symbols := (inst, env.dlsym name1) :: s.symbols }).isFatal =
          false := by
      intro t
      cases h : (Manager.symbol env inst name2
        { s with trace := t, symbols := (inst, env.dlsym name1) :: s.symbols }).isFatal with
      | false => rfl
      | true =>
        have := ((Manager.symbol_isFatal env inst name2 _).1 h).1
        rw [hl2 t] at this
        exact absurd this (by simp)
    rw [Manager.process_of_not_fatal_bracket env inst name2 params2 _ (hf2 _)]
    cases env.call (Manager.resolved env inst name2 _) params2 <;>
      simp [Outcome.state, Manager.lookups, Manager.resolved, List.lookup]
  · intro w1 h1 w2 h2 hne
    constructor
    · intro h
      exact hne (congrArg Wrapper.name
        (List.inj_on_of_nodup_map allWrappers_triple_nodup h1 h2 h))
    · intro h
      exact hne (congrArg Wrapper.name (allWrappers_instantiation_inj w1 h1 w2 h2 h))
  · intro calls hcalls
    exact run_own_slots env calls hcalls s (fun w _ addr h => by simp [hfresh] at h)

set_option maxRecDepth 100000 in
/-- C28 at a concrete input: from the state at process start, the calls
`MPI_Barrier`, `mpi_barrier_`, `MPI_Barrier` invoke the address of
`MPI_Barrier`, the address of `mpi_barrier_` and the address of `MPI_Barrier`
again, after one lookup for each of the two names. -/
theorem wrappers_own_their_slots_witness :
    (State.initial false).symbols = [] ∧
    (run (Examples.world none (.returned 0))
      ([(⟨.C, .Barrier, .Regular, "int", "MPI_Barrier", ["comm_t"]⟩, [91]),
        (⟨.Fortran, .Barrier, .Regular, "void", "mpi_barrier_", ["comm_t", "err_t"]⟩, [91, 92]),
        (⟨.C, .Barrier, .Regular, "int", "MPI_Barrier", ["comm_t"]⟩, [93])].map
          Wrapper.dispatch)
      (State.initial false)).state.trace =
      [.dlsym "MPI_Barrier", .call 1011 [91], .dlsym "mpi_barrier_", .call 1012 [91, 92],
       .call 1011 [93]] ∧
    (∀ w1 ∈ allWrappers 4, ∀ w2 ∈ allWrappers 4, w1.name ≠ w2.name →
      w1.triple ≠ w2.triple ∧ w1.instantiation ≠ w2.instantiation) :=
  ⟨rfl, by decide,
    (wrappers_own_their_slots (Examples.world none (.returned 0)) (State.initial false)
      rfl).2.1⟩

end sonar
